import Mathlib

/-! Cannonball simulation of `game.cpp`.

A shallow embedding of the trajectory / collision / bounce engine of
`Project Files/game.cpp`: the global variables of the program become the
fields of `State`, the body of the render loop of `main` becomes `tick`, and
the GLFW key callback becomes `keyboard`.

Numbers.  The program computes in `float`.  The embedding is written over an
arbitrary linearly ordered field `K` and reads every arithmetic operation as
the exact one (no rounding, no overflow, no NaN); at `K = ℚ` every definition
below can be evaluated.  Decimal constants such as `0.15f` stand for the exact
decimal.

Library calls.  `cos`, `sin` and `sqrt` come from the C math library, which is
not part of the repository; they are the fields of `MathLib`, a parameter of
the definitions that call them.  `glfwGetTime()` is a reading of the wall
clock: every reading is an input of the step that performs it.

Out of the embedding: everything the draw functions send to OpenGL, the
camera variables moved by the arrow keys, and closing the window.
-/

namespace AngryBirds

/-- The C math library as the program uses it.  `cosDeg d` is
`cos((float)(d*M_PI/180.0f))`, `sinDeg d` is `sin((float)(d*M_PI/180.0f))`
(the program only ever calls `cos` and `sin` on an angle in degrees converted
this way) and `sqrt` is `sqrt`. -/
structure MathLib (K : Type) where
  cosDeg : K → K
  sinDeg : K → K
  sqrt : K → K

/-- The global variables of `game.cpp` that the simulation reads or writes.
The `int` flags `fire`, `fl`, `Target_visible`, `collision_flag`,
`in_air_flag` and `obs_collision` only ever hold 0 or 1 and are only compared
with 0 and 1; they are booleans here. -/
structure State (K : Type) where
  last_update_time : K
  current_time : K
  u : K
  g : K
  thita : K
  thita_ball : K
  fire : Bool
  fl : Bool
  t : K
  Target_visible : Bool
  x_cannonball : K
  y_cannonball : K
  e : K
  v : K
  ux : K
  uy : K
  vx : K
  vy : K
  score : Int
  collision_flag : Bool
  in_air_flag : Bool
  x_till_collision : K
  y_till_collision : K
  obs_collision : Bool
  t_till_now : K
deriving DecidableEq

/-- The keys `keyboard` distinguishes for the simulation; `other` is every
key that leaves the simulation variables alone (arrow keys, escape, ...). -/
inductive Key where
  | A | B | SPACE | F | S | other
deriving DecidableEq

/-- The `action` argument of the GLFW key callback. -/
inductive Action where
  | RELEASE | REPEAT | PRESS
deriving DecidableEq

/-- One call of the key callback: the key, the action, and what
`glfwGetTime()` returns if the callback reads the clock. -/
structure KeyEvent (K : Type) where
  key : Key
  action : Action
  time : K

/-- What one iteration of the render loop reads from outside: the clock
reading of the world-bounds reset (line 1643), the key callbacks that
`glfwPollEvents()` runs, in order, and the clock reading of line 1657. -/
structure Frame (K : Type) where
  resetTime : K
  events : List (KeyEvent K)
  current : K

variable {K : Type} [LinearOrderedField K]

/-- The values of the globals when the render loop is entered: the static
initialisers, then lines 1498-1501 of `main`.  `x_cannonball`, `y_cannonball`
and `vy` are zero-initialised. -/
def init (M : MathLib K) (startTime : K) : State K :=
  { last_update_time := startTime
    current_time := 0
    u := 4.0
    g := 4.0
    thita := 45
    thita_ball := 45
    fire := false
    fl := false
    t := 0
    Target_visible := true
    x_cannonball := 0
    y_cannonball := 0
    e := 0.6
    v := 4.0
    ux := 4.0 * M.cosDeg 45
    uy := 4.0 * M.sinDeg 45
    vx := 4.0 * M.cosDeg 45
    vy := 0
    score := 0
    collision_flag := false
    in_air_flag := false
    x_till_collision := -3.0
    y_till_collision := -2.75
    obs_collision := false
    t_till_now := 0 }

/-- The key callback `keyboard` (lines 377-473), restricted to the simulation
variables. -/
def keyboard (s : State K) (key : Key) (action : Action) (now : K) : State K :=
  match action, key with
  | .RELEASE, .A => { s with thita := s.thita + 2 }
  | .RELEASE, .B => { s with thita := s.thita - 2 }
  | .RELEASE, .SPACE =>
      { s with thita_ball := s.thita, fire := true, fl := true, last_update_time := now }
  | .RELEASE, .F => { s with u := s.u + 0.2 }
  | .RELEASE, .S => { s with u := s.u - 0.2 }
  | .REPEAT, .A => { s with thita := s.thita + 5 }
  | .REPEAT, .B => { s with thita := s.thita - 5 }
  | .REPEAT, .F => { s with u := s.u + 0.1 }
  | .REPEAT, .S => { s with u := s.u - 0.1 }
  | _, _ => s

/-- Lines 1505-1510: the pending correction of `vx` after a fire trigger. -/
def fireCorrection (M : MathLib K) (s : State K) : State K :=
  if s.fl = true then
    { s with vx := s.vx * (M.sqrt 2 * M.cosDeg s.thita_ball), fl := false }
  else s

/-- Lines 1511-1512: the position of the ball for this iteration. -/
def samplePosition (M : MathLib K) (s : State K) : State K :=
  { s with
    x_cannonball := s.x_till_collision + s.vx * (s.t - s.t_till_now)
    y_cannonball :=
      s.y_till_collision + s.u * M.sinDeg s.thita_ball * s.t - 0.5 * s.g * s.t * s.t }

/-- Lines 1525-1526: the diagnostic velocity. -/
def diagnostics (M : MathLib K) (s : State K) : State K :=
  { s with
    vy := s.uy - s.g * s.t
    v := M.sqrt (s.vx ^ 2 + (s.uy - s.g * s.t) ^ 2) }

/-- The function `checkCollisionTarget` (lines 882-888). -/
def checkCollisionTarget (x_ball y_ball xsmall_target xlarge_target ysmall_target
    ylarge_target : K) : Bool :=
  if x_ball ≥ xsmall_target ∧ x_ball ≤ xlarge_target ∧ y_ball ≤ ylarge_target ∧
      y_ball ≥ ysmall_target then true
  else false

/-- The simulation part of `drawTarget1` (lines 1302-1325). -/
def drawTarget1 (s : State K) : State K :=
  if checkCollisionTarget s.x_cannonball s.y_cannonball 1.5 2.5 (-3.0) (-2.0) = false ∧
      s.Target_visible = true then s
  else { s with Target_visible := false }

/-- The simulation part of `drawTarget2` (lines 1357-1374). -/
def drawTarget2 (s : State K) : State K :=
  if checkCollisionTarget s.x_cannonball s.y_cannonball 1.6 2.4 (-2.0) (-1.0) = false ∧
      s.Target_visible = true then s
  else { s with Target_visible := false }

/-- The condition of the `if` of `CheckFloorCollisions` (line 892). -/
def floorBand (x_ball y_ball x_small x_large y_small : K) : Prop :=
  y_ball ≥ y_small ∧ y_ball < y_small + 0.15 ∧ x_ball < x_large ∧ x_ball > x_small

instance floorBandDecidable (x_ball y_ball x_small x_large y_small : K) :
    Decidable (floorBand x_ball y_ball x_small x_large y_small) := by
  unfold floorBand; infer_instance

/-- The function `CheckFloorCollisions` (lines 890-905). -/
def CheckFloorCollisions (s : State K) (x_ball y_ball x_small x_large y_small : K) :
    State K :=
  if floorBand x_ball y_ball x_small x_large y_small then
    { s with
      collision_flag := true
      in_air_flag := false
      fire := false
      x_till_collision := x_ball
      y_till_collision := y_ball + 0.1
      obs_collision := false
      t_till_now := 0 }
  else s

/-- The condition of the `if` of `checkCollisionObs` (line 911). -/
def obstacleBox (x_ball y_ball xsmall_obs xlarge_obs ysmall_obs ylarge_obs : K) : Prop :=
  x_ball ≥ xsmall_obs - 0.15 ∧ x_ball < xlarge_obs + 0.15 ∧ y_ball < ylarge_obs ∧
    y_ball > ysmall_obs

instance obstacleBoxDecidable (x_ball y_ball xsmall_obs xlarge_obs ysmall_obs ylarge_obs : K) :
    Decidable (obstacleBox x_ball y_ball xsmall_obs xlarge_obs ysmall_obs ylarge_obs) := by
  unfold obstacleBox; infer_instance

/-- The function `checkCollisionObs` (lines 907-936): the returned boolean and
the globals after the call.  Its last parameter shadows the global `t`. -/
def checkCollisionObs (s : State K) (x_ball y_ball xsmall_obs xlarge_obs ysmall_obs
    ylarge_obs t : K) : Bool × State K :=
  if obstacleBox x_ball y_ball xsmall_obs xlarge_obs ysmall_obs ylarge_obs then
    (true,
      { s with
        collision_flag := true
        in_air_flag := false
        fire := false
        x_till_collision := if s.vx > 0 then x_ball - 0.1 else x_ball + 0.1
        t_till_now := t
        obs_collision := true })
  else (false, s)

/-- One of the four `if(checkCollisionObs(...)) { vx = -1 * e * vx; }`
statements of lines 1545-1576. -/
def obstacleBounce (s : State K) (xsmall_obs xlarge_obs ysmall_obs ylarge_obs : K) :
    State K :=
  let r := checkCollisionObs s s.x_cannonball s.y_cannonball xsmall_obs xlarge_obs
    ysmall_obs ylarge_obs s.t
  if r.1 = true then { r.2 with vx := -1 * r.2.e * r.2.vx } else r.2

/-- Lines 1540-1544: the five floor-band checks, in order. -/
def floorChecks (s : State K) : State K :=
  let s1 := CheckFloorCollisions s s.x_cannonball s.y_cannonball (-6.0) 6.0 (-3.0)
  let s2 := CheckFloorCollisions s1 s1.x_cannonball s1.y_cannonball (-1.2) (-0.8) (-2.0)
  let s3 := CheckFloorCollisions s2 s2.x_cannonball s2.y_cannonball (-2.2) (-1.8) (-2.25)
  let s4 := CheckFloorCollisions s3 s3.x_cannonball s3.y_cannonball 0.8 1.2 (-2.25)
  CheckFloorCollisions s4 s4.x_cannonball s4.y_cannonball (-0.2) 0.2 (-1.5)

/-- Lines 1545-1576: the four obstacle checks, in order. -/
def obstacleChecks (s : State K) : State K :=
  let s1 := obstacleBounce s (-1.2) (-0.8) (-3.0) (-2.0)
  let s2 := obstacleBounce s1 (-2.2) (-1.8) (-3.0) (-2.25)
  let s3 := obstacleBounce s2 0.8 1.2 (-3.0) (-2.25)
  obstacleBounce s3 (-0.2) 0.2 (-3.0) (-1.5)

/-- Lines 1581-1630: the clock advance of a flying ball, or the resolution of
a collision detected in this iteration. -/
def advance (s : State K) : State K :=
  if (s.fire = true ∨ (s.in_air_flag = true ∧ s.collision_flag = false)) ∧
      (s.x_cannonball > -4.5 ∧ s.x_cannonball < 4.5) then
    { s with t := s.t + 0.01 }
  else if s.collision_flag = true ∧ s.in_air_flag = false then
    if s.obs_collision = false then
      { s with
        in_air_flag := true
        collision_flag := false
        u := s.u * s.e
        t := 0
        y_cannonball := s.y_till_collision }
    else
      { s with
        in_air_flag := true
        collision_flag := false
        t := s.t + 0.01 }
  else s

/-- Lines 1632-1644: the world-bounds reset; `now` is the clock reading of
line 1643. -/
def boundsReset (s : State K) (now : K) : State K :=
  if s.x_cannonball < -4.5 ∨ s.x_cannonball > 4.5 then
    { s with
      in_air_flag := false
      collision_flag := false
      t := 0
      vx := s.ux
      x_till_collision := -3.0
      y_till_collision := -2.75
      fire := false
      u := 4.0
      last_update_time := now }
  else s

/-- The call of `glfwPollEvents()` at line 1654: the pending key callbacks run
one after the other. -/
def pollEvents (s : State K) (events : List (KeyEvent K)) : State K :=
  events.foldl (fun acc ev => keyboard acc ev.key ev.action ev.time) s

/-- Lines 1657-1670: the clock is read and the watchdog resets the simulation
when ten seconds have passed since `last_update_time`. -/
def watchdog (s : State K) (current : K) : State K :=
  if current - s.last_update_time ≥ 10 then
    { s with
      current_time := current
      in_air_flag := false
      collision_flag := false
      t := 0
      vx := s.ux
      x_till_collision := -3.0
      y_till_collision := -2.75
      fire := false
      u := 4.0
      last_update_time := current }
  else { s with current_time := current }

/-- The part of one loop iteration that runs before the events are polled:
lines 1505-1644. -/
def simulate (M : MathLib K) (s : State K) (resetTime : K) : State K :=
  boundsReset
    (advance (obstacleChecks (floorChecks (drawTarget2 (drawTarget1
      (diagnostics M (samplePosition M (fireCorrection M s))))))))
    resetTime

/-- One iteration of the render loop of `main` (lines 1505-1670). -/
def tick (M : MathLib K) (s : State K) (f : Frame K) : State K :=
  watchdog (pollEvents (simulate M s f.resetTime) f.events) f.current

/-- The loop run over a list of frames. -/
def run (M : MathLib K) (s : State K) (frames : List (Frame K)) : State K :=
  frames.foldl (tick M) s

/-- The state in which `main` samples the position: the globals after lines
1505-1512. -/
def sampled (M : MathLib K) (s : State K) : State K :=
  samplePosition M (fireCorrection M s)

/-- Some floor-band check of lines 1540-1544 fires at the point `(x, y)`. -/
def anyFloorBand (x y : K) : Prop :=
  floorBand x y (-6.0) 6.0 (-3.0) ∨ floorBand x y (-1.2) (-0.8) (-2.0) ∨
    floorBand x y (-2.2) (-1.8) (-2.25) ∨ floorBand x y 0.8 1.2 (-2.25) ∨
    floorBand x y (-0.2) 0.2 (-1.5)

/-- Some obstacle check of lines 1545-1576 fires at the point `(x, y)`. -/
def anyObstacleBox (x y : K) : Prop :=
  obstacleBox x y (-1.2) (-0.8) (-3.0) (-2.0) ∨ obstacleBox x y (-2.2) (-1.8) (-3.0) (-2.25) ∨
    obstacleBox x y 0.8 1.2 (-3.0) (-2.25) ∨ obstacleBox x y (-0.2) 0.2 (-3.0) (-1.5)

/-- The variables that no statement of the render loop or of the key callback
assigns: the startup velocity components, the restitution, the gravity and
the score. -/
def launchConstants (s : State K) : K × K × K × K × Int :=
  (s.ux, s.uy, s.e, s.g, s.score)

/-- The event is an aim adjustment: `A` or `B`, released or held. -/
def isAimKey (ev : KeyEvent K) : Bool :=
  (ev.key = Key.A ∨ ev.key = Key.B) ∧ (ev.action = Action.RELEASE ∨ ev.action = Action.REPEAT)

/-- The event is a fire trigger: the space bar released. -/
def isFireKey (ev : KeyEvent K) : Bool :=
  ev.key = Key.SPACE ∧ ev.action = Action.RELEASE

/-- The frame with its aim adjustments left out. -/
def withoutAim (f : Frame K) : Frame K :=
  { f with events := f.events.filter (fun ev => !isAimKey ev) }

/-- The state with the aim angle `thita` replaced. -/
def setAim (s : State K) (a : K) : State K :=
  { s with thita := a }

/-- The state the collision checks leave inside an iteration: the globals
after lines 1505-1576, before the clock advance or bounce resolution. -/
def checked (M : MathLib K) (s : State K) : State K :=
  obstacleChecks (floorChecks (drawTarget2 (drawTarget1 (diagnostics M (sampled M s)))))

/-! ## A concrete math library over `ℚ`

The program's `cos`, `sin` and `sqrt` return floats, that is rational
approximations of the real functions.  To evaluate the model on concrete
inputs the same role is played by the rational approximations below, which
are exact at the multiples of 90 degrees. -/

/-- Bhaskara's rational approximation of the sine of `d` degrees, for
`0 ≤ d ≤ 180`; it is exact at 0, 30, 90, 150 and 180 degrees. -/
def bhaskara (d : ℚ) : ℚ :=
  4 * d * (180 - d) / (40500 - d * (180 - d))

/-- The sine of `d` degrees: the angle is reduced to `[0, 360)` and the second
half turn is the first one negated. -/
def sinDegQ (d : ℚ) : ℚ :=
  if d - 360 * ⌊d / 360⌋ ≤ 180 then bhaskara (d - 360 * ⌊d / 360⌋)
  else -bhaskara (d - 360 * ⌊d / 360⌋ - 180)

/-- The cosine of `d` degrees is the sine of `d + 90` degrees. -/
def cosDegQ (d : ℚ) : ℚ :=
  sinDegQ (d + 90)

/-- Heron's iteration for the square root of `x`, started at `(x + 1) / 2`. -/
def heron (x : ℚ) : ℕ → ℚ
  | 0 => (x + 1) / 2
  | n + 1 => (heron x n + x / heron x n) / 2

/-- The square root: two Heron steps (`sqrtQ 2 = 577/408`). -/
def sqrtQ (x : ℚ) : ℚ :=
  if x ≤ 0 then 0 else heron x 2

/-- The rational math library used for concrete runs. -/
def ratLibm : MathLib ℚ :=
  { cosDeg := cosDegQ, sinDeg := sinDegQ, sqrt := sqrtQ }

/-- A frame with no key event whose clock readings are all `now`. -/
def quietFrame (now : ℚ) : Frame ℚ :=
  { resetTime := now, events := [], current := now }

/-- A frame whose clock readings are all 0 and in which the given key events
are polled. -/
def keyFrame (events : List (KeyEvent ℚ)) : Frame ℚ :=
  { resetTime := 0, events := events, current := 0 }

/-- The space bar is released: the fire trigger. -/
def fireKey : KeyEvent ℚ :=
  { key := Key.SPACE, action := Action.RELEASE, time := 0 }

/-- The key `B` is held: the aim goes down by 5 degrees. -/
def aimDownKey : KeyEvent ℚ :=
  { key := Key.B, action := Action.REPEAT, time := 0 }

/-- The key `F` is released: the speed goes up by 0.2. -/
def fasterKey : KeyEvent ℚ :=
  { key := Key.F, action := Action.RELEASE, time := 0 }

/-- A ball in flight about to land on the ground: launched level
(`thita_ball = 0`) with `vx = 1`, half a second after its last anchor at
`(-3, -2.4)`; the sampled position is `(-2.5, -2.9)`. -/
def landingState : State ℚ :=
  { init ratLibm 0 with
    thita_ball := 0
    in_air_flag := true
    vx := 1
    t := 0.5
    x_till_collision := -3.0
    y_till_collision := -2.4 }

/-- A ball in flight about to hit the side of the first obstacle: `vx = 2`,
`e = 0.6`, a quarter of a second after its last anchor at `(-1.8, -2.375)`;
the sampled position is `(-1.3, -2.5)`. -/
def wallState : State ℚ :=
  { init ratLibm 0 with
    thita_ball := 0
    in_air_flag := true
    vx := 2.0
    t := 0.25
    x_till_collision := -1.8
    y_till_collision := -2.375 }

/-- A ball in flight beyond the right world bound: `vx = 2`, anchored at
`(3.6, -2)` half a second ago; the sampled `x` is 4.6. -/
def strayState : State ℚ :=
  { init ratLibm 0 with
    thita_ball := 0
    in_air_flag := true
    u := 2.4
    vx := 2.0
    t := 0.5
    x_till_collision := 3.6
    y_till_collision := -2.0 }

/-- The frame in which the aim is lowered from 45 to -90 degrees (27 repeats of
`B`) and the shot is then fired. -/
def aimDownAndFire : Frame ℚ :=
  keyFrame (List.replicate 27 aimDownKey ++ [fireKey])

/-! ## Conditions of one iteration -/

/-- The condition of the world-bounds reset (line 1632) in the iteration that
starts in `s`. -/
def outOfBounds (M : MathLib K) (s : State K) : Prop :=
  (sampled M s).x_cannonball < -4.5 ∨ (sampled M s).x_cannonball > 4.5

instance outOfBoundsDecidable (M : MathLib K) (s : State K) : Decidable (outOfBounds M s) := by
  unfold outOfBounds; infer_instance

/-- The condition of the watchdog (line 1658) in the iteration that starts in
`s` and reads the frame `f`: ten seconds have passed since the
`last_update_time` the polled key events leave. -/
def watchdogDue (M : MathLib K) (s : State K) (f : Frame K) : Prop :=
  f.current - (pollEvents (simulate M s f.resetTime) f.events).last_update_time ≥ 10

instance watchdogDueDecidable (M : MathLib K) (s : State K) (f : Frame K) :
    Decidable (watchdogDue M s f) := by
  unfold watchdogDue; infer_instance

/-- The iteration that starts in `s` detects a hit: some floor-band check or
some obstacle check fires at the sampled position. -/
def hitDetected (M : MathLib K) (s : State K) : Prop :=
  anyFloorBand (sampled M s).x_cannonball (sampled M s).y_cannonball ∨
    anyObstacleBox (sampled M s).x_cannonball (sampled M s).y_cannonball

/-- The state reached from the initial state when the aim is lowered to -90
degrees, the shot is fired and three more iterations have run: the ball is
falling at `(-3, -2.8308)` and its next sampled position is on the ground
band. -/
def fallingState : State ℚ :=
  run ratLibm (init ratLibm 0) [aimDownAndFire, quietFrame 0, quietFrame 0, quietFrame 0]

/-- The test of `drawTarget1` (line 1302) at the position the iteration that
starts in `s` samples. -/
def target1Hit (M : MathLib K) (s : State K) : Bool :=
  checkCollisionTarget (sampled M s).x_cannonball (sampled M s).y_cannonball 1.5 2.5
    (-3.0) (-2.0)

/-- The test of `drawTarget2` (line 1357) at the position the iteration that
starts in `s` samples. -/
def target2Hit (M : MathLib K) (s : State K) : Bool :=
  checkCollisionTarget (sampled M s).x_cannonball (sampled M s).y_cannonball 1.6 2.4
    (-2.0) (-1.0)

/-- A ball in flight inside the rectangle of the first target only: the
sampled position is `(2, -2.5)`. -/
def inTarget1State : State ℚ :=
  { init ratLibm 0 with
    thita_ball := 0
    in_air_flag := true
    vx := 2.0
    t := 0.25
    x_till_collision := 1.5
    y_till_collision := -2.375 }

/-- A ball in flight inside the rectangle of the second target only: the
sampled position is `(2, -1.5)`. -/
def inTarget2State : State ℚ :=
  { init ratLibm 0 with
    thita_ball := 0
    in_air_flag := true
    vx := 2.0
    t := 0.25
    x_till_collision := 1.5
    y_till_collision := -1.375 }

/-- The initial state with the target flag already cleared. -/
def hiddenTargetState : State ℚ :=
  { init ratLibm 0 with Target_visible := false }

/-- The clock, the launch speed and the watchdog timer: variables that the
sampling, the draw functions and the collision checks (lines 1505-1576) leave
alone. -/
def flightVars (s : State K) : K × K × K :=
  (s.t, s.u, s.last_update_time)

/-- The condition under which lines 1596-1630 resolve a floor bounce in the
state `p` the collision checks leave: the first branch of line 1581 is not
taken, `collision_flag` is set with `in_air_flag` clear, and `obs_collision`
is 0. -/
def floorBounceBranch (p : State K) : Prop :=
  ¬((p.fire = true ∨ (p.in_air_flag = true ∧ p.collision_flag = false)) ∧
      (p.x_cannonball > -4.5 ∧ p.x_cannonball < 4.5)) ∧
    (p.collision_flag = true ∧ p.in_air_flag = false) ∧ p.obs_collision = false

instance floorBounceBranchDecidable (p : State K) : Decidable (floorBounceBranch p) := by
  unfold floorBounceBranch; infer_instance

/-- The iteration that starts in `s` resolves a floor bounce. -/
def floorBounceTick (M : MathLib K) (s : State K) : Prop :=
  floorBounceBranch (checked M s)

instance floorBounceTickDecidable (M : MathLib K) (s : State K) :
    Decidable (floorBounceTick M s) := by
  unfold floorBounceTick; infer_instance

/-- The event is a speed adjustment: `F` or `S`, released or held. -/
def isSpeedKey (ev : KeyEvent K) : Bool :=
  (ev.key = Key.F ∨ ev.key = Key.S) ∧ (ev.action = Action.RELEASE ∨ ev.action = Action.REPEAT)

/-- Nothing but the bounce resolution can change the launch speed in the
iteration that starts in `s` and reads the frame `f`: the ball is inside the
world bounds, the watchdog is not due and no speed key is polled. -/
def undisturbed (M : MathLib K) (s : State K) (f : Frame K) : Prop :=
  ¬ outOfBounds M s ∧ ¬ watchdogDue M s f ∧ ∀ ev ∈ f.events, isSpeedKey ev = false

/-- Every iteration of the run from `s` over the frames is undisturbed. -/
def allUndisturbed (M : MathLib K) : State K → List (Frame K) → Prop
  | _, [] => True
  | s, f :: frames => undisturbed M s f ∧ allUndisturbed M (tick M s f) frames

/-- The number of iterations of the run from `s` over the frames that resolve
a floor bounce. -/
def bounces (M : MathLib K) : State K → List (Frame K) → ℕ
  | _, [] => 0
  | s, f :: frames => (if floorBounceTick M s then 1 else 0) + bounces M (tick M s f) frames

/-- Thirteen frames with no key event, all at clock reading 0: the run from
`fallingState` over them holds three floor bounces. -/
def threeBounceFrames : List (Frame ℚ) :=
  List.replicate 13 (quietFrame 0)

/-- A ball in flight at the foot of the first obstacle: the sampled position
is `(-1, -2.9)`, on the ground band and inside the obstacle's inflated box. -/
def obstacleFootState : State ℚ :=
  { init ratLibm 0 with
    thita_ball := 0
    in_air_flag := true
    vx := 2.0
    t := 0.25
    x_till_collision := -1.5
    y_till_collision := -2.775 }

/-- The state at the end of the iteration that follows `fallingState`: the
ball has bounced off the ground and is airborne. -/
def bouncedState : State ℚ :=
  tick ratLibm fallingState (quietFrame 0)

/-- The state one iteration after `bouncedState`: the ball is airborne after
its bounce, with `t = 0.01`. -/
def airborneState : State ℚ :=
  tick ratLibm bouncedState (quietFrame 0)

/-- A ball in flight beyond the right world bound after a wall bounce left
`t_till_now = 0.3`: `vx = 2`, anchored at `(4.2, -2)`, `t = 0.5`; the sampled
`x` is 4.6. -/
def strayAfterWallState : State ℚ :=
  { init ratLibm 0 with
    thita_ball := 0
    in_air_flag := true
    obs_collision := true
    vx := 2.0
    t := 0.5
    t_till_now := 0.3
    x_till_collision := 4.2
    y_till_collision := -2.0 }

/-- The band `(x_small, x_large, y_small)` is one of the five that lines
1540-1544 pass to `CheckFloorCollisions`. -/
def configuredBand (x_small x_large y_small : K) : Prop :=
  (x_small = -6.0 ∧ x_large = 6.0 ∧ y_small = -3.0) ∨
    (x_small = -1.2 ∧ x_large = -0.8 ∧ y_small = -2.0) ∨
    (x_small = -2.2 ∧ x_large = -1.8 ∧ y_small = -2.25) ∨
    (x_small = 0.8 ∧ x_large = 1.2 ∧ y_small = -2.25) ∨
    (x_small = -0.2 ∧ x_large = 0.2 ∧ y_small = -1.5)

/-- The state without the variables every iteration writes afresh before it
reads them: the position sample, the diagnostic velocity and the clock
reading. -/
def engineState (s : State K) : State K :=
  { s with x_cannonball := 0, y_cannonball := 0, vy := 0, v := 0, current_time := 0 }

/-- A ball in flight about to land low on the ground band: the sampled
position is `(-2.5, -2.98)`. -/
def lowLandingState : State ℚ :=
  { init ratLibm 0 with
    thita_ball := 0
    in_air_flag := true
    vx := 1
    t := 0.5
    x_till_collision := -3.0
    y_till_collision := -2.48 }

/-- A ball in flight sampled exactly on the right world bound: `vx = 2`,
anchored at `(3.5, -2)` half a second ago; the sampled position is
`(4.5, -2.5)`. -/
def boundaryState : State ℚ :=
  { init ratLibm 0 with
    thita_ball := 0
    in_air_flag := true
    vx := 2.0
    t := 0.5
    x_till_collision := 3.5
    y_till_collision := -2.0 }

/-- The iteration that starts in `s` does nothing but sample: no correction is
pending, no collision check fires, the sampled position is in no target
rectangle, neither branch of lines 1581-1630 is taken and the ball is not
outside the world bounds. -/
def stillState (M : MathLib K) (s : State K) : Prop :=
  s.fl = false ∧ ¬ hitDetected M s ∧ target1Hit M s = false ∧ target2Hit M s = false ∧
    ¬((s.fire = true ∨ (s.in_air_flag = true ∧ s.collision_flag = false)) ∧
      ((sampled M s).x_cannonball > -4.5 ∧ (sampled M s).x_cannonball < 4.5)) ∧
    ¬(s.collision_flag = true ∧ s.in_air_flag = false) ∧ ¬ outOfBounds M s

/-- The frame in which the aim is lowered from 45 to -135 degrees (36 repeats
of `B`) and the shot is then fired. -/
def aimBackAndFire : Frame ℚ :=
  keyFrame (List.replicate 36 aimDownKey ++ [fireKey])

/-- The state reached from the initial state when the aim is lowered to -135
degrees, the shot is fired, three iterations run and the fire trigger is
polled again at the end of the fourth: the ball is in flight with `t = 0.04`,
a correction of `vx` is pending, and the next sampled position is on the
ground band. -/
def refiredState : State ℚ :=
  run ratLibm (init ratLibm 0)
    [aimBackAndFire, quietFrame 0, quietFrame 0, quietFrame 0, keyFrame [fireKey]]

/-! ## Theorems -/

set_option maxRecDepth 100000
set_option maxHeartbeats 1000000
set_option linter.unusedSectionVars false

section frame_lemmas

variable (M : MathLib K) (s : State K)

@[simp]
theorem drawTarget1_x_cannonball : (drawTarget1 s).x_cannonball = s.x_cannonball := by
  unfold drawTarget1; split_ifs <;> rfl

@[simp]
theorem drawTarget2_x_cannonball : (drawTarget2 s).x_cannonball = s.x_cannonball := by
  unfold drawTarget2; split_ifs <;> rfl

@[simp]
theorem CheckFloorCollisions_x_cannonball (a b c d e : K) :
    (CheckFloorCollisions s a b c d e).x_cannonball = s.x_cannonball := by
  unfold CheckFloorCollisions; split_ifs <;> rfl

@[simp]
theorem obstacleBounce_x_cannonball (a b c d : K) :
    (obstacleBounce s a b c d).x_cannonball = s.x_cannonball := by
  unfold obstacleBounce checkCollisionObs; split_ifs <;> simp_all

@[simp]
theorem floorChecks_x_cannonball : (floorChecks s).x_cannonball = s.x_cannonball := by
  simp [floorChecks]

@[simp]
theorem obstacleChecks_x_cannonball :
    (obstacleChecks s).x_cannonball = s.x_cannonball := by
  simp [obstacleChecks]

@[simp]
theorem advance_x_cannonball : (advance s).x_cannonball = s.x_cannonball := by
  unfold advance; split_ifs <;> rfl

@[simp]
theorem boundsReset_x_cannonball (now : K) :
    (boundsReset s now).x_cannonball = s.x_cannonball := by
  unfold boundsReset; split_ifs <;> rfl

@[simp]
theorem keyboard_x_cannonball (key : Key) (action : Action) (now : K) :
    (keyboard s key action now).x_cannonball = s.x_cannonball := by
  cases key <;> cases action <;> rfl

@[simp]
theorem pollEvents_x_cannonball (events : List (KeyEvent K)) :
    (pollEvents s events).x_cannonball = s.x_cannonball := by
  induction events generalizing s with
  | nil => rfl
  | cons ev rest ih => simp [pollEvents, List.foldl_cons] at ih ⊢; rw [ih]; simp

@[simp]
theorem watchdog_x_cannonball (current : K) :
    (watchdog s current).x_cannonball = s.x_cannonball := by
  unfold watchdog; split_ifs <;> rfl

@[simp]
theorem diagnostics_x_cannonball :
    (diagnostics M s).x_cannonball = s.x_cannonball := rfl

end frame_lemmas

/-- C1.  For every state, the position sampled at the start of an iteration is
`x = x_till_collision + vx * (t - t_till_now)` and
`y = y_till_collision + u * sin(thita_ball) * t - 0.5 * g * t^2`, where `vx` is
the horizontal velocity the iteration samples with (the stored one, after the
pending fire correction if there is one): `x` is relative to `t_till_now`, `y`
uses `t` directly.  The sampled `x` is still the stored `x_cannonball` when the
iteration ends. -/
theorem sampled_position (M : MathLib K) (s : State K) (f : Frame K) :
    (sampled M s).x_cannonball =
        s.x_till_collision + (fireCorrection M s).vx * (s.t - s.t_till_now) ∧
      (sampled M s).y_cannonball =
        s.y_till_collision + s.u * M.sinDeg s.thita_ball * s.t - 0.5 * s.g * s.t ^ 2 ∧
      (s.fl = false → (fireCorrection M s).vx = s.vx) ∧
      (tick M s f).x_cannonball = (sampled M s).x_cannonball := by
  refine ⟨?_, ?_, ?_, ?_⟩
  · unfold sampled samplePosition fireCorrection; split_ifs <;> rfl
  · unfold sampled samplePosition fireCorrection; split_ifs <;> simp <;> ring
  · intro h; simp [fireCorrection, h]
  · simp [tick, simulate, sampled]

/-- C2.  `CheckFloorCollisions(x, y, xMin, xMax, yFloor)` fires exactly when
`yFloor ≤ y < yFloor + 0.15` and `xMin < x < xMax`.  When it fires it sets
`collision_flag`, clears `in_air_flag` and `fire`, moves the anchor to
`(x, y + 0.1)`, sets `t_till_now = 0` and clears `obs_collision`, and changes
no other variable; when it does not fire the state is unchanged. -/
theorem CheckFloorCollisions_spec (s : State K) (x y xMin xMax yFloor : K) :
    (floorBand x y xMin xMax yFloor ↔
        y ∈ Set.Ico yFloor (yFloor + 0.15) ∧ x ∈ Set.Ioo xMin xMax) ∧
      (y ∈ Set.Ico yFloor (yFloor + 0.15) ∧ x ∈ Set.Ioo xMin xMax →
        CheckFloorCollisions s x y xMin xMax yFloor =
          { s with
            collision_flag := true
            in_air_flag := false
            fire := false
            x_till_collision := x
            y_till_collision := y + 0.1
            t_till_now := 0
            obs_collision := false }) ∧
      (¬(y ∈ Set.Ico yFloor (yFloor + 0.15) ∧ x ∈ Set.Ioo xMin xMax) →
        CheckFloorCollisions s x y xMin xMax yFloor = s) := by
  have hiff : floorBand x y xMin xMax yFloor ↔
      y ∈ Set.Ico yFloor (yFloor + 0.15) ∧ x ∈ Set.Ioo xMin xMax := by
    simp only [floorBand, Set.mem_Ico, Set.mem_Ioo, ge_iff_le, gt_iff_lt]
    tauto
  refine ⟨hiff, ?_, ?_⟩
  · intro h
    rw [CheckFloorCollisions, if_pos (hiff.mpr h)]
  · intro h
    rw [CheckFloorCollisions, if_neg (fun hb => h (hiff.mp hb))]

/-- C3.  `checkCollisionObs(x, y, xMin, xMax, yMin, yMax, t)` returns true
exactly when `xMin - 0.15 ≤ x < xMax + 0.15` and `yMin < y < yMax`.  When it
returns true it sets `collision_flag`, clears `in_air_flag` and `fire`, sets
`obs_collision`, sets `t_till_now = t` and moves the anchor's x to `x - 0.1`
if the incoming `vx` is positive and to `x + 0.1` otherwise, and changes no
other variable (the anchor's y in particular); when it returns false the
state is unchanged. -/
theorem checkCollisionObs_spec (s : State K) (x y xMin xMax yMin yMax t : K) :
    ((checkCollisionObs s x y xMin xMax yMin yMax t).1 = true ↔
        x ∈ Set.Ico (xMin - 0.15) (xMax + 0.15) ∧ y ∈ Set.Ioo yMin yMax) ∧
      ((checkCollisionObs s x y xMin xMax yMin yMax t).1 = true →
        (checkCollisionObs s x y xMin xMax yMin yMax t).2 =
            { s with
              collision_flag := true
              in_air_flag := false
              fire := false
              obs_collision := true
              t_till_now := t
              x_till_collision := if s.vx > 0 then x - 0.1 else x + 0.1 } ∧
          (s.vx > 0 →
            (checkCollisionObs s x y xMin xMax yMin yMax t).2.x_till_collision = x - 0.1) ∧
          (¬ s.vx > 0 →
            (checkCollisionObs s x y xMin xMax yMin yMax t).2.x_till_collision = x + 0.1) ∧
          (checkCollisionObs s x y xMin xMax yMin yMax t).2.y_till_collision =
            s.y_till_collision) ∧
      ((checkCollisionObs s x y xMin xMax yMin yMax t).1 = false →
        (checkCollisionObs s x y xMin xMax yMin yMax t).2 = s) := by
  have hiff : obstacleBox x y xMin xMax yMin yMax ↔
      x ∈ Set.Ico (xMin - 0.15) (xMax + 0.15) ∧ y ∈ Set.Ioo yMin yMax := by
    simp only [obstacleBox, Set.mem_Ico, Set.mem_Ioo, ge_iff_le, gt_iff_lt]
    tauto
  by_cases hb : obstacleBox x y xMin xMax yMin yMax
  · have hr : checkCollisionObs s x y xMin xMax yMin yMax t =
        (true,
          { s with
            collision_flag := true
            in_air_flag := false
            fire := false
            x_till_collision := if s.vx > 0 then x - 0.1 else x + 0.1
            t_till_now := t
            obs_collision := true }) := by
      rw [checkCollisionObs, if_pos hb]
    rw [hr]
    refine ⟨⟨fun _ => hiff.mp hb, fun _ => rfl⟩, fun _ => ⟨rfl, ?_, ?_, rfl⟩, ?_⟩
    · intro hv; simp [hv]
    · intro hv; simp [hv]
    · intro h; simp at h
  · have hr : checkCollisionObs s x y xMin xMax yMin yMax t = (false, s) := by
      rw [checkCollisionObs, if_neg hb]
    rw [hr]
    refine ⟨⟨fun h => by simp at h, fun h => absurd (hiff.mpr h) hb⟩, fun h => by simp at h,
      fun _ => rfl⟩

section phase_lemmas

variable (M : MathLib K) (s : State K)

theorem fireCorrection_fl : (fireCorrection M s).fl = false := by
  unfold fireCorrection; split_ifs with h
  · rfl
  · simpa using h

theorem fireCorrection_eq :
    fireCorrection M s = { s with vx := (fireCorrection M s).vx, fl := false } := by
  unfold fireCorrection; split_ifs with h
  · rfl
  · have hfl : s.fl = false := by simpa using h
    cases s; simp_all

theorem sampled_eq :
    sampled M s =
      { s with
        vx := (fireCorrection M s).vx
        fl := false
        x_cannonball := s.x_till_collision + (fireCorrection M s).vx * (s.t - s.t_till_now)
        y_cannonball :=
          s.y_till_collision + s.u * M.sinDeg s.thita_ball * s.t - 0.5 * s.g * s.t * s.t } := by
  unfold sampled
  rw [fireCorrection_eq]
  rfl

/-- The state on which the collision checks run: the sampled state with the
diagnostics refreshed and the target flag possibly cleared. -/
theorem checks_input_eq :
    ∃ tv : Bool,
      drawTarget2 (drawTarget1 (diagnostics M (sampled M s))) =
        { sampled M s with
          vy := s.uy - s.g * s.t
          v := M.sqrt ((fireCorrection M s).vx ^ 2 + (s.uy - s.g * s.t) ^ 2)
          Target_visible := tv } := by
  rw [sampled_eq]
  unfold drawTarget2 drawTarget1 diagnostics
  split_ifs <;> exact ⟨_, rfl⟩

theorem floorChecks_of_band (h : anyFloorBand s.x_cannonball s.y_cannonball) :
    floorChecks s =
      { s with
        collision_flag := true
        in_air_flag := false
        fire := false
        x_till_collision := s.x_cannonball
        y_till_collision := s.y_cannonball + 0.1
        obs_collision := false
        t_till_now := 0 } := by
  unfold anyFloorBand at h
  by_cases h1 : floorBand s.x_cannonball s.y_cannonball (-6.0) 6.0 (-3.0) <;>
  by_cases h2 : floorBand s.x_cannonball s.y_cannonball (-1.2) (-0.8) (-2.0) <;>
  by_cases h3 : floorBand s.x_cannonball s.y_cannonball (-2.2) (-1.8) (-2.25) <;>
  by_cases h4 : floorBand s.x_cannonball s.y_cannonball 0.8 1.2 (-2.25) <;>
  by_cases h5 : floorBand s.x_cannonball s.y_cannonball (-0.2) 0.2 (-1.5) <;>
  simp [floorChecks, CheckFloorCollisions, h1, h2, h3, h4, h5] at h ⊢

theorem floorChecks_of_not_band (h : ¬ anyFloorBand s.x_cannonball s.y_cannonball) :
    floorChecks s = s := by
  unfold anyFloorBand at h
  push_neg at h
  obtain ⟨h1, h2, h3, h4, h5⟩ := h
  simp [floorChecks, CheckFloorCollisions, h1, h2, h3, h4, h5]

theorem obstacleChecks_of_not_box (h : ¬ anyObstacleBox s.x_cannonball s.y_cannonball) :
    obstacleChecks s = s := by
  unfold anyObstacleBox at h
  push_neg at h
  obtain ⟨h1, h2, h3, h4⟩ := h
  simp [obstacleChecks, obstacleBounce, checkCollisionObs, h1, h2, h3, h4]

end phase_lemmas

section bounce_lemmas

variable (M : MathLib K) (s : State K)

theorem obstacleBox_bounds {x y : K} (h : anyObstacleBox x y) : -4.5 < x ∧ x < 4.5 := by
  unfold anyObstacleBox obstacleBox at h
  norm_num at h
  rcases h with h | h | h | h <;> constructor <;> norm_num <;> linarith [h.1, h.2.1]

theorem obstacleChecks_of_box (h : anyObstacleBox s.x_cannonball s.y_cannonball) :
    obstacleChecks s =
      { s with
        collision_flag := true
        in_air_flag := false
        fire := false
        x_till_collision :=
          if s.vx > 0 then s.x_cannonball - 0.1 else s.x_cannonball + 0.1
        t_till_now := s.t
        obs_collision := true
        vx := -1 * s.e * s.vx } := by
  unfold anyObstacleBox at h
  rcases h with h | h | h | h
  · have h2 : ¬ obstacleBox s.x_cannonball s.y_cannonball (-2.2) (-1.8) (-3.0) (-2.25) := by
      unfold obstacleBox at h ⊢; norm_num at h ⊢; intro _ _ ; linarith [h.1]
    have h3 : ¬ obstacleBox s.x_cannonball s.y_cannonball 0.8 1.2 (-3.0) (-2.25) := by
      unfold obstacleBox at h ⊢; norm_num at h ⊢; intro _ ; linarith [h.2.1]
    have h4 : ¬ obstacleBox s.x_cannonball s.y_cannonball (-0.2) 0.2 (-3.0) (-1.5) := by
      unfold obstacleBox at h ⊢; norm_num at h ⊢; intro _ ; linarith [h.2.1]
    simp [obstacleChecks, obstacleBounce, checkCollisionObs, h, h2, h3, h4]
  · have h1 : ¬ obstacleBox s.x_cannonball s.y_cannonball (-1.2) (-0.8) (-3.0) (-2.0) := by
      unfold obstacleBox at h ⊢; norm_num at h ⊢; intro _ ; linarith [h.2.1]
    have h3 : ¬ obstacleBox s.x_cannonball s.y_cannonball 0.8 1.2 (-3.0) (-2.25) := by
      unfold obstacleBox at h ⊢; norm_num at h ⊢; intro _ ; linarith [h.2.1]
    have h4 : ¬ obstacleBox s.x_cannonball s.y_cannonball (-0.2) 0.2 (-3.0) (-1.5) := by
      unfold obstacleBox at h ⊢; norm_num at h ⊢; intro _ ; linarith [h.2.1]
    simp [obstacleChecks, obstacleBounce, checkCollisionObs, h, h1, h3, h4]
  · have h1 : ¬ obstacleBox s.x_cannonball s.y_cannonball (-1.2) (-0.8) (-3.0) (-2.0) := by
      unfold obstacleBox at h ⊢; norm_num at h ⊢; intro _ _ ; linarith [h.1]
    have h2 : ¬ obstacleBox s.x_cannonball s.y_cannonball (-2.2) (-1.8) (-3.0) (-2.25) := by
      unfold obstacleBox at h ⊢; norm_num at h ⊢; intro _ _ ; linarith [h.1]
    have h4 : ¬ obstacleBox s.x_cannonball s.y_cannonball (-0.2) 0.2 (-3.0) (-1.5) := by
      unfold obstacleBox at h ⊢; norm_num at h ⊢; intro _ _ ; linarith [h.1]
    simp [obstacleChecks, obstacleBounce, checkCollisionObs, h, h1, h2, h4]
  · have h1 : ¬ obstacleBox s.x_cannonball s.y_cannonball (-1.2) (-0.8) (-3.0) (-2.0) := by
      unfold obstacleBox at h ⊢; norm_num at h ⊢; intro _ _ ; linarith [h.1]
    have h2 : ¬ obstacleBox s.x_cannonball s.y_cannonball (-2.2) (-1.8) (-3.0) (-2.25) := by
      unfold obstacleBox at h ⊢; norm_num at h ⊢; intro _ _ ; linarith [h.1]
    have h3 : ¬ obstacleBox s.x_cannonball s.y_cannonball 0.8 1.2 (-3.0) (-2.25) := by
      unfold obstacleBox at h ⊢; norm_num at h ⊢; intro _ ; linarith [h.2.1]
    simp [obstacleChecks, obstacleBounce, checkCollisionObs, h, h1, h2, h3]

end bounce_lemmas

section simulate_lemmas

variable (M : MathLib K) (s : State K)

theorem boundsReset_of_inside (now : K)
    (h : ¬(s.x_cannonball < -4.5 ∨ s.x_cannonball > 4.5)) : boundsReset s now = s := by
  rw [boundsReset, if_neg h]

theorem pollEvents_nil : pollEvents s [] = s := rfl

theorem watchdog_of_not_due (current : K) (h : current - s.last_update_time < 10) :
    watchdog s current = { s with current_time := current } := by
  rw [watchdog, if_neg (not_le.mpr h)]

/-- The simulation part of an iteration in which a floor-band check fires, no
obstacle check fires and the ball is inside the world bounds. -/
theorem simulate_floor_bounce (rt : K)
    (hfloor : anyFloorBand (sampled M s).x_cannonball (sampled M s).y_cannonball)
    (hobs : ¬ anyObstacleBox (sampled M s).x_cannonball (sampled M s).y_cannonball)
    (hx : (sampled M s).x_cannonball ∈ Set.Icc (-4.5 : K) 4.5) :
    ∃ tv : Bool,
      simulate M s rt =
        { sampled M s with
          vy := s.uy - s.g * s.t
          v := M.sqrt ((fireCorrection M s).vx ^ 2 + (s.uy - s.g * s.t) ^ 2)
          Target_visible := tv
          collision_flag := false
          in_air_flag := true
          fire := false
          x_till_collision := (sampled M s).x_cannonball
          y_till_collision := (sampled M s).y_cannonball + 0.1
          obs_collision := false
          t_till_now := 0
          u := s.u * s.e
          t := 0
          y_cannonball := (sampled M s).y_cannonball + 0.1 } := by
  obtain ⟨tv, hp⟩ := checks_input_eq M s
  refine ⟨tv, ?_⟩
  rw [simulate, ← sampled, hp, floorChecks_of_band _ (by exact hfloor),
    obstacleChecks_of_not_box _ (by exact hobs)]
  have hin : ¬((sampled M s).x_cannonball < -4.5 ∨ (sampled M s).x_cannonball > 4.5) := by
    rw [Set.mem_Icc] at hx
    push_neg
    exact ⟨hx.1, hx.2⟩
  rw [boundsReset_of_inside]
  · simp [advance, sampled_eq]
  · simpa [advance] using hin

/-- The simulation part of an iteration in which an obstacle check fires and
no floor-band check fires. -/
theorem simulate_wall_bounce (rt : K)
    (hobs : anyObstacleBox (sampled M s).x_cannonball (sampled M s).y_cannonball)
    (hfloor : ¬ anyFloorBand (sampled M s).x_cannonball (sampled M s).y_cannonball) :
    ∃ tv : Bool,
      simulate M s rt =
        { sampled M s with
          vy := s.uy - s.g * s.t
          v := M.sqrt ((fireCorrection M s).vx ^ 2 + (s.uy - s.g * s.t) ^ 2)
          Target_visible := tv
          collision_flag := false
          in_air_flag := true
          fire := false
          x_till_collision :=
            if (fireCorrection M s).vx > 0 then (sampled M s).x_cannonball - 0.1
            else (sampled M s).x_cannonball + 0.1
          t_till_now := s.t
          obs_collision := true
          vx := -1 * s.e * (fireCorrection M s).vx
          t := s.t + 0.01 } := by
  obtain ⟨tv, hp⟩ := checks_input_eq M s
  refine ⟨tv, ?_⟩
  have hin := obstacleBox_bounds hobs
  rw [simulate, ← sampled, hp, floorChecks_of_not_band _ (by exact hfloor),
    obstacleChecks_of_box _ (by exact hobs)]
  rw [boundsReset_of_inside]
  · simp [advance, sampled_eq]
  · have hin2 : ¬((sampled M s).x_cannonball < -4.5 ∨ (sampled M s).x_cannonball > 4.5) := by
      push_neg
      exact ⟨hin.1.le, hin.2.le⟩
    simpa [advance] using hin2

end simulate_lemmas

section ratLibm_lemmas

@[simp]
theorem sinDegQ_zero : sinDegQ 0 = 0 := by
  simp [sinDegQ, bhaskara]

theorem floor_neg_quarter : ⌊(-90 : ℚ) / 360⌋ = -1 := by
  rw [Int.floor_eq_iff]; norm_num

theorem floor_three_eighths : ⌊((45 : ℚ) + 90) / 360⌋ = 0 := by
  rw [Int.floor_eq_iff]; norm_num

theorem floor_one_eighth : ⌊(45 : ℚ) / 360⌋ = 0 := by
  rw [Int.floor_eq_iff]; norm_num

@[simp]
theorem sinDegQ_neg_ninety : sinDegQ (-90) = -1 := by
  simp only [sinDegQ, floor_neg_quarter]; norm_num [bhaskara]

@[simp]
theorem cosDegQ_neg_ninety : cosDegQ (-90) = 0 := by
  simp [cosDegQ]

@[simp]
theorem cosDegQ_forty_five : cosDegQ 45 = 12 / 17 := by
  simp only [cosDegQ, sinDegQ, floor_three_eighths]; norm_num [bhaskara]

@[simp]
theorem sinDegQ_forty_five : sinDegQ 45 = 12 / 17 := by
  simp only [sinDegQ, floor_one_eighth]; norm_num [bhaskara]

@[simp]
theorem sqrtQ_two : sqrtQ 2 = 577 / 408 := by
  norm_num [sqrtQ, heron]

end ratLibm_lemmas

/-- C5.  Wall-bounce resolution.  In an iteration in which an obstacle check
fires at the sampled position and no floor-band check fires, with `v` the
`vx` the position was sampled with, the simulation part of the iteration
leaves `vx = -e * v`, `in_air_flag` set, `collision_flag` clear, `t` advanced
by 0.01, and `u` and the anchor's `y` unchanged.  When moreover no key event
is polled and the watchdog is not due, the same holds of the state the
iteration ends in. -/
theorem wall_bounce (M : MathLib K) (s : State K) (f : Frame K)
    (hobs : anyObstacleBox (sampled M s).x_cannonball (sampled M s).y_cannonball)
    (hfloor : ¬ anyFloorBand (sampled M s).x_cannonball (sampled M s).y_cannonball) :
    ((simulate M s f.resetTime).vx = -s.e * (fireCorrection M s).vx ∧
        (simulate M s f.resetTime).in_air_flag = true ∧
        (simulate M s f.resetTime).collision_flag = false ∧
        (simulate M s f.resetTime).t = s.t + 0.01 ∧
        (simulate M s f.resetTime).u = s.u ∧
        (simulate M s f.resetTime).y_till_collision = s.y_till_collision) ∧
      (f.events = [] → f.current - s.last_update_time < 10 →
        (tick M s f).vx = -s.e * (fireCorrection M s).vx ∧
          (tick M s f).in_air_flag = true ∧
          (tick M s f).collision_flag = false ∧
          (tick M s f).t = s.t + 0.01 ∧
          (tick M s f).u = s.u ∧
          (tick M s f).y_till_collision = s.y_till_collision) := by
  obtain ⟨tv, hsim⟩ := simulate_wall_bounce M s f.resetTime hobs hfloor
  constructor
  · rw [hsim]
    simp [sampled_eq]
  · intro hev hwd
    have hlast : (simulate M s f.resetTime).last_update_time = s.last_update_time := by
      rw [hsim]; simp [sampled_eq]
    rw [tick, hev, pollEvents_nil, watchdog_of_not_due _ _ (by rw [hlast]; exact hwd), hsim]
    simp [sampled_eq]

/-- Witness of C5: the ball of `wallState` hits the first obstacle at
`(-1.3, -2.5)` with `e = 0.6` and `vx = 2.0`; after the iteration
`vx = -1.2` and `t = 0.26`. -/
theorem wall_bounce_witness :
    anyObstacleBox (sampled ratLibm wallState).x_cannonball
        (sampled ratLibm wallState).y_cannonball ∧
      wallState.e = 0.6 ∧ (fireCorrection ratLibm wallState).vx = 2.0 ∧
      (tick ratLibm wallState (quietFrame 1)).vx = -1.2 ∧
      (tick ratLibm wallState (quietFrame 1)).in_air_flag = true ∧
      (tick ratLibm wallState (quietFrame 1)).collision_flag = false ∧
      (tick ratLibm wallState (quietFrame 1)).t = 0.26 ∧
      (tick ratLibm wallState (quietFrame 1)).u = 4 ∧
      (tick ratLibm wallState (quietFrame 1)).y_till_collision = -2.375 := by
  have hxy : (sampled ratLibm wallState).x_cannonball = -1.3 ∧
      (sampled ratLibm wallState).y_cannonball = -2.5 := by
    norm_num [sampled, samplePosition, fireCorrection, wallState, init, ratLibm]
  have hobs : anyObstacleBox (sampled ratLibm wallState).x_cannonball
      (sampled ratLibm wallState).y_cannonball := by
    rw [hxy.1, hxy.2]; norm_num [anyObstacleBox, obstacleBox]
  have hfloor : ¬ anyFloorBand (sampled ratLibm wallState).x_cannonball
      (sampled ratLibm wallState).y_cannonball := by
    rw [hxy.1, hxy.2]; norm_num [anyFloorBand, floorBand]
  have h := (wall_bounce ratLibm wallState (quietFrame 1) hobs hfloor).2 rfl
    (by norm_num [quietFrame, wallState, init])
  have hvx : (fireCorrection ratLibm wallState).vx = 2.0 := by
    norm_num [fireCorrection, wallState, init]
  have he : wallState.e = 0.6 := by norm_num [wallState, init]
  rw [hvx, he] at h
  refine ⟨hobs, he, hvx, ?_, h.2.1, h.2.2.1, ?_, ?_, ?_⟩
  · rw [h.1]; norm_num
  · rw [h.2.2.2.1]; norm_num [wallState]
  · rw [h.2.2.2.2.1]; norm_num [wallState, init]
  · rw [h.2.2.2.2.2]; norm_num [wallState]

section constants_lemmas

variable (M : MathLib K) (s : State K)

@[simp]
theorem fireCorrection_constants :
    launchConstants (fireCorrection M s) = launchConstants s := by
  unfold fireCorrection; split_ifs <;> rfl

@[simp]
theorem samplePosition_constants :
    launchConstants (samplePosition M s) = launchConstants s := rfl

@[simp]
theorem diagnostics_constants :
    launchConstants (diagnostics M s) = launchConstants s := rfl

@[simp]
theorem drawTarget1_constants : launchConstants (drawTarget1 s) = launchConstants s := by
  unfold drawTarget1; split_ifs <;> rfl

@[simp]
theorem drawTarget2_constants : launchConstants (drawTarget2 s) = launchConstants s := by
  unfold drawTarget2; split_ifs <;> rfl

@[simp]
theorem CheckFloorCollisions_constants (a b c d e : K) :
    launchConstants (CheckFloorCollisions s a b c d e) = launchConstants s := by
  unfold CheckFloorCollisions; split_ifs <;> rfl

@[simp]
theorem obstacleBounce_constants (a b c d : K) :
    launchConstants (obstacleBounce s a b c d) = launchConstants s := by
  unfold obstacleBounce checkCollisionObs; split_ifs <;> simp_all [launchConstants]

@[simp]
theorem floorChecks_constants : launchConstants (floorChecks s) = launchConstants s := by
  simp [floorChecks]

@[simp]
theorem obstacleChecks_constants :
    launchConstants (obstacleChecks s) = launchConstants s := by
  simp [obstacleChecks]

@[simp]
theorem advance_constants : launchConstants (advance s) = launchConstants s := by
  unfold advance; split_ifs <;> rfl

@[simp]
theorem boundsReset_constants (now : K) :
    launchConstants (boundsReset s now) = launchConstants s := by
  unfold boundsReset; split_ifs <;> rfl

@[simp]
theorem keyboard_constants (key : Key) (action : Action) (now : K) :
    launchConstants (keyboard s key action now) = launchConstants s := by
  cases key <;> cases action <;> rfl

@[simp]
theorem pollEvents_constants (events : List (KeyEvent K)) :
    launchConstants (pollEvents s events) = launchConstants s := by
  induction events generalizing s with
  | nil => rfl
  | cons ev rest ih =>
    have h := ih (keyboard s ev.key ev.action ev.time)
    simp only [pollEvents, List.foldl_cons] at h ⊢
    rw [h, keyboard_constants]

@[simp]
theorem watchdog_constants (current : K) :
    launchConstants (watchdog s current) = launchConstants s := by
  unfold watchdog; split_ifs <;> rfl

@[simp]
theorem simulate_constants (rt : K) :
    launchConstants (simulate M s rt) = launchConstants s := by
  simp [simulate]

@[simp]
theorem tick_constants (f : Frame K) :
    launchConstants (tick M s f) = launchConstants s := by
  simp [tick]

theorem run_constants (frames : List (Frame K)) :
    launchConstants (run M s frames) = launchConstants s := by
  induction frames generalizing s with
  | nil => rfl
  | cons f rest ih =>
    have h := ih (tick M s f)
    simp only [run, List.foldl_cons] at h ⊢
    rw [h, tick_constants]

theorem simulate_x_cannonball (rt : K) :
    (simulate M s rt).x_cannonball = (sampled M s).x_cannonball := by
  simp [simulate, sampled]

theorem boundsReset_of_outside (now : K)
    (h : s.x_cannonball < -4.5 ∨ s.x_cannonball > 4.5) :
    boundsReset s now =
      { s with
        in_air_flag := false
        collision_flag := false
        t := 0
        vx := s.ux
        x_till_collision := -3.0
        y_till_collision := -2.75
        fire := false
        u := 4.0
        last_update_time := now } := by
  rw [boundsReset, if_pos h]

end constants_lemmas

/-- C6.  World-bounds reset.  For every state whose sampled `x` is below
`-4.5` or above `4.5`, whatever the flags, the simulation part of the
iteration ends in the canonical idle state: `u = 4.0`, `in_air_flag`,
`collision_flag` and `fire` clear, `t = 0`, anchor `(-3.0, -2.75)` and
`vx = ux`; when no key event is polled the same holds of the state the
iteration ends in, whether or not the watchdog is due. -/
theorem world_bounds_reset (M : MathLib K) (s : State K) (f : Frame K)
    (hx : (sampled M s).x_cannonball < -4.5 ∨ (sampled M s).x_cannonball > 4.5) :
    ((simulate M s f.resetTime).u = 4.0 ∧
        (simulate M s f.resetTime).in_air_flag = false ∧
        (simulate M s f.resetTime).collision_flag = false ∧
        (simulate M s f.resetTime).fire = false ∧
        (simulate M s f.resetTime).t = 0 ∧
        (simulate M s f.resetTime).x_till_collision = -3.0 ∧
        (simulate M s f.resetTime).y_till_collision = -2.75 ∧
        (simulate M s f.resetTime).vx = (simulate M s f.resetTime).ux ∧
        (simulate M s f.resetTime).ux = s.ux) ∧
      (f.events = [] →
        (tick M s f).u = 4.0 ∧
          (tick M s f).in_air_flag = false ∧
          (tick M s f).collision_flag = false ∧
          (tick M s f).fire = false ∧
          (tick M s f).t = 0 ∧
          (tick M s f).x_till_collision = -3.0 ∧
          (tick M s f).y_till_collision = -2.75 ∧
          (tick M s f).vx = (tick M s f).ux ∧
          (tick M s f).ux = s.ux) := by
  have hux : ∀ r : State K, launchConstants r = launchConstants s → r.ux = s.ux := by
    intro r hr
    exact congrArg Prod.fst hr
  have hsim : (simulate M s f.resetTime).u = 4.0 ∧
      (simulate M s f.resetTime).in_air_flag = false ∧
      (simulate M s f.resetTime).collision_flag = false ∧
      (simulate M s f.resetTime).fire = false ∧
      (simulate M s f.resetTime).t = 0 ∧
      (simulate M s f.resetTime).x_till_collision = -3.0 ∧
      (simulate M s f.resetTime).y_till_collision = -2.75 ∧
      (simulate M s f.resetTime).vx = (simulate M s f.resetTime).ux ∧
      (simulate M s f.resetTime).ux = s.ux := by
    refine ⟨?_, ?_, ?_, ?_, ?_, ?_, ?_, ?_, hux _ (simulate_constants M s _)⟩ <;>
    · rw [simulate, boundsReset_of_outside _ _ (by simpa [sampled] using hx)]
  refine ⟨hsim, ?_⟩
  intro hev
  obtain ⟨h1, h2, h3, h4, h5, h6, h7, h8, h9⟩ := hsim
  rw [tick, hev, pollEvents_nil]
  unfold watchdog
  split_ifs
  · exact ⟨rfl, rfl, rfl, rfl, rfl, rfl, rfl, rfl, h9⟩
  · exact ⟨h1, h2, h3, h4, h5, h6, h7, h8, h9⟩

/-- Witness of C6: the ball of `strayState` is sampled at `x = 4.6`; the
iteration ends in the idle state with `u = 4.0` and the anchor at the
muzzle. -/
theorem world_bounds_reset_witness :
    (sampled ratLibm strayState).x_cannonball = 4.6 ∧
      (tick ratLibm strayState (quietFrame 1)).u = 4.0 ∧
      (tick ratLibm strayState (quietFrame 1)).in_air_flag = false ∧
      (tick ratLibm strayState (quietFrame 1)).collision_flag = false ∧
      (tick ratLibm strayState (quietFrame 1)).fire = false ∧
      (tick ratLibm strayState (quietFrame 1)).t = 0 ∧
      (tick ratLibm strayState (quietFrame 1)).x_till_collision = -3.0 ∧
      (tick ratLibm strayState (quietFrame 1)).y_till_collision = -2.75 ∧
      (tick ratLibm strayState (quietFrame 1)).vx = strayState.ux := by
  have hxv : (sampled ratLibm strayState).x_cannonball = 4.6 := by
    norm_num [sampled, samplePosition, fireCorrection, strayState, init]
  have h := (world_bounds_reset ratLibm strayState (quietFrame 1)
    (Or.inr (by rw [hxv]; norm_num))).2 rfl
  exact ⟨hxv, h.1, h.2.1, h.2.2.1, h.2.2.2.1, h.2.2.2.2.1, h.2.2.2.2.2.1, h.2.2.2.2.2.2.1,
    h.2.2.2.2.2.2.2.1.trans h.2.2.2.2.2.2.2.2⟩

section aim_lemmas

variable (M : MathLib K) (s : State K) (a : K)

theorem fireCorrection_setAim :
    fireCorrection M (setAim s a) = setAim (fireCorrection M s) a := by
  unfold fireCorrection setAim; split_ifs <;> rfl

theorem samplePosition_setAim :
    samplePosition M (setAim s a) = setAim (samplePosition M s) a := rfl

theorem sampled_setAim : sampled M (setAim s a) = setAim (sampled M s) a := by
  rw [sampled, fireCorrection_setAim, samplePosition_setAim, sampled]

theorem diagnostics_setAim : diagnostics M (setAim s a) = setAim (diagnostics M s) a := rfl

theorem drawTarget1_setAim : drawTarget1 (setAim s a) = setAim (drawTarget1 s) a := by
  unfold drawTarget1 setAim; split_ifs <;> rfl

theorem drawTarget2_setAim : drawTarget2 (setAim s a) = setAim (drawTarget2 s) a := by
  unfold drawTarget2 setAim; split_ifs <;> rfl

theorem CheckFloorCollisions_setAim (x y b c d : K) :
    CheckFloorCollisions (setAim s a) x y b c d = setAim (CheckFloorCollisions s x y b c d) a := by
  unfold CheckFloorCollisions setAim; split_ifs <;> rfl

theorem obstacleBounce_setAim (b c d e : K) :
    obstacleBounce (setAim s a) b c d e = setAim (obstacleBounce s b c d e) a := by
  unfold obstacleBounce checkCollisionObs setAim
  by_cases h : obstacleBox s.x_cannonball s.y_cannonball b c d e <;> simp [h]

theorem setAim_x_cannonball : (setAim s a).x_cannonball = s.x_cannonball := rfl

theorem setAim_y_cannonball : (setAim s a).y_cannonball = s.y_cannonball := rfl

theorem floorChecks_setAim : floorChecks (setAim s a) = setAim (floorChecks s) a := by
  simp only [floorChecks, CheckFloorCollisions_setAim, setAim_x_cannonball,
    setAim_y_cannonball]

theorem obstacleChecks_setAim : obstacleChecks (setAim s a) = setAim (obstacleChecks s) a := by
  simp only [obstacleChecks, obstacleBounce_setAim]

theorem advance_setAim : advance (setAim s a) = setAim (advance s) a := by
  unfold advance setAim; split_ifs <;> rfl

theorem boundsReset_setAim (now : K) :
    boundsReset (setAim s a) now = setAim (boundsReset s now) a := by
  unfold boundsReset setAim; split_ifs <;> rfl

theorem watchdog_setAim (current : K) :
    watchdog (setAim s a) current = setAim (watchdog s current) a := by
  unfold watchdog setAim; split_ifs <;> rfl

theorem simulate_setAim (rt : K) : simulate M (setAim s a) rt = setAim (simulate M s rt) a := by
  simp only [simulate, fireCorrection_setAim, samplePosition_setAim, diagnostics_setAim,
    drawTarget1_setAim, drawTarget2_setAim, floorChecks_setAim, obstacleChecks_setAim,
    advance_setAim, boundsReset_setAim]

theorem keyboard_aim (ev : KeyEvent K) (h : isAimKey ev = true) :
    ∃ b, keyboard (setAim s a) ev.key ev.action ev.time = setAim s b := by
  obtain ⟨key, action, time⟩ := ev
  cases key <;> cases action <;> simp [isAimKey] at h <;> exact ⟨_, rfl⟩

theorem keyboard_setAim (ev : KeyEvent K) (h : isAimKey ev = false)
    (hf : isFireKey ev = false) :
    keyboard (setAim s a) ev.key ev.action ev.time =
      setAim (keyboard s ev.key ev.action ev.time) a := by
  obtain ⟨key, action, time⟩ := ev
  cases key <;> cases action <;> simp [isAimKey, isFireKey] at h hf <;> rfl

theorem pollEvents_setAim (events : List (KeyEvent K))
    (hf : ∀ ev ∈ events, isFireKey ev = false) :
    ∃ b, pollEvents (setAim s a) events =
      setAim (pollEvents s (events.filter (fun ev => !isAimKey ev))) b := by
  induction events generalizing s a with
  | nil => exact ⟨a, rfl⟩
  | cons ev rest ih =>
    have hrest : ∀ ev ∈ rest, isFireKey ev = false := fun e he =>
      hf e (List.mem_cons_of_mem _ he)
    have hev : isFireKey ev = false := hf ev (List.mem_cons_self _ _)
    by_cases hA : isAimKey ev = true
    · obtain ⟨b, hb⟩ := keyboard_aim s a ev hA
      obtain ⟨c, hc⟩ := ih s b hrest
      refine ⟨c, ?_⟩
      rw [List.filter_cons_of_neg (by simp [hA])]
      rw [← hc, ← hb]
      rfl
    · have hA2 : isAimKey ev = false := by simpa using hA
      obtain ⟨c, hc⟩ := ih (keyboard s ev.key ev.action ev.time) a hrest
      refine ⟨c, ?_⟩
      rw [List.filter_cons_of_pos (by simp [hA2])]
      have : pollEvents (setAim s a) (ev :: rest) =
          pollEvents (keyboard (setAim s a) ev.key ev.action ev.time) rest := rfl
      rw [this, keyboard_setAim s a ev hA2 hev, hc]
      rfl

theorem tick_setAim (f : Frame K) (hf : ∀ ev ∈ f.events, isFireKey ev = false) :
    ∃ b, tick M (setAim s a) f = setAim (tick M s (withoutAim f)) b := by
  obtain ⟨b, hb⟩ := pollEvents_setAim (simulate M s f.resetTime) a f.events hf
  refine ⟨b, ?_⟩
  rw [tick, simulate_setAim, hb, watchdog_setAim]
  rfl

theorem run_setAim (frames : List (Frame K))
    (hf : ∀ f ∈ frames, ∀ ev ∈ f.events, isFireKey ev = false) :
    ∃ b, run M (setAim s a) frames = setAim (run M s (frames.map withoutAim)) b := by
  induction frames generalizing s a with
  | nil => exact ⟨a, rfl⟩
  | cons f rest ih =>
    obtain ⟨b, hb⟩ := tick_setAim M s a f (hf f (List.mem_cons_self _ _))
    obtain ⟨c, hc⟩ := ih (tick M s (withoutAim f)) b
      (fun g hg => hf g (List.mem_cons_of_mem _ hg))
    refine ⟨c, ?_⟩
    have : run M (setAim s a) (f :: rest) = run M (tick M (setAim s a) f) rest := rfl
    rw [this, hb, hc]
    rfl

theorem keyboard_thita_ball (ev : KeyEvent K) (hf : isFireKey ev = false) :
    (keyboard s ev.key ev.action ev.time).thita_ball = s.thita_ball := by
  obtain ⟨key, action, time⟩ := ev
  cases key <;> cases action <;> simp [isFireKey] at hf <;> rfl

theorem pollEvents_thita_ball (events : List (KeyEvent K))
    (hf : ∀ ev ∈ events, isFireKey ev = false) :
    (pollEvents s events).thita_ball = s.thita_ball := by
  induction events generalizing s with
  | nil => rfl
  | cons ev rest ih =>
    have hstep : pollEvents s (ev :: rest) =
        pollEvents (keyboard s ev.key ev.action ev.time) rest := rfl
    rw [hstep, ih _ (fun e he => hf e (List.mem_cons_of_mem _ he))]
    exact keyboard_thita_ball s ev (hf ev (List.mem_cons_self _ _))

theorem simulate_thita_ball (rt : K) : (simulate M s rt).thita_ball = s.thita_ball := by
  have h1 : ∀ p : State K, (fireCorrection M p).thita_ball = p.thita_ball := by
    intro p; unfold fireCorrection; split_ifs <;> rfl
  have h2 : ∀ p : State K, (drawTarget1 p).thita_ball = p.thita_ball := by
    intro p; unfold drawTarget1; split_ifs <;> rfl
  have h3 : ∀ p : State K, (drawTarget2 p).thita_ball = p.thita_ball := by
    intro p; unfold drawTarget2; split_ifs <;> rfl
  have h4 : ∀ (p : State K) (x y b c d : K),
      (CheckFloorCollisions p x y b c d).thita_ball = p.thita_ball := by
    intro p x y b c d; unfold CheckFloorCollisions; split_ifs <;> rfl
  have h5 : ∀ (p : State K) (b c d e : K),
      (obstacleBounce p b c d e).thita_ball = p.thita_ball := by
    intro p b c d e; unfold obstacleBounce checkCollisionObs; split_ifs <;> simp_all
  have h6 : ∀ p : State K, (advance p).thita_ball = p.thita_ball := by
    intro p; unfold advance; split_ifs <;> rfl
  have h7 : ∀ (p : State K) (n : K), (boundsReset p n).thita_ball = p.thita_ball := by
    intro p n; unfold boundsReset; split_ifs <;> rfl
  simp only [simulate, floorChecks, obstacleChecks, h7, h6, h5, h4, h3, h2]
  exact h1 s

theorem tick_thita_ball (f : Frame K) (hf : ∀ ev ∈ f.events, isFireKey ev = false) :
    (tick M s f).thita_ball = s.thita_ball := by
  have hw : ∀ (p : State K) (c : K), (watchdog p c).thita_ball = p.thita_ball := by
    intro p c; unfold watchdog; split_ifs <;> rfl
  rw [tick, hw, pollEvents_thita_ball _ _ hf, simulate_thita_ball]

end aim_lemmas

/-- C7.  A fire trigger copies the aim angle `thita` into `thita_ball` and sets
`fire`.  The copy is frozen: after any aim adjustments polled behind the fire
trigger and any later frames without a new fire trigger, `thita_ball` is still
the aim angle at the trigger, and `thita_ball` and the position the next
iteration samples are those of the run in which every aim adjustment is left
out. -/
theorem launch_angle_frozen (M : MathLib K) (s : State K) (now current : K)
    (aims : List (KeyEvent K)) (frames : List (Frame K))
    (haim : ∀ ev ∈ aims, isAimKey ev = true)
    (hfire : ∀ f ∈ frames, ∀ ev ∈ f.events, isFireKey ev = false) :
    (keyboard s Key.SPACE Action.RELEASE now).thita_ball = s.thita ∧
      (keyboard s Key.SPACE Action.RELEASE now).fire = true ∧
      (run M (watchdog (pollEvents (keyboard s Key.SPACE Action.RELEASE now) aims) current)
          frames).thita_ball = s.thita ∧
      (sampled M
          (run M (watchdog (pollEvents (keyboard s Key.SPACE Action.RELEASE now) aims) current)
            frames)).x_cannonball =
        (sampled M
          (run M (watchdog (keyboard s Key.SPACE Action.RELEASE now) current)
            (frames.map withoutAim))).x_cannonball ∧
      (sampled M
          (run M (watchdog (pollEvents (keyboard s Key.SPACE Action.RELEASE now) aims) current)
            frames)).y_cannonball =
        (sampled M
          (run M (watchdog (keyboard s Key.SPACE Action.RELEASE now) current)
            (frames.map withoutAim))).y_cannonball := by
  have hfirst : ∃ b, pollEvents (keyboard s Key.SPACE Action.RELEASE now) aims =
      setAim (keyboard s Key.SPACE Action.RELEASE now) b := by
    clear hfire
    generalize keyboard s Key.SPACE Action.RELEASE now = p
    induction aims generalizing p with
    | nil => exact ⟨p.thita, rfl⟩
    | cons ev rest ih =>
      obtain ⟨b, hb⟩ := keyboard_aim p p.thita ev (haim ev (List.mem_cons_self _ _))
      obtain ⟨c, hc⟩ := ih (fun e he => haim e (List.mem_cons_of_mem _ he)) (setAim p b)
      refine ⟨c, ?_⟩
      have hstep : pollEvents p (ev :: rest) =
          pollEvents (keyboard (setAim p p.thita) ev.key ev.action ev.time) rest := rfl
      rw [hstep, hb, hc]
      rfl
  obtain ⟨b, hb⟩ := hfirst
  obtain ⟨c, hc⟩ := run_setAim M (watchdog (keyboard s Key.SPACE Action.RELEASE now) current)
    b frames hfire
  have hball : ∀ fs : List (Frame K), (∀ f ∈ fs, ∀ ev ∈ f.events, isFireKey ev = false) →
      ∀ p : State K, (run M p fs).thita_ball = p.thita_ball := by
    intro fs
    induction fs with
    | nil => intro _ p; rfl
    | cons f rest ih =>
      intro hfs p
      have hstep : run M p (f :: rest) = run M (tick M p f) rest := rfl
      rw [hstep, ih (fun g hg => hfs g (List.mem_cons_of_mem _ hg))]
      exact tick_thita_ball M p f (hfs f (List.mem_cons_self _ _))
  refine ⟨rfl, rfl, ?_, ?_, ?_⟩
  · rw [hball frames hfire, hb, watchdog_setAim]
    unfold watchdog setAim
    split_ifs <;> rfl
  · rw [hb, watchdog_setAim, hc, sampled_setAim]
    rfl
  · rw [hb, watchdog_setAim, hc, sampled_setAim]
    rfl

/-- Witness of C7: the shot is fired at the startup aim of 45 degrees, the aim
is lowered in the same poll and again one frame later; `thita_ball` is still
45 and the sampled position is that of the run without the adjustments. -/
theorem launch_angle_frozen_witness :
    (run ratLibm
        (watchdog (pollEvents (keyboard (init ratLibm 0) Key.SPACE Action.RELEASE 0)
          [aimDownKey]) 0)
        [quietFrame 0, keyFrame [aimDownKey]]).thita_ball = 45 ∧
      (sampled ratLibm
          (run ratLibm
            (watchdog (pollEvents (keyboard (init ratLibm 0) Key.SPACE Action.RELEASE 0)
              [aimDownKey]) 0)
            [quietFrame 0, keyFrame [aimDownKey]])).x_cannonball =
        (sampled ratLibm
          (run ratLibm (watchdog (keyboard (init ratLibm 0) Key.SPACE Action.RELEASE 0) 0)
            ([quietFrame 0, keyFrame [aimDownKey]].map withoutAim))).x_cannonball := by
  have h := launch_angle_frozen ratLibm (init ratLibm 0) 0 0 [aimDownKey]
    [quietFrame 0, keyFrame [aimDownKey]]
    (by simp [isAimKey, aimDownKey])
    (by simp [isFireKey, aimDownKey, quietFrame, keyFrame])
  exact ⟨h.2.2.1, h.2.2.2.1⟩

/-- C8, counterexample.  From the initial state the shot is fired and one more
iteration runs, so that `t = 0.01`; a second fire trigger leaves `t = 0.01`:
the fire trigger does not reset the clock `t`. -/
theorem fire_trigger_resets_clock_counterexample :
    (keyboard (run ratLibm (init ratLibm 0) [keyFrame [fireKey], quietFrame 0])
        Key.SPACE Action.RELEASE 0).t = 0.01 ∧
      ¬((keyboard (run ratLibm (init ratLibm 0) [keyFrame [fireKey], quietFrame 0])
          Key.SPACE Action.RELEASE 0).t = 0 ∧
        (keyboard (run ratLibm (init ratLibm 0) [keyFrame [fireKey], quietFrame 0])
          Key.SPACE Action.RELEASE 0).t_till_now = 0) := by
  have ht : (keyboard (run ratLibm (init ratLibm 0) [keyFrame [fireKey], quietFrame 0])
      Key.SPACE Action.RELEASE 0).t = 0.01 := by
    norm_num [run, tick, simulate, init, ratLibm, keyFrame, quietFrame, fireKey, watchdog,
      pollEvents, keyboard, boundsReset, advance, obstacleChecks, obstacleBounce,
      checkCollisionObs, obstacleBox, floorChecks, CheckFloorCollisions, floorBand,
      drawTarget1, drawTarget2, checkCollisionTarget, diagnostics, samplePosition,
      fireCorrection]
  refine ⟨ht, ?_⟩
  rw [ht]
  norm_num

/-- C8, as the code has it.  A fire trigger assigns `thita_ball`, `fire`, `fl`
and `last_update_time` and nothing else: the clock `t` and the anchor time
`t_till_now` keep the values they had. -/
theorem fire_trigger_keeps_clock (s : State K) (now : K) :
    (keyboard s Key.SPACE Action.RELEASE now).t = s.t ∧
      (keyboard s Key.SPACE Action.RELEASE now).t_till_now = s.t_till_now ∧
      keyboard s Key.SPACE Action.RELEASE now =
        { s with thita_ball := s.thita, fire := true, fl := true, last_update_time := now } :=
  ⟨rfl, rfl, rfl⟩

section velocity_lemmas

variable (M : MathLib K) (s : State K)

theorem tick_vy (f : Frame K) : (tick M s f).vy = s.uy - s.g * s.t := by
  have h1 : ∀ p : State K, (drawTarget1 p).vy = p.vy := by
    intro p; unfold drawTarget1; split_ifs <;> rfl
  have h2 : ∀ p : State K, (drawTarget2 p).vy = p.vy := by
    intro p; unfold drawTarget2; split_ifs <;> rfl
  have h3 : ∀ (p : State K) (x y b c d : K), (CheckFloorCollisions p x y b c d).vy = p.vy := by
    intro p x y b c d; unfold CheckFloorCollisions; split_ifs <;> rfl
  have h4 : ∀ (p : State K) (b c d e : K), (obstacleBounce p b c d e).vy = p.vy := by
    intro p b c d e; unfold obstacleBounce checkCollisionObs; split_ifs <;> simp_all
  have h5 : ∀ p : State K, (advance p).vy = p.vy := by
    intro p; unfold advance; split_ifs <;> rfl
  have h6 : ∀ (p : State K) (n : K), (boundsReset p n).vy = p.vy := by
    intro p n; unfold boundsReset; split_ifs <;> rfl
  have h7 : ∀ (p : State K) (evs : List (KeyEvent K)), (pollEvents p evs).vy = p.vy := by
    intro p evs
    induction evs generalizing p with
    | nil => rfl
    | cons ev rest ih =>
      have hstep : pollEvents p (ev :: rest) =
          pollEvents (keyboard p ev.key ev.action ev.time) rest := rfl
      rw [hstep, ih]
      obtain ⟨key, action, time⟩ := ev
      cases key <;> cases action <;> rfl
  have h8 : ∀ (p : State K) (c : K), (watchdog p c).vy = p.vy := by
    intro p c; unfold watchdog; split_ifs <;> rfl
  have h9 : (diagnostics M (sampled M s)).vy = s.uy - s.g * s.t := by
    rw [sampled_eq]; rfl
  simp only [tick, simulate, floorChecks, obstacleChecks, h8, h7, h6, h5, h4, h3, h2, h1]
  exact h9

end velocity_lemmas

/-- C9, counterexample.  From the initial state the speed is raised to 4.2 and
the shot is fired (both polled in the first iteration): the stored `ux` is
still `4 * cos 45° = 48/17` while `u * cos(thita_ball) = 4.2 * 12/17`, and
likewise for `uy`. -/
theorem initial_velocity_counterexample :
    ¬((tick ratLibm (init ratLibm 0) (keyFrame [fasterKey, fireKey])).ux =
          (tick ratLibm (init ratLibm 0) (keyFrame [fasterKey, fireKey])).u *
            ratLibm.cosDeg
              (tick ratLibm (init ratLibm 0) (keyFrame [fasterKey, fireKey])).thita_ball ∧
        (tick ratLibm (init ratLibm 0) (keyFrame [fasterKey, fireKey])).uy =
          (tick ratLibm (init ratLibm 0) (keyFrame [fasterKey, fireKey])).u *
            ratLibm.sinDeg
              (tick ratLibm (init ratLibm 0) (keyFrame [fasterKey, fireKey])).thita_ball) := by
  norm_num [tick, simulate, init, ratLibm, keyFrame, fasterKey, fireKey, watchdog,
    pollEvents, keyboard, boundsReset, advance, obstacleChecks, obstacleBounce,
    checkCollisionObs, obstacleBox, floorChecks, CheckFloorCollisions, floorBand,
    drawTarget1, drawTarget2, checkCollisionTarget, diagnostics, samplePosition,
    fireCorrection]

/-- C9, as the code has it.  The stored components `ux` and `uy` are computed
once, before the loop, from the startup speed 4.0 and the startup angle of 45
degrees, and nothing changes them: in every state reached from the initial
state by any frames (fire triggers, aim and speed adjustments, resets),
`ux = 4 * cos 45°` and `uy = 4 * sin 45°`, and the diagnostic vertical velocity
an iteration computes is `vy = uy - g * t = 4 * sin 45° - 4 * t`. -/
theorem initial_velocity_fixed (M : MathLib K) (start : K) (frames : List (Frame K))
    (f : Frame K) :
    (run M (init M start) frames).ux = 4.0 * M.cosDeg 45 ∧
      (run M (init M start) frames).uy = 4.0 * M.sinDeg 45 ∧
      (tick M (run M (init M start) frames) f).vy =
        (run M (init M start) frames).uy -
          (run M (init M start) frames).g * (run M (init M start) frames).t ∧
      (tick M (run M (init M start) frames) f).vy =
        4.0 * M.sinDeg 45 - 4.0 * (run M (init M start) frames).t := by
  have hc := run_constants M (init M start) frames
  have hux : (run M (init M start) frames).ux = 4.0 * M.cosDeg 45 :=
    congrArg Prod.fst hc
  have huy : (run M (init M start) frames).uy = 4.0 * M.sinDeg 45 :=
    congrArg (fun c => c.2.1) hc
  have hg : (run M (init M start) frames).g = 4.0 :=
    congrArg (fun c => c.2.2.2.1) hc
  refine ⟨hux, huy, tick_vy M _ f, ?_⟩
  rw [tick_vy, huy, hg]

section flag_lemmas

variable (M : MathLib K) (s : State K)

theorem checks_input_flags :
    (drawTarget2 (drawTarget1 (diagnostics M (sampled M s)))).collision_flag =
      s.collision_flag := by
  obtain ⟨tv, hp⟩ := checks_input_eq M s
  rw [hp, sampled_eq]

/-- After the collision checks, `collision_flag` is either freshly set, with
`fire` and `in_air_flag` cleared, or what it was when the iteration began. -/
theorem checked_flags :
    ((checked M s).collision_flag = true ∧ (checked M s).fire = false ∧
        (checked M s).in_air_flag = false) ∨
      (checked M s).collision_flag = s.collision_flag := by
  unfold checked
  generalize hq : drawTarget2 (drawTarget1 (diagnostics M (sampled M s))) = q
  have hqc : q.collision_flag = s.collision_flag := by
    rw [← hq]; exact checks_input_flags M s
  by_cases hband : anyFloorBand q.x_cannonball q.y_cannonball
  · rw [floorChecks_of_band q hband]
    by_cases hbox : anyObstacleBox q.x_cannonball q.y_cannonball
    · rw [obstacleChecks_of_box _ (by exact hbox)]
      exact Or.inl ⟨rfl, rfl, rfl⟩
    · rw [obstacleChecks_of_not_box _ (by exact hbox)]
      exact Or.inl ⟨rfl, rfl, rfl⟩
  · rw [floorChecks_of_not_band q hband]
    by_cases hbox : anyObstacleBox q.x_cannonball q.y_cannonball
    · rw [obstacleChecks_of_box _ hbox]
      exact Or.inl ⟨rfl, rfl, rfl⟩
    · rw [obstacleChecks_of_not_box _ hbox]
      exact Or.inr hqc

theorem advance_collision_flag (p : State K)
    (h : p.collision_flag = true → p.fire = false ∧ p.in_air_flag = false) :
    (advance p).collision_flag = false := by
  unfold advance
  split_ifs with h1 h2 h3
  · cases hc : p.collision_flag
    · rfl
    · obtain ⟨hf, ha⟩ := h hc
      simp [hf, ha] at h1
  · rfl
  · rfl
  · cases hc : p.collision_flag
    · rfl
    · obtain ⟨hf, ha⟩ := h hc
      simp [hc, ha] at h2

theorem pollEvents_collision_flag (events : List (KeyEvent K)) :
    (pollEvents s events).collision_flag = s.collision_flag := by
  induction events generalizing s with
  | nil => rfl
  | cons ev rest ih =>
    have hstep : pollEvents s (ev :: rest) =
        pollEvents (keyboard s ev.key ev.action ev.time) rest := rfl
    rw [hstep, ih]
    obtain ⟨key, action, time⟩ := ev
    cases key <;> cases action <;> rfl

theorem tick_collision_flag (f : Frame K) (hs : s.collision_flag = false) :
    (tick M s f).collision_flag = false := by
  have hadv : (advance (checked M s)).collision_flag = false := by
    apply advance_collision_flag
    intro hc
    rcases checked_flags M s with h | h
    · exact ⟨h.2.1, h.2.2⟩
    · rw [h, hs] at hc; exact absurd hc (by simp)
  have hreset : (simulate M s f.resetTime).collision_flag = false := by
    have : simulate M s f.resetTime = boundsReset (advance (checked M s)) f.resetTime := rfl
    rw [this]
    unfold boundsReset
    split_ifs
    · rfl
    · exact hadv
  unfold tick watchdog
  split_ifs
  · rfl
  · show (pollEvents (simulate M s f.resetTime) f.events).collision_flag = false
    rw [pollEvents_collision_flag, hreset]

theorem run_collision_flag (frames : List (Frame K)) (hs : s.collision_flag = false) :
    (run M s frames).collision_flag = false := by
  induction frames generalizing s with
  | nil => exact hs
  | cons f rest ih =>
    have hstep : run M s (f :: rest) = run M (tick M s f) rest := rfl
    rw [hstep]
    exact ih _ (tick_collision_flag M s f hs)

end flag_lemmas

/-- C10, counterexample.  The aim is lowered to -90 degrees and the shot fired;
three iterations later the ball lands on the ground band and is airborne
again, and a fire trigger polled in that same iteration sets `fire` while
`in_air_flag` is set: two of the flags are set at the same time in a state
reached from the initial state. -/
theorem one_flag_active_counterexample :
    (run ratLibm (init ratLibm 0)
        [aimDownAndFire, quietFrame 0, quietFrame 0, quietFrame 0, keyFrame [fireKey]]).fire =
        true ∧
      (run ratLibm (init ratLibm 0)
        [aimDownAndFire, quietFrame 0, quietFrame 0, quietFrame 0,
          keyFrame [fireKey]]).in_air_flag = true := by
  norm_num [run, tick, simulate, init, ratLibm, aimDownAndFire, keyFrame, quietFrame, fireKey,
    aimDownKey, List.replicate, watchdog, pollEvents, keyboard, boundsReset, advance,
    obstacleChecks, obstacleBounce, checkCollisionObs, obstacleBox, floorChecks,
    CheckFloorCollisions, floorBand, drawTarget1, drawTarget2, checkCollisionTarget,
    diagnostics, samplePosition, fireCorrection]

/-- C10, as the code has it.  In every state reached from the initial state by
any frames, `collision_flag` is clear when an iteration ends (a collision is
resolved by the iteration that detects it), so it is never set together with
`fire` or `in_air_flag` there; and in the state the collision checks leave
inside the next iteration, `collision_flag` set implies `fire` and
`in_air_flag` clear.  (`fire` and `in_air_flag` can be set together.) -/
theorem collision_flag_exclusive (M : MathLib K) (start : K) (frames : List (Frame K)) :
    (run M (init M start) frames).collision_flag = false ∧
      ¬((run M (init M start) frames).collision_flag = true ∧
        (run M (init M start) frames).fire = true) ∧
      ¬((run M (init M start) frames).collision_flag = true ∧
        (run M (init M start) frames).in_air_flag = true) ∧
      ((checked M (run M (init M start) frames)).collision_flag = true →
        (checked M (run M (init M start) frames)).fire = false ∧
          (checked M (run M (init M start) frames)).in_air_flag = false) := by
  have hrun : (run M (init M start) frames).collision_flag = false :=
    run_collision_flag M (init M start) frames rfl
  refine ⟨hrun, ?_, ?_, ?_⟩
  · rw [hrun]; simp
  · rw [hrun]; simp
  · intro hc
    rcases checked_flags M (run M (init M start) frames) with h | h
    · exact ⟨h.2.1, h.2.2⟩
    · rw [h, hrun] at hc; exact absurd hc (by simp)

section hit_lemmas

variable (M : MathLib K) (s : State K)

theorem checked_eq_checks :
    ∃ tv : Bool,
      checked M s =
        obstacleChecks (floorChecks
          { sampled M s with
            vy := s.uy - s.g * s.t
            v := M.sqrt ((fireCorrection M s).vx ^ 2 + (s.uy - s.g * s.t) ^ 2)
            Target_visible := tv }) := by
  obtain ⟨tv, hp⟩ := checks_input_eq M s
  exact ⟨tv, by rw [checked, hp]⟩

/-- When a hit is detected the collision checks leave `collision_flag` set and
`fire` and `in_air_flag` clear. -/
theorem checked_of_hit (h : hitDetected M s) :
    (checked M s).collision_flag = true ∧ (checked M s).fire = false ∧
      (checked M s).in_air_flag = false := by
  obtain ⟨tv, hp⟩ := checked_eq_checks M s
  rw [hp]
  by_cases hband : anyFloorBand (sampled M s).x_cannonball (sampled M s).y_cannonball
  · rw [floorChecks_of_band _ (by exact hband)]
    by_cases hbox : anyObstacleBox (sampled M s).x_cannonball (sampled M s).y_cannonball
    · rw [obstacleChecks_of_box _ (by exact hbox)]
      exact ⟨rfl, rfl, rfl⟩
    · rw [obstacleChecks_of_not_box _ (by exact hbox)]
      exact ⟨rfl, rfl, rfl⟩
  · have hbox : anyObstacleBox (sampled M s).x_cannonball (sampled M s).y_cannonball := by
      rcases h with h | h
      · exact absurd h hband
      · exact h
    rw [floorChecks_of_not_band _ (by exact hband), obstacleChecks_of_box _ (by exact hbox)]
    exact ⟨rfl, rfl, rfl⟩

theorem checked_x_cannonball : (checked M s).x_cannonball = (sampled M s).x_cannonball := by
  simp [checked]

theorem simulate_eq_checked (rt : K) :
    simulate M s rt = boundsReset (advance (checked M s)) rt := rfl

theorem advance_of_collision (p : State K) (hc : p.collision_flag = true)
    (hf : p.fire = false) (ha : p.in_air_flag = false) :
    (advance p).in_air_flag = true ∧ (advance p).collision_flag = false := by
  unfold advance
  simp only [hc, hf, ha]
  split_ifs <;> simp_all

theorem keyboard_in_air_flag (key : Key) (action : Action) (now : K) :
    (keyboard s key action now).in_air_flag = s.in_air_flag := by
  cases key <;> cases action <;> rfl

theorem pollEvents_in_air_flag (events : List (KeyEvent K)) :
    (pollEvents s events).in_air_flag = s.in_air_flag := by
  induction events generalizing s with
  | nil => rfl
  | cons ev rest ih =>
    have hstep : pollEvents s (ev :: rest) =
        pollEvents (keyboard s ev.key ev.action ev.time) rest := rfl
    rw [hstep, ih, keyboard_in_air_flag]

theorem boundsReset_of_inBounds (rt : K) (h : ¬ outOfBounds M s) :
    simulate M s rt = advance (checked M s) := by
  rw [simulate_eq_checked, boundsReset_of_inside]
  rw [advance_x_cannonball, checked_x_cannonball]
  exact h

theorem tick_of_not_due (f : Frame K) (h : ¬ watchdogDue M s f) :
    tick M s f =
      { pollEvents (simulate M s f.resetTime) f.events with current_time := f.current } := by
  rw [tick, watchdog_of_not_due]
  exact not_le.mp h

end hit_lemmas

section fallingState_lemmas

/-- The values of `fallingState` that the next iteration reads. -/
theorem fallingState_values :
    fallingState.fl = false ∧ fallingState.fire = true ∧ fallingState.in_air_flag = false ∧
      fallingState.collision_flag = false ∧ fallingState.vx = 0 ∧ fallingState.t = 0.03 ∧
      fallingState.t_till_now = 0 ∧ fallingState.u = 4 ∧ fallingState.g = 4 ∧
      fallingState.e = 0.6 ∧ fallingState.thita_ball = -90 ∧
      fallingState.x_till_collision = -3 ∧ fallingState.y_till_collision = -2.75 ∧
      fallingState.last_update_time = 0 := by
  norm_num [fallingState, run, tick, simulate, init, ratLibm, aimDownAndFire,
    keyFrame, quietFrame, fireKey, aimDownKey, List.replicate, watchdog, pollEvents,
    keyboard, boundsReset, advance, obstacleChecks, obstacleBounce, checkCollisionObs,
    obstacleBox, floorChecks, CheckFloorCollisions, floorBand, drawTarget1, drawTarget2,
    checkCollisionTarget, diagnostics, samplePosition, fireCorrection]

theorem fallingState_sampled :
    (sampled ratLibm fallingState).x_cannonball = -3 ∧
      (sampled ratLibm fallingState).y_cannonball = -2.8718 := by
  obtain ⟨h1, -, -, -, h5, h6, h7, h8, h9, -, h11, h12, h13, -⟩ := fallingState_values
  have hv : (fireCorrection ratLibm fallingState).vx = 0 := by
    simp [fireCorrection, h1, h5]
  rw [sampled_eq]
  constructor
  · show fallingState.x_till_collision +
      (fireCorrection ratLibm fallingState).vx * (fallingState.t - fallingState.t_till_now) = -3
    rw [hv, h12]
    norm_num
  · show fallingState.y_till_collision +
      fallingState.u * ratLibm.sinDeg fallingState.thita_ball * fallingState.t -
        0.5 * fallingState.g * fallingState.t * fallingState.t = -2.8718
    rw [h6, h8, h9, h11, h13]
    norm_num [ratLibm]

theorem fallingState_hit : hitDetected ratLibm fallingState := by
  unfold hitDetected
  rw [fallingState_sampled.1, fallingState_sampled.2]
  norm_num [anyFloorBand, floorBand]

theorem fallingState_inBounds : ¬ outOfBounds ratLibm fallingState := by
  unfold outOfBounds
  rw [fallingState_sampled.1]
  norm_num

end fallingState_lemmas

/-- C11, counterexample.  In the state `fallingState`, reached from the
initial state, the next iteration detects a hit on the ground band, and the
state at the end of that same iteration already has `collision_flag` clear and
`in_air_flag` set. -/
theorem colliding_one_tick_counterexample :
    hitDetected ratLibm fallingState ∧
      ¬((tick ratLibm fallingState (quietFrame 0)).collision_flag = true ∧
        (tick ratLibm fallingState (quietFrame 0)).in_air_flag = false) := by
  refine ⟨fallingState_hit, ?_⟩
  have hcol : (tick ratLibm fallingState (quietFrame 0)).collision_flag = false :=
    tick_collision_flag ratLibm fallingState (quietFrame 0) fallingState_values.2.2.2.1
  rw [hcol]
  simp

/-- C11, as the code has it.  A hit is resolved by the iteration that detects
it.  In every iteration in which a floor-band or obstacle check fires, the
collision checks leave `collision_flag` set and `in_air_flag` and `fire`
clear; the same iteration then clears `collision_flag`, and sets `in_air_flag`
unless the world-bounds reset follows.  The state at the end of the iteration
never has `collision_flag` set, and has `in_air_flag` set when the ball is
inside the world bounds and the watchdog is not due. -/
theorem collision_resolved_same_tick (M : MathLib K) (s : State K) (f : Frame K)
    (hhit : hitDetected M s) :
    ((checked M s).collision_flag = true ∧ (checked M s).in_air_flag = false ∧
        (checked M s).fire = false) ∧
      (advance (checked M s)).collision_flag = false ∧
      (advance (checked M s)).in_air_flag = true ∧
      (simulate M s f.resetTime).collision_flag = false ∧
      (¬ outOfBounds M s → (simulate M s f.resetTime).in_air_flag = true) ∧
      (tick M s f).collision_flag = false ∧
      (¬ outOfBounds M s → ¬ watchdogDue M s f → (tick M s f).in_air_flag = true) := by
  obtain ⟨hc, hf, ha⟩ := checked_of_hit M s hhit
  obtain ⟨hair, hcol⟩ := advance_of_collision (checked M s) hc hf ha
  have hsim : (simulate M s f.resetTime).collision_flag = false := by
    rw [simulate_eq_checked]
    unfold boundsReset
    split_ifs
    · rfl
    · exact hcol
  refine ⟨⟨hc, ha, hf⟩, hcol, hair, hsim, ?_, ?_, ?_⟩
  · intro hin
    rw [boundsReset_of_inBounds M s _ hin]
    exact hair
  · unfold tick watchdog
    split_ifs
    · rfl
    · show (pollEvents (simulate M s f.resetTime) f.events).collision_flag = false
      rw [pollEvents_collision_flag, hsim]
  · intro hin hdue
    rw [tick_of_not_due M s f hdue]
    show (pollEvents (simulate M s f.resetTime) f.events).in_air_flag = true
    rw [pollEvents_in_air_flag, boundsReset_of_inBounds M s _ hin]
    exact hair

/-- Witness of C11: the hit of `fallingState` on the ground band is resolved by
the iteration that detects it. -/
theorem collision_resolved_same_tick_witness :
    hitDetected ratLibm fallingState ∧
      (checked ratLibm fallingState).collision_flag = true ∧
      (tick ratLibm fallingState (quietFrame 0)).collision_flag = false := by
  have h := collision_resolved_same_tick ratLibm fallingState (quietFrame 0) fallingState_hit
  exact ⟨fallingState_hit, h.1.1, h.2.2.2.2.2.1⟩

section target_lemmas

variable (M : MathLib K) (s : State K)

theorem CheckFloorCollisions_Target_visible (x y b c d : K) :
    (CheckFloorCollisions s x y b c d).Target_visible = s.Target_visible := by
  unfold CheckFloorCollisions; split_ifs <;> rfl

theorem obstacleBounce_Target_visible (b c d e : K) :
    (obstacleBounce s b c d e).Target_visible = s.Target_visible := by
  unfold obstacleBounce checkCollisionObs; split_ifs <;> simp_all

theorem advance_Target_visible : (advance s).Target_visible = s.Target_visible := by
  unfold advance; split_ifs <;> rfl

theorem boundsReset_Target_visible (now : K) :
    (boundsReset s now).Target_visible = s.Target_visible := by
  unfold boundsReset; split_ifs <;> rfl

theorem watchdog_Target_visible (current : K) :
    (watchdog s current).Target_visible = s.Target_visible := by
  unfold watchdog; split_ifs <;> rfl

theorem pollEvents_Target_visible (events : List (KeyEvent K)) :
    (pollEvents s events).Target_visible = s.Target_visible := by
  induction events generalizing s with
  | nil => rfl
  | cons ev rest ih =>
    have hstep : pollEvents s (ev :: rest) =
        pollEvents (keyboard s ev.key ev.action ev.time) rest := rfl
    rw [hstep, ih]
    obtain ⟨key, action, time⟩ := ev
    cases key <;> cases action <;> rfl

/-- The target flag after the two draw functions. -/
theorem drawTargets_Target_visible :
    (drawTarget2 (drawTarget1 (diagnostics M (sampled M s)))).Target_visible =
      (s.Target_visible && !target1Hit M s && !target2Hit M s) := by
  have hv : (sampled M s).Target_visible = s.Target_visible := by
    rw [sampled_eq]
  unfold drawTarget2 drawTarget1 target1Hit target2Hit
  simp only [diagnostics, ← hv]
  cases h1 : checkCollisionTarget (sampled M s).x_cannonball (sampled M s).y_cannonball
      1.5 2.5 (-3.0) (-2.0) <;>
    cases h2 : checkCollisionTarget (sampled M s).x_cannonball (sampled M s).y_cannonball
      1.6 2.4 (-2.0) (-1.0) <;>
    cases h3 : (sampled M s).Target_visible <;> simp [h1, h2, h3]

/-- The target flag after one iteration: it stays set exactly when it was set
and the sampled position is in neither target rectangle. -/
theorem tick_Target_visible (f : Frame K) :
    (tick M s f).Target_visible =
      (s.Target_visible && !target1Hit M s && !target2Hit M s) := by
  rw [tick, watchdog_Target_visible, pollEvents_Target_visible, simulate,
    boundsReset_Target_visible, advance_Target_visible]
  simp only [obstacleChecks, floorChecks, obstacleBounce_Target_visible,
    CheckFloorCollisions_Target_visible]
  exact drawTargets_Target_visible M s

theorem run_cons (f : Frame K) (frames : List (Frame K)) :
    run M s (f :: frames) = run M (tick M s f) frames := rfl

end target_lemmas

/-- C12.  Target visibility is one-shot: once the visible flag is false it is
false after every further sequence of iterations, whatever key events, resets
and ball positions they bring. -/
theorem target_visibility_one_shot (M : MathLib K) (s : State K) (frames : List (Frame K))
    (h : s.Target_visible = false) : (run M s frames).Target_visible = false := by
  induction frames generalizing s with
  | nil => exact h
  | cons f rest ih =>
    rw [run_cons]
    apply ih
    rw [tick_Target_visible, h]
    rfl

/-- Witness of C12: from the state with the flag cleared, a shot is fired and
flies for two iterations; the flag is still false. -/
theorem target_visibility_one_shot_witness :
    hiddenTargetState.Target_visible = false ∧
      (run ratLibm hiddenTargetState
        [keyFrame [fireKey], quietFrame 0, quietFrame 0]).Target_visible = false :=
  ⟨rfl, target_visibility_one_shot ratLibm hiddenTargetState
    [keyFrame [fireKey], quietFrame 0, quietFrame 0] rfl⟩

/-- C13, counterexample.  The ball of `inTarget1State` is sampled at
`(2, -2.5)`, inside the first target's rectangle and outside the second's;
the iteration clears `Target_visible`, the one flag `drawTarget2` tests too,
so the second target's flag is not left true. -/
theorem independent_target_flags_counterexample :
    target1Hit ratLibm inTarget1State = true ∧
      target2Hit ratLibm inTarget1State = false ∧
      inTarget1State.Target_visible = true ∧
      (tick ratLibm inTarget1State (quietFrame 0)).Target_visible = false ∧
      drawTarget2 (tick ratLibm inTarget1State (quietFrame 0)) =
        { tick ratLibm inTarget1State (quietFrame 0) with Target_visible := false } := by
  have hxy : (sampled ratLibm inTarget1State).x_cannonball = 2 ∧
      (sampled ratLibm inTarget1State).y_cannonball = -2.5 := by
    norm_num [sampled, samplePosition, fireCorrection, inTarget1State, init, ratLibm]
  have h1 : target1Hit ratLibm inTarget1State = true := by
    unfold target1Hit
    rw [hxy.1, hxy.2]
    norm_num [checkCollisionTarget]
  have h2 : target2Hit ratLibm inTarget1State = false := by
    unfold target2Hit
    rw [hxy.1, hxy.2]
    norm_num [checkCollisionTarget]
  have ht : (tick ratLibm inTarget1State (quietFrame 0)).Target_visible = false := by
    rw [tick_Target_visible, h1]
    simp
  refine ⟨h1, h2, rfl, ht, ?_⟩
  unfold drawTarget2
  rw [if_neg]
  rw [ht]
  simp

/-- C13, as the code has it.  The two targets share the one flag
`Target_visible`.  After an iteration the flag is set exactly when it was set
before and the sampled position is in neither target's rectangle: a position
in the rectangle of either target clears the flag of both. -/
theorem shared_target_flag (M : MathLib K) (s : State K) (f : Frame K) :
    (tick M s f).Target_visible =
        (s.Target_visible && !target1Hit M s && !target2Hit M s) ∧
      (target1Hit M s = true → (tick M s f).Target_visible = false) ∧
      (target2Hit M s = true → (tick M s f).Target_visible = false) ∧
      (target1Hit M s = false → target2Hit M s = false →
        (tick M s f).Target_visible = s.Target_visible) := by
  have h := tick_Target_visible M s f
  refine ⟨h, ?_, ?_, ?_⟩
  · intro h1; rw [h, h1]; simp
  · intro h2; rw [h, h2]; simp
  · intro h1 h2; rw [h, h1, h2]; simp

/-- C14, counterexample.  The ball of `inTarget2State` is sampled at
`(2, -1.5)`, which passes the test of the second target's rectangle and fails
the test of the first target's; the flag is set before the iteration and
cleared by it, so the first target does not stay visible until a position
passes the test for its own rectangle. -/
theorem first_hit_clears_counterexample :
    checkCollisionTarget (sampled ratLibm inTarget2State).x_cannonball
        (sampled ratLibm inTarget2State).y_cannonball 1.5 2.5 (-3.0) (-2.0) = false ∧
      inTarget2State.Target_visible = true ∧
      (tick ratLibm inTarget2State (quietFrame 0)).Target_visible = false := by
  have hxy : (sampled ratLibm inTarget2State).x_cannonball = 2 ∧
      (sampled ratLibm inTarget2State).y_cannonball = -1.5 := by
    norm_num [sampled, samplePosition, fireCorrection, inTarget2State, init, ratLibm]
  have h2 : target2Hit ratLibm inTarget2State = true := by
    unfold target2Hit
    rw [hxy.1, hxy.2]
    norm_num [checkCollisionTarget]
  refine ⟨?_, rfl, ?_⟩
  · rw [hxy.1, hxy.2]
    norm_num [checkCollisionTarget]
  · rw [tick_Target_visible, h2]
    simp

/-- C14, as the code has it.  `checkCollisionTarget` returns true exactly on
the closed rectangle `[xMin, xMax] × [yMin, yMax]`.  The flag `Target_visible`,
which both targets share, is still set after a run exactly when it was set at
the start and no iteration of the run sampled a position passing the test for
either rectangle (`[1.5, 2.5] × [-3, -2]` or `[1.6, 2.4] × [-2, -1]`): it is
cleared by the first iteration whose sampled position passes one of the two
tests and stays set on every iteration before that. -/
theorem first_hit_clears_shared_flag (M : MathLib K) (s : State K) (frames : List (Frame K))
    (x y xMin xMax yMin yMax : K) :
    (checkCollisionTarget x y xMin xMax yMin yMax = true ↔
        x ∈ Set.Icc xMin xMax ∧ y ∈ Set.Icc yMin yMax) ∧
      (target1Hit M s = true ↔
        (sampled M s).x_cannonball ∈ Set.Icc (1.5 : K) 2.5 ∧
          (sampled M s).y_cannonball ∈ Set.Icc (-3 : K) (-2)) ∧
      (target2Hit M s = true ↔
        (sampled M s).x_cannonball ∈ Set.Icc (1.6 : K) 2.4 ∧
          (sampled M s).y_cannonball ∈ Set.Icc (-2 : K) (-1)) ∧
      ((run M s frames).Target_visible = true ↔
        s.Target_visible = true ∧
          ∀ k, k < frames.length →
            target1Hit M (run M s (frames.take k)) = false ∧
              target2Hit M (run M s (frames.take k)) = false) := by
  have hrect : ∀ a b c d e g : K, checkCollisionTarget a b c d e g = true ↔
      a ∈ Set.Icc c d ∧ b ∈ Set.Icc e g := by
    intro a b c d e g
    unfold checkCollisionTarget
    simp only [Set.mem_Icc, ge_iff_le]
    split_ifs with h
    · simp only [true_iff]; tauto
    · simp only [Bool.false_eq_true, false_iff]; tauto
  refine ⟨hrect _ _ _ _ _ _, ?_, ?_, ?_⟩
  · rw [target1Hit, hrect]; norm_num
  · rw [target2Hit, hrect]; norm_num
  · induction frames generalizing s with
    | nil => simp [run]
    | cons f rest ih =>
      rw [run_cons, ih, tick_Target_visible]
      constructor
      · rintro ⟨hv, hrest⟩
        simp only [Bool.and_eq_true, Bool.not_eq_true'] at hv
        refine ⟨hv.1.1, ?_⟩
        intro k hk
        cases k with
        | zero => exact ⟨hv.1.2, hv.2⟩
        | succ n =>
          have hn : n < rest.length := by simpa using hk
          simpa [List.take_succ_cons, run_cons] using hrest n hn
      · rintro ⟨hv, hall⟩
        have h0 := hall 0 (by simp)
        refine ⟨?_, ?_⟩
        · simp only [List.take_zero] at h0
          have h0' : target1Hit M s = false ∧ target2Hit M s = false := h0
          simp [hv, h0'.1, h0'.2]
        · intro k hk
          have := hall (k + 1) (by simpa using hk)
          simpa [List.take_succ_cons, run_cons] using this

section flight_lemmas

variable (M : MathLib K) (s : State K)

theorem fireCorrection_flightVars : flightVars (fireCorrection M s) = flightVars s := by
  unfold fireCorrection; split_ifs <;> rfl

theorem drawTarget1_flightVars : flightVars (drawTarget1 s) = flightVars s := by
  unfold drawTarget1; split_ifs <;> rfl

theorem drawTarget2_flightVars : flightVars (drawTarget2 s) = flightVars s := by
  unfold drawTarget2; split_ifs <;> rfl

theorem CheckFloorCollisions_flightVars (x y b c d : K) :
    flightVars (CheckFloorCollisions s x y b c d) = flightVars s := by
  unfold CheckFloorCollisions; split_ifs <;> rfl

theorem obstacleBounce_flightVars (b c d e : K) :
    flightVars (obstacleBounce s b c d e) = flightVars s := by
  unfold obstacleBounce checkCollisionObs; split_ifs <;> simp_all [flightVars]

theorem checked_flightVars : flightVars (checked M s) = flightVars s := by
  simp only [checked, obstacleChecks, floorChecks, obstacleBounce_flightVars,
    CheckFloorCollisions_flightVars, drawTarget2_flightVars, drawTarget1_flightVars, sampled]
  exact fireCorrection_flightVars M s

theorem checked_t : (checked M s).t = s.t :=
  congrArg Prod.fst (checked_flightVars M s)

theorem checked_u : (checked M s).u = s.u :=
  congrArg (fun c => c.2.1) (checked_flightVars M s)

theorem checked_last_update_time : (checked M s).last_update_time = s.last_update_time :=
  congrArg (fun c => c.2.2) (checked_flightVars M s)

theorem checked_e : (checked M s).e = s.e := by
  have h : launchConstants (checked M s) = launchConstants s := by
    simp [checked, sampled]
  exact congrArg (fun c => c.2.2.1) h

/-- What the clock advance or bounce resolution does to `t` and `u`. -/
theorem advance_t_u (p : State K) :
    (floorBounceBranch p → (advance p).t = 0 ∧ (advance p).u = p.u * p.e) ∧
      (¬ floorBounceBranch p →
        ((advance p).t = p.t + 0.01 ∨ (advance p).t = p.t) ∧ (advance p).u = p.u) := by
  unfold floorBounceBranch advance
  constructor
  · rintro ⟨h1, h2, h3⟩
    rw [if_neg h1, if_pos h2, if_pos h3]
    exact ⟨rfl, rfl⟩
  · intro h
    split_ifs with h1 h2 h3
    · exact ⟨Or.inl rfl, rfl⟩
    · exact absurd ⟨h1, h2, h3⟩ h
    · exact ⟨Or.inl rfl, rfl⟩
    · exact ⟨Or.inr rfl, rfl⟩

theorem advance_last_update_time (p : State K) :
    (advance p).last_update_time = p.last_update_time := by
  unfold advance; split_ifs <;> rfl

theorem keyboard_t (key : Key) (action : Action) (now : K) :
    (keyboard s key action now).t = s.t := by
  cases key <;> cases action <;> rfl

theorem pollEvents_t (events : List (KeyEvent K)) : (pollEvents s events).t = s.t := by
  induction events generalizing s with
  | nil => rfl
  | cons ev rest ih =>
    have hstep : pollEvents s (ev :: rest) =
        pollEvents (keyboard s ev.key ev.action ev.time) rest := rfl
    rw [hstep, ih, keyboard_t]

theorem keyboard_u (ev : KeyEvent K) (h : isSpeedKey ev = false) :
    (keyboard s ev.key ev.action ev.time).u = s.u := by
  obtain ⟨key, action, time⟩ := ev
  cases key <;> cases action <;> simp [isSpeedKey] at h <;> rfl

theorem pollEvents_u (events : List (KeyEvent K))
    (h : ∀ ev ∈ events, isSpeedKey ev = false) : (pollEvents s events).u = s.u := by
  induction events generalizing s with
  | nil => rfl
  | cons ev rest ih =>
    have hstep : pollEvents s (ev :: rest) =
        pollEvents (keyboard s ev.key ev.action ev.time) rest := rfl
    rw [hstep, ih _ (fun e he => h e (List.mem_cons_of_mem _ he))]
    exact keyboard_u s ev (h ev (List.mem_cons_self _ _))

theorem keyboard_last_update_time (ev : KeyEvent K) :
    (keyboard s ev.key ev.action ev.time).last_update_time =
      if isFireKey ev = true then ev.time else s.last_update_time := by
  obtain ⟨key, action, time⟩ := ev
  cases key <;> cases action <;> simp [isFireKey, keyboard]

/-- The watchdog timer after the simulation part of an iteration: the clock
reading of the world-bounds reset if there is one, the old value otherwise. -/
theorem simulate_last_update_time (rt : K) :
    (simulate M s rt).last_update_time =
      if outOfBounds M s then rt else s.last_update_time := by
  split_ifs with h
  · rw [simulate_eq_checked, boundsReset_of_outside]
    rw [advance_x_cannonball, checked_x_cannonball]
    exact h
  · rw [boundsReset_of_inBounds M s rt h, advance_last_update_time,
      checked_last_update_time]

theorem tick_of_due (f : Frame K) (h : watchdogDue M s f) :
    tick M s f =
      { pollEvents (simulate M s f.resetTime) f.events with
        current_time := f.current
        in_air_flag := false
        collision_flag := false
        t := 0
        vx := (pollEvents (simulate M s f.resetTime) f.events).ux
        x_till_collision := -3.0
        y_till_collision := -2.75
        fire := false
        u := 4.0
        last_update_time := f.current } := by
  have h2 : f.current - (pollEvents (simulate M s f.resetTime) f.events).last_update_time ≥
      10 := h
  rw [tick, watchdog, if_pos h2]

end flight_lemmas

/-- C15.  Stall watchdog.  At the end of an iteration, when the clock reading
is at least 10 seconds past `last_update_time`, the state is reset whatever
the flags and the ball position: `fire`, `in_air_flag` and `collision_flag`
clear, `t = 0`, `u = 4.0`, anchor `(-3.0, -2.75)`, `vx = ux`, and
`last_update_time` restarts from the clock reading; when fewer than 10 seconds
have passed the watchdog only stores the clock reading in `current_time`.
`last_update_time` is the time of the last re-arming: besides the watchdog
itself, it is assigned only by a fire trigger and by the world-bounds
reset. -/
theorem stall_watchdog (M : MathLib K) (s : State K) (f : Frame K) (current : K)
    (ev : KeyEvent K) :
    (current - s.last_update_time ≥ 10 →
        (watchdog s current).fire = false ∧
          (watchdog s current).in_air_flag = false ∧
          (watchdog s current).collision_flag = false ∧
          (watchdog s current).t = 0 ∧
          (watchdog s current).u = 4.0 ∧
          (watchdog s current).x_till_collision = -3.0 ∧
          (watchdog s current).y_till_collision = -2.75 ∧
          (watchdog s current).vx = s.ux ∧
          (watchdog s current).ux = s.ux ∧
          (watchdog s current).last_update_time = current) ∧
      (current - s.last_update_time < 10 →
        watchdog s current = { s with current_time := current }) ∧
      tick M s f = watchdog (pollEvents (simulate M s f.resetTime) f.events) f.current ∧
      (simulate M s f.resetTime).last_update_time =
        (if outOfBounds M s then f.resetTime else s.last_update_time) ∧
      (keyboard s ev.key ev.action ev.time).last_update_time =
        (if isFireKey ev = true then ev.time else s.last_update_time) := by
  refine ⟨?_, ?_, rfl, simulate_last_update_time M s f.resetTime,
    keyboard_last_update_time s ev⟩
  · intro h
    rw [watchdog, if_pos h]
    exact ⟨rfl, rfl, rfl, rfl, rfl, rfl, rfl, rfl, rfl, rfl⟩
  · intro h
    exact watchdog_of_not_due s current h

/-- Witness of C15: the ball of `wallState` is in flight (`in_air_flag` set)
when the clock reads 10 with `last_update_time = 0`; the watchdog resets it. -/
theorem stall_watchdog_witness :
    wallState.in_air_flag = true ∧
      (watchdog wallState 10).in_air_flag = false ∧
      (watchdog wallState 10).t = 0 ∧
      (watchdog wallState 10).u = 4.0 ∧
      (watchdog wallState 10).last_update_time = 10 ∧
      watchdog wallState 9 = { wallState with current_time := 9 } := by
  have h := stall_watchdog ratLibm wallState (quietFrame 10) 10 fireKey
  have h9 := stall_watchdog ratLibm wallState (quietFrame 9) 9 fireKey
  have hd := h.1 (by norm_num [wallState, init])
  exact ⟨rfl, hd.2.1, hd.2.2.2.1, hd.2.2.2.2.1, hd.2.2.2.2.2.2.2.2.2,
    h9.2.1 (by norm_num [wallState, init])⟩

section clock_lemmas

variable (M : MathLib K) (s : State K)

theorem checked_of_no_hit (h : ¬ hitDetected M s) :
    (checked M s).fire = s.fire ∧ (checked M s).in_air_flag = s.in_air_flag ∧
      (checked M s).collision_flag = s.collision_flag := by
  unfold hitDetected at h
  push_neg at h
  obtain ⟨tv, hp⟩ := checked_eq_checks M s
  rw [hp, floorChecks_of_not_band _ (by exact h.1), obstacleChecks_of_not_box _ (by exact h.2),
    sampled_eq]
  exact ⟨rfl, rfl, rfl⟩

theorem simulate_t_of_outside (rt : K) (h : outOfBounds M s) : (simulate M s rt).t = 0 := by
  rw [simulate_eq_checked, boundsReset_of_outside]
  rw [advance_x_cannonball, checked_x_cannonball]
  exact h

theorem tick_t_of_not_due (f : Frame K) (h : ¬ watchdogDue M s f) :
    (tick M s f).t = (simulate M s f.resetTime).t := by
  rw [tick_of_not_due M s f h]
  exact pollEvents_t _ _

end clock_lemmas

/-- C16, counterexample.  The ball of `strayState` is in flight
(`in_air_flag` set, `t = 0.5`) and is sampled at `x = 4.6`, on no floor band;
the iteration resets `t` to 0 without any floor bounce. -/
theorem clock_monotone_counterexample :
    strayState.in_air_flag = true ∧ strayState.t = 0.5 ∧
      ¬ anyFloorBand (sampled ratLibm strayState).x_cannonball
        (sampled ratLibm strayState).y_cannonball ∧
      ¬ floorBounceTick ratLibm strayState ∧
      (tick ratLibm strayState (quietFrame 1)).t = 0 ∧
      (tick ratLibm strayState (quietFrame 1)).t < strayState.t := by
  have hxy : (sampled ratLibm strayState).x_cannonball = 4.6 ∧
      (sampled ratLibm strayState).y_cannonball = -2.5 := by
    norm_num [sampled, samplePosition, fireCorrection, strayState, init, ratLibm]
  have hband : ¬ anyFloorBand (sampled ratLibm strayState).x_cannonball
      (sampled ratLibm strayState).y_cannonball := by
    rw [hxy.1, hxy.2]; norm_num [anyFloorBand, floorBand]
  have hhit : ¬ hitDetected ratLibm strayState := by
    unfold hitDetected
    rw [hxy.1, hxy.2]
    norm_num [anyFloorBand, floorBand, anyObstacleBox, obstacleBox]
  have hout : outOfBounds ratLibm strayState := by
    unfold outOfBounds
    rw [hxy.1]
    norm_num
  have ht : (tick ratLibm strayState (quietFrame 1)).t = 0 := by
    unfold tick watchdog
    split_ifs
    · rfl
    · show (pollEvents (simulate ratLibm strayState (quietFrame 1).resetTime)
        (quietFrame 1).events).t = 0
      rw [pollEvents_t, simulate_t_of_outside _ _ _ hout]
  refine ⟨rfl, by norm_num [strayState], hband, ?_, ht, ?_⟩
  · unfold floorBounceTick floorBounceBranch
    rw [(checked_of_no_hit ratLibm strayState hhit).2.2]
    norm_num [strayState, init]
  · rw [ht]
    norm_num [strayState]

/-- C16, as the code has it.  The clock `t` is reset to 0 by the world-bounds
reset and by the watchdog reset as well as by a floor bounce.  In an
iteration with the ball outside the world bounds or the watchdog due, `t`
ends at 0.  In an iteration with the ball inside the bounds and the watchdog
not due, `t` ends at 0 if the iteration resolves a floor bounce, and otherwise
it is advanced by 0.01 or left alone, so it does not decrease; for a firing or
airborne ball strictly inside the bounds with no hit detected it is advanced
by 0.01. -/
theorem clock_reset_or_advance (M : MathLib K) (s : State K) (f : Frame K) :
    (outOfBounds M s ∨ watchdogDue M s f → (tick M s f).t = 0) ∧
      (¬ outOfBounds M s → ¬ watchdogDue M s f →
        (floorBounceTick M s → (tick M s f).t = 0) ∧
          (¬ floorBounceTick M s →
            ((tick M s f).t = s.t + 0.01 ∨ (tick M s f).t = s.t) ∧ s.t ≤ (tick M s f).t)) ∧
      (s.fire = true ∨ (s.in_air_flag = true ∧ s.collision_flag = false) →
        ¬ hitDetected M s → (sampled M s).x_cannonball ∈ Set.Ioo (-4.5 : K) 4.5 →
          ¬ watchdogDue M s f → (tick M s f).t = s.t + 0.01) := by
  have hin : ¬ outOfBounds M s → ¬ watchdogDue M s f →
      (tick M s f).t = (advance (checked M s)).t := by
    intro ho hd
    rw [tick_t_of_not_due M s f hd, boundsReset_of_inBounds M s _ ho]
  refine ⟨?_, ?_, ?_⟩
  · intro h
    by_cases hd : watchdogDue M s f
    · rw [tick_of_due M s f hd]
    · rcases h with h | h
      · rw [tick_t_of_not_due M s f hd, simulate_t_of_outside M s _ h]
      · exact absurd h hd
  · intro ho hd
    rw [hin ho hd]
    constructor
    · intro hb
      exact ((advance_t_u (checked M s)).1 hb).1
    · intro hb
      have h := ((advance_t_u (checked M s)).2 hb).1
      rw [checked_t] at h
      refine ⟨h, ?_⟩
      rcases h with h | h
      · rw [h]; norm_num
      · rw [h]
  · intro hfly hhit hx hd
    have ho : ¬ outOfBounds M s := by
      unfold outOfBounds
      push_neg
      exact ⟨hx.1.le, hx.2.le⟩
    rw [hin ho hd]
    obtain ⟨hf, ha, hc⟩ := checked_of_no_hit M s hhit
    have hx2 : (checked M s).x_cannonball > -4.5 ∧ (checked M s).x_cannonball < 4.5 := by
      rw [checked_x_cannonball]
      exact ⟨hx.1, hx.2⟩
    have hcond : ((checked M s).fire = true ∨
        ((checked M s).in_air_flag = true ∧ (checked M s).collision_flag = false)) ∧
        ((checked M s).x_cannonball > -4.5 ∧ (checked M s).x_cannonball < 4.5) := by
      rw [hf, ha, hc]
      exact ⟨hfly, hx2⟩
    rw [advance, if_pos hcond]
    exact congrArg (fun z => z + 0.01) (checked_t M s)

section speed_lemmas

variable (M : MathLib K) (s : State K)

/-- The launch speed after an undisturbed iteration. -/
theorem tick_u_of_undisturbed (f : Frame K) (h : undisturbed M s f) :
    (tick M s f).u = if floorBounceTick M s then s.e * s.u else s.u := by
  obtain ⟨ho, hd, hk⟩ := h
  have hu : (tick M s f).u = (advance (checked M s)).u := by
    rw [tick_of_not_due M s f hd]
    show (pollEvents (simulate M s f.resetTime) f.events).u = _
    rw [pollEvents_u _ _ hk, boundsReset_of_inBounds M s _ ho]
  rw [hu]
  split_ifs with hb
  · rw [((advance_t_u (checked M s)).1 hb).2, checked_u, checked_e, mul_comm]
  · rw [((advance_t_u (checked M s)).2 hb).2, checked_u]

theorem tick_e (f : Frame K) : (tick M s f).e = s.e :=
  congrArg (fun c => c.2.2.1) (tick_constants M s f)

end speed_lemmas

/-- C17.  Speed decay compounds geometrically.  Over a run in which nothing
but the bounce resolution can change the launch speed (the ball stays inside
the world bounds, the watchdog is never due and no speed key is polled), the
launch speed after the run is `e ^ n` times the speed before it, `n` the
number of iterations that resolve a floor bounce. -/
theorem speed_decay (M : MathLib K) (s : State K) (frames : List (Frame K))
    (h : allUndisturbed M s frames) :
    (run M s frames).u = s.e ^ bounces M s frames * s.u := by
  induction frames generalizing s with
  | nil => simp [run, bounces]
  | cons f rest ih =>
    obtain ⟨hf, hrest⟩ := h
    rw [run_cons, ih _ hrest, tick_e, tick_u_of_undisturbed M s f hf]
    show _ = s.e ^ ((if floorBounceTick M s then 1 else 0) + bounces M (tick M s f) rest) * s.u
    split_ifs
    · rw [pow_add, pow_one]; ring
    · rw [zero_add]

section threeBounce_lemmas

/-- The run from `fallingState` over thirteen quiet frames is undisturbed and
resolves floor bounces in its 1st, 6th and 13th iteration. -/
theorem threeBounce_facts :
    allUndisturbed ratLibm fallingState threeBounceFrames ∧
      bounces ratLibm fallingState (List.replicate 1 (quietFrame 0)) = 1 ∧
      bounces ratLibm fallingState (List.replicate 6 (quietFrame 0)) = 2 ∧
      bounces ratLibm fallingState threeBounceFrames = 3 := by
  norm_num [allUndisturbed, undisturbed, outOfBounds, watchdogDue, threeBounceFrames,
    bounces, floorBounceTick, floorBounceBranch, checked,
    fallingState, sampled, run, tick, simulate, init, ratLibm, aimDownAndFire,
    keyFrame, quietFrame, fireKey, aimDownKey, List.replicate, watchdog, pollEvents,
    keyboard, boundsReset, advance, obstacleChecks, obstacleBounce, checkCollisionObs,
    obstacleBox, floorChecks, CheckFloorCollisions, floorBand, drawTarget1, drawTarget2,
    checkCollisionTarget, diagnostics, samplePosition, fireCorrection]

theorem allUndisturbed_take (M : MathLib K) (s : State K) (frames : List (Frame K)) (k : ℕ)
    (h : allUndisturbed M s frames) : allUndisturbed M s (frames.take k) := by
  induction frames generalizing s k with
  | nil => simpa using h
  | cons f rest ih =>
    cases k with
    | zero => simp [allUndisturbed]
    | succ n =>
      rw [List.take_succ_cons]
      exact ⟨h.1, ih _ _ h.2⟩

end threeBounce_lemmas

/-- Witness of C17: from `fallingState` (`e = 0.6`, `u = 4.0`) the run over
thirteen quiet frames holds three floor bounces, and the launch speed is 2.4
after the first, 1.44 after the second and 0.864 after the third. -/
theorem speed_decay_witness :
    fallingState.e = 0.6 ∧ fallingState.u = 4.0 ∧
      bounces ratLibm fallingState threeBounceFrames = 3 ∧
      (run ratLibm fallingState (List.replicate 1 (quietFrame 0))).u = 2.4 ∧
      (run ratLibm fallingState (List.replicate 6 (quietFrame 0))).u = 1.44 ∧
      (run ratLibm fallingState threeBounceFrames).u = 0.864 := by
  obtain ⟨hall, hb1, hb2, hb3⟩ := threeBounce_facts
  have he : fallingState.e = 0.6 := by
    rw [fallingState_values.2.2.2.2.2.2.2.2.2.1]
  have hu : fallingState.u = 4.0 := by
    rw [fallingState_values.2.2.2.2.2.2.2.1]; norm_num
  have h1 := speed_decay ratLibm fallingState (threeBounceFrames.take 1)
    (allUndisturbed_take ratLibm fallingState threeBounceFrames 1 hall)
  have h2 := speed_decay ratLibm fallingState (threeBounceFrames.take 6)
    (allUndisturbed_take ratLibm fallingState threeBounceFrames 6 hall)
  have h3 := speed_decay ratLibm fallingState threeBounceFrames hall
  have ht1 : threeBounceFrames.take 1 = List.replicate 1 (quietFrame 0) := by
    simp [threeBounceFrames, List.take_replicate]
  have ht2 : threeBounceFrames.take 6 = List.replicate 6 (quietFrame 0) := by
    simp [threeBounceFrames, List.take_replicate]
  rw [ht1, hb1, he, hu] at h1
  rw [ht2, hb2, he, hu] at h2
  rw [hb3, he, hu] at h3
  refine ⟨he, hu, hb3, ?_, ?_, ?_⟩
  · rw [h1]; norm_num
  · rw [h2]; norm_num
  · rw [h3]; norm_num

/-- C18.  Apex of the vertical arc.  For gravity `g > 0` the sampled height
`y(t) = y_till_collision + u * sin(thita_ball) * t - 0.5 * g * t^2` is at most
`y_till_collision + (u * sin(thita_ball))^2 / (2 * g)` for every `t`, with
equality at `t = u * sin(thita_ball) / g`.  For an angle of 45 degrees, `u = 4`
and `g = 4`, with a math library for which `sin 45° = sqrt 2 / 2` and
`sqrt 2 * sqrt 2 = 2`, the apex is at `t = sqrt 2 / 2` and the peak height is
`y_till_collision + 1`. -/
theorem apex (M : MathLib K) (s : State K) (τ : K) (hg : 0 < s.g) :
    (samplePosition M { s with t := τ }).y_cannonball ≤
        s.y_till_collision + (s.u * M.sinDeg s.thita_ball) ^ 2 / (2 * s.g) ∧
      (samplePosition M { s with t := s.u * M.sinDeg s.thita_ball / s.g }).y_cannonball =
        s.y_till_collision + (s.u * M.sinDeg s.thita_ball) ^ 2 / (2 * s.g) ∧
      (s.u = 4 → s.g = 4 → s.thita_ball = 45 → M.sinDeg 45 = M.sqrt 2 / 2 →
        M.sqrt 2 * M.sqrt 2 = 2 →
          s.u * M.sinDeg s.thita_ball / s.g = M.sqrt 2 / 2 ∧
            s.y_till_collision + (s.u * M.sinDeg s.thita_ball) ^ 2 / (2 * s.g) =
              s.y_till_collision + 1) := by
  have hg2 : s.g ≠ 0 := ne_of_gt hg
  refine ⟨?_, ?_, ?_⟩
  · show s.y_till_collision + s.u * M.sinDeg s.thita_ball * τ - 0.5 * s.g * τ * τ ≤ _
    have key : s.y_till_collision + (s.u * M.sinDeg s.thita_ball) ^ 2 / (2 * s.g) -
        (s.y_till_collision + s.u * M.sinDeg s.thita_ball * τ - 0.5 * s.g * τ * τ) =
        (s.u * M.sinDeg s.thita_ball - s.g * τ) ^ 2 / (2 * s.g) := by
      norm_num
      field_simp
      ring
    have hnn : 0 ≤ (s.u * M.sinDeg s.thita_ball - s.g * τ) ^ 2 / (2 * s.g) :=
      div_nonneg (sq_nonneg _) (by linarith)
    linarith
  · show s.y_till_collision +
        s.u * M.sinDeg s.thita_ball * (s.u * M.sinDeg s.thita_ball / s.g) -
        0.5 * s.g * (s.u * M.sinDeg s.thita_ball / s.g) *
          (s.u * M.sinDeg s.thita_ball / s.g) = _
    norm_num
    field_simp
    ring
  · intro hu hgv hth hsin hsq
    rw [hu, hgv, hth, hsin]
    constructor
    · field_simp
      ring
    · have h4 : ((4 : K) * (M.sqrt 2 / 2)) ^ 2 = 8 := by
        have : ((4 : K) * (M.sqrt 2 / 2)) ^ 2 = 4 * (M.sqrt 2 * M.sqrt 2) := by ring
        rw [this, hsq]; norm_num
      rw [h4]; norm_num

/-- Witness of C18, over the reals with the exact sine and square root:
Scenario A is the initial state (45 degrees, `u = 4`, `g = 4`, anchor height
`-2.75`); the apex is at `t = sqrt 2 / 2`, between 0.707 and 0.708, the peak
height is `-2.75 + 1`, it is reached there, and the height at `t = 1` is
below it. -/
theorem apex_witness :
    (0 : ℝ) < (init (⟨fun d => Real.cos (d * Real.pi / 180),
        fun d => Real.sin (d * Real.pi / 180), Real.sqrt⟩ : MathLib ℝ) 0).g ∧
      (samplePosition (⟨fun d => Real.cos (d * Real.pi / 180),
          fun d => Real.sin (d * Real.pi / 180), Real.sqrt⟩ : MathLib ℝ)
        { init (⟨fun d => Real.cos (d * Real.pi / 180),
            fun d => Real.sin (d * Real.pi / 180), Real.sqrt⟩ : MathLib ℝ) 0 with
          t := Real.sqrt 2 / 2 }).y_cannonball = -2.75 + 1 ∧
      (samplePosition (⟨fun d => Real.cos (d * Real.pi / 180),
          fun d => Real.sin (d * Real.pi / 180), Real.sqrt⟩ : MathLib ℝ)
        { init (⟨fun d => Real.cos (d * Real.pi / 180),
            fun d => Real.sin (d * Real.pi / 180), Real.sqrt⟩ : MathLib ℝ) 0 with
          t := 1 }).y_cannonball ≤ -2.75 + 1 ∧
      (0.707 : ℝ) < Real.sqrt 2 / 2 ∧ Real.sqrt 2 / 2 < 0.708 := by
  have hsin : Real.sin ((45 : ℝ) * Real.pi / 180) = Real.sqrt 2 / 2 := by
    have h : (45 : ℝ) * Real.pi / 180 = Real.pi / 4 := by ring
    rw [h, Real.sin_pi_div_four]
  have hsq : Real.sqrt 2 * Real.sqrt 2 = 2 := Real.mul_self_sqrt (by norm_num)
  have hg : (0 : ℝ) < (init (⟨fun d => Real.cos (d * Real.pi / 180),
      fun d => Real.sin (d * Real.pi / 180), Real.sqrt⟩ : MathLib ℝ) 0).g := by
    show (0 : ℝ) < 4.0
    norm_num
  have h1 := apex (⟨fun d => Real.cos (d * Real.pi / 180),
      fun d => Real.sin (d * Real.pi / 180), Real.sqrt⟩ : MathLib ℝ)
    (init (⟨fun d => Real.cos (d * Real.pi / 180),
      fun d => Real.sin (d * Real.pi / 180), Real.sqrt⟩ : MathLib ℝ) 0) 1 hg
  obtain ⟨hle, heq, hex⟩ := h1
  obtain ⟨htime, hpeak⟩ := hex (by show (4.0 : ℝ) = 4; norm_num) (by show (4.0 : ℝ) = 4; norm_num)
    rfl hsin hsq
  refine ⟨hg, ?_, ?_, ?_, ?_⟩
  · rw [htime] at heq
    rw [heq, hpeak]
    show (-2.75 : ℝ) + 1 = -2.75 + 1
    rfl
  · refine le_trans hle (le_of_eq ?_)
    rw [hpeak]
    show (-2.75 : ℝ) + 1 = -2.75 + 1
    rfl
  · have h : (1.414 : ℝ) < Real.sqrt 2 := by
      rw [show (1.414 : ℝ) = Real.sqrt (1.414 ^ 2) by
        rw [Real.sqrt_sq (by norm_num)]]
      exact Real.sqrt_lt_sqrt (by norm_num) (by norm_num)
    linarith
  · have h : Real.sqrt 2 < (1.416 : ℝ) := by
      rw [show (1.416 : ℝ) = Real.sqrt (1.416 ^ 2) by
        rw [Real.sqrt_sq (by norm_num)]]
      exact Real.sqrt_lt_sqrt (by norm_num) (by norm_num)
    linarith

section detection_lemmas

variable (M : MathLib K) (s : State K)

/-- The obstacle flag the collision checks leave when the ground band fires:
it is set exactly when an obstacle check fires afterwards. -/
theorem checked_obs_collision_of_band
    (hband : anyFloorBand (sampled M s).x_cannonball (sampled M s).y_cannonball) :
    ((checked M s).obs_collision = true ↔
      anyObstacleBox (sampled M s).x_cannonball (sampled M s).y_cannonball) := by
  obtain ⟨tv, hp⟩ := checked_eq_checks M s
  rw [hp, floorChecks_of_band _ (by exact hband)]
  by_cases hbox : anyObstacleBox (sampled M s).x_cannonball (sampled M s).y_cannonball
  · rw [obstacleChecks_of_box _ (by exact hbox)]
    exact ⟨fun _ => hbox, fun _ => rfl⟩
  · rw [obstacleChecks_of_not_box _ (by exact hbox)]
    exact ⟨fun h => by simp at h, fun h => absurd h hbox⟩

/-- On the ground band an obstacle check fires exactly above `y = -3` inside
one of the four inflated obstacle widths. -/
theorem anyObstacleBox_on_ground {x y : K} (hy : y ∈ Set.Ico (-3 : K) (-2.85)) :
    anyObstacleBox x y ↔
      -3 < y ∧ (x ∈ Set.Ico (-1.35 : K) (-0.65) ∨ x ∈ Set.Ico (-2.35 : K) (-1.65) ∨
        x ∈ Set.Ico (0.65 : K) 1.35 ∨ x ∈ Set.Ico (-0.35 : K) 0.35) := by
  obtain ⟨hy1, hy2⟩ := hy
  have hy2' : y < -2.85 := hy2
  norm_num at hy2'
  unfold anyObstacleBox obstacleBox
  simp only [Set.mem_Ico, ge_iff_le, gt_iff_lt]
  norm_num
  constructor
  · rintro (⟨h1, h2, h3, h4⟩ | ⟨h1, h2, h3, h4⟩ | ⟨h1, h2, h3, h4⟩ | ⟨h1, h2, h3, h4⟩)
    · exact ⟨h4, Or.inl ⟨h1, h2⟩⟩
    · exact ⟨h4, Or.inr (Or.inl ⟨h1, h2⟩)⟩
    · exact ⟨h4, Or.inr (Or.inr (Or.inl ⟨h1, h2⟩))⟩
    · exact ⟨h4, Or.inr (Or.inr (Or.inr ⟨h1, h2⟩))⟩
  · rintro ⟨h0, ⟨h1, h2⟩ | ⟨h1, h2⟩ | ⟨h1, h2⟩ | ⟨h1, h2⟩⟩
    · exact Or.inl ⟨h1, h2, by linarith, h0⟩
    · exact Or.inr (Or.inl ⟨h1, h2, by linarith, h0⟩)
    · exact Or.inr (Or.inr (Or.inl ⟨h1, h2, by linarith, h0⟩))
    · exact Or.inr (Or.inr (Or.inr ⟨h1, h2, by linarith, h0⟩))

theorem anyFloorBand_of_ground {x y : K} (hx : x ∈ Set.Ioo (-6 : K) 6)
    (hy : y ∈ Set.Ico (-3 : K) (-2.85)) : anyFloorBand x y := by
  refine Or.inl ?_
  unfold floorBand
  obtain ⟨hy1, hy2⟩ := hy
  have hy2' : y < -2.85 := hy2
  norm_num at hy2' ⊢
  exact ⟨hy1, hy2', hx.2, hx.1⟩

end detection_lemmas

/-- C19, counterexample.  The ball of `obstacleFootState` is sampled at
`(-1, -2.9)`, with `y` in `[-3.0, -2.85)` and `x` in `(-6, 6)`; the ground
band fires, then the check of the first obstacle fires too, and the
collision checks leave `obs_collision` set. -/
theorem ground_hit_flags_counterexample :
    (sampled ratLibm obstacleFootState).x_cannonball ∈ Set.Ioo (-6 : ℚ) 6 ∧
      (sampled ratLibm obstacleFootState).y_cannonball ∈ Set.Ico (-3 : ℚ) (-2.85) ∧
      ¬((checked ratLibm obstacleFootState).collision_flag = true ∧
        (checked ratLibm obstacleFootState).obs_collision = false) := by
  have hxy : (sampled ratLibm obstacleFootState).x_cannonball = -1 ∧
      (sampled ratLibm obstacleFootState).y_cannonball = -2.9 := by
    norm_num [sampled, samplePosition, fireCorrection, obstacleFootState, init, ratLibm]
  have hx : (sampled ratLibm obstacleFootState).x_cannonball ∈ Set.Ioo (-6 : ℚ) 6 := by
    rw [hxy.1]; norm_num [Set.mem_Ioo]
  have hy : (sampled ratLibm obstacleFootState).y_cannonball ∈ Set.Ico (-3 : ℚ) (-2.85) := by
    rw [hxy.2]; norm_num [Set.mem_Ico]
  have hbox : anyObstacleBox (sampled ratLibm obstacleFootState).x_cannonball
      (sampled ratLibm obstacleFootState).y_cannonball := by
    rw [hxy.1, hxy.2]; norm_num [anyObstacleBox, obstacleBox]
  have hobs : (checked ratLibm obstacleFootState).obs_collision = true :=
    (checked_obs_collision_of_band ratLibm obstacleFootState
      (anyFloorBand_of_ground hx hy)).mpr hbox
  refine ⟨hx, hy, ?_⟩
  rw [hobs]
  simp

/-- C19, as the code has it.  For every sampled position with `y` in
`[-3.0, -2.85)` and `x` in `(-6, 6)` the collision checks leave
`collision_flag` set, and they leave `obs_collision` set exactly when an
obstacle check fires after the ground band, that is when `y > -3` and `x` is
in one of the inflated obstacle widths `[-1.35, -0.65)`, `[-2.35, -1.65)`,
`[0.65, 1.35)`, `[-0.35, 0.35)`; otherwise `obs_collision` is left clear. -/
theorem ground_hit_flags (M : MathLib K) (s : State K)
    (hx : (sampled M s).x_cannonball ∈ Set.Ioo (-6 : K) 6)
    (hy : (sampled M s).y_cannonball ∈ Set.Ico (-3 : K) (-2.85)) :
    (checked M s).collision_flag = true ∧
      ((checked M s).obs_collision = true ↔
        -3 < (sampled M s).y_cannonball ∧
          ((sampled M s).x_cannonball ∈ Set.Ico (-1.35 : K) (-0.65) ∨
            (sampled M s).x_cannonball ∈ Set.Ico (-2.35 : K) (-1.65) ∨
            (sampled M s).x_cannonball ∈ Set.Ico (0.65 : K) 1.35 ∨
            (sampled M s).x_cannonball ∈ Set.Ico (-0.35 : K) 0.35)) ∧
      (¬ anyObstacleBox (sampled M s).x_cannonball (sampled M s).y_cannonball →
        (checked M s).obs_collision = false) := by
  have hband := anyFloorBand_of_ground hx hy
  have hiff := checked_obs_collision_of_band M s hband
  refine ⟨(checked_of_hit M s (Or.inl hband)).1, ?_, ?_⟩
  · rw [hiff, anyObstacleBox_on_ground hy]
  · intro hbox
    cases hc : (checked M s).obs_collision
    · rfl
    · exact absurd (hiff.mp hc) hbox

/-- Witness of C19: the ball of `landingState` is sampled at `(-2.5, -2.9)`,
on the ground band and clear of the obstacles; the collision checks leave
`collision_flag` set and `obs_collision` clear. -/
theorem ground_hit_flags_witness :
    (sampled ratLibm landingState).x_cannonball = -2.5 ∧
      (sampled ratLibm landingState).y_cannonball = -2.9 ∧
      (checked ratLibm landingState).collision_flag = true ∧
      (checked ratLibm landingState).obs_collision = false := by
  have hxy : (sampled ratLibm landingState).x_cannonball = -2.5 ∧
      (sampled ratLibm landingState).y_cannonball = -2.9 := by
    norm_num [sampled, samplePosition, fireCorrection, landingState, init, ratLibm]
  have h := ground_hit_flags ratLibm landingState
    (by rw [hxy.1]; norm_num [Set.mem_Ioo]) (by rw [hxy.2]; norm_num [Set.mem_Ico])
  refine ⟨hxy.1, hxy.2, h.1, h.2.2 ?_⟩
  rw [hxy.1, hxy.2]
  norm_num [anyObstacleBox, obstacleBox]

section bouncedState_lemmas

/-- The values of `bouncedState` a fire trigger reads or writes. -/
theorem bouncedState_values :
    bouncedState.in_air_flag = true ∧ bouncedState.fire = false ∧
      bouncedState.collision_flag = false ∧ bouncedState.thita_ball = -90 ∧
      bouncedState.thita = -90 := by
  norm_num [bouncedState, fallingState, run, tick, simulate, init, ratLibm, aimDownAndFire,
    keyFrame, quietFrame, fireKey, aimDownKey, List.replicate, watchdog, pollEvents,
    keyboard, boundsReset, advance, obstacleChecks, obstacleBounce, checkCollisionObs,
    obstacleBox, floorChecks, CheckFloorCollisions, floorBand, drawTarget1, drawTarget2,
    checkCollisionTarget, diagnostics, samplePosition, fireCorrection]

end bouncedState_lemmas

/-- C20, counterexample.  In `bouncedState`, reached from the initial state,
the ball is airborne (`in_air_flag` set, `fire` clear, `thita_ball = -90`).
The aim is lowered by 5 degrees and a fire trigger arrives: the trigger is
accepted, `fire` becomes true and `thita_ball` becomes -95. -/
theorem fire_while_airborne_counterexample :
    bouncedState.in_air_flag = true ∧ bouncedState.fire = false ∧
      bouncedState.thita_ball = -90 ∧
      (pollEvents bouncedState [aimDownKey, fireKey]).fire = true ∧
      (pollEvents bouncedState [aimDownKey, fireKey]).thita_ball = -95 ∧
      (pollEvents bouncedState [aimDownKey, fireKey]).in_air_flag = true := by
  obtain ⟨h1, h2, -, h4, h5⟩ := bouncedState_values
  refine ⟨h1, h2, h4, rfl, ?_, ?_⟩
  · show bouncedState.thita - 5 = -95
    rw [h5]; norm_num
  · show bouncedState.in_air_flag = true
    exact h1

/-- C20, as the code has it.  A fire trigger is accepted in every state, also
while a shot is airborne or colliding: it sets `thita_ball` to the aim angle,
sets `fire` and arms the correction (`fl`), and leaves `in_air_flag`,
`collision_flag` and `vx` as they are; the next iteration then multiplies `vx`
by `sqrt(2) * cos(thita_ball)` before it samples the position. -/
theorem fire_accepted_in_every_state (M : MathLib K) (s : State K) (now : K) :
    (keyboard s Key.SPACE Action.RELEASE now).thita_ball = s.thita ∧
      (keyboard s Key.SPACE Action.RELEASE now).fire = true ∧
      (keyboard s Key.SPACE Action.RELEASE now).fl = true ∧
      (keyboard s Key.SPACE Action.RELEASE now).in_air_flag = s.in_air_flag ∧
      (keyboard s Key.SPACE Action.RELEASE now).collision_flag = s.collision_flag ∧
      (keyboard s Key.SPACE Action.RELEASE now).vx = s.vx ∧
      (sampled M (keyboard s Key.SPACE Action.RELEASE now)).vx =
        s.vx * (M.sqrt 2 * M.cosDeg s.thita) := by
  refine ⟨rfl, rfl, rfl, rfl, rfl, rfl, ?_⟩
  rw [sampled_eq]
  show (fireCorrection M (keyboard s Key.SPACE Action.RELEASE now)).vx = _
  have hfl : (keyboard s Key.SPACE Action.RELEASE now).fl = true := rfl
  rw [fireCorrection, if_pos hfl]
  rfl

section speed_live_lemmas

variable (M : MathLib K) (s : State K)

/-- The sampled position when the launch speed is changed by `d`: `x` is the
same and `y` moves by `d * sin(thita_ball) * t`. -/
theorem sampled_of_speed_change (d : K) :
    (sampled M { s with u := s.u + d }).x_cannonball = (sampled M s).x_cannonball ∧
      (sampled M { s with u := s.u + d }).y_cannonball =
        (sampled M s).y_cannonball + d * M.sinDeg s.thita_ball * s.t := by
  have hv : (fireCorrection M { s with u := s.u + d }).vx = (fireCorrection M s).vx := by
    unfold fireCorrection; split_ifs <;> rfl
  rw [sampled_eq, sampled_eq]
  constructor
  · show s.x_till_collision + (fireCorrection M { s with u := s.u + d }).vx *
      (s.t - s.t_till_now) = s.x_till_collision + (fireCorrection M s).vx * (s.t - s.t_till_now)
    rw [hv]
  · show s.y_till_collision + (s.u + d) * M.sinDeg s.thita_ball * s.t - 0.5 * s.g * s.t * s.t =
      s.y_till_collision + s.u * M.sinDeg s.thita_ball * s.t - 0.5 * s.g * s.t * s.t +
        d * M.sinDeg s.thita_ball * s.t
    ring

end speed_live_lemmas

section airborneState_lemmas

/-- The values of `airborneState` the next sample reads. -/
theorem airborneState_values :
    airborneState.in_air_flag = true ∧ airborneState.fire = false ∧
      airborneState.t = 0.01 ∧ airborneState.thita_ball = -90 ∧ airborneState.u = 2.4 := by
  norm_num [airborneState, bouncedState, fallingState, run, tick, simulate, init, ratLibm,
    aimDownAndFire, keyFrame, quietFrame, fireKey, aimDownKey, List.replicate, watchdog,
    pollEvents, keyboard, boundsReset, advance, obstacleChecks, obstacleBounce,
    checkCollisionObs, obstacleBox, floorChecks, CheckFloorCollisions, floorBand,
    drawTarget1, drawTarget2, checkCollisionTarget, diagnostics, samplePosition,
    fireCorrection]

end airborneState_lemmas

/-- C21, counterexample.  In `airborneState`, reached from the initial state by
a shot that has bounced once, the ball is airborne with `t = 0.01` and
`thita_ball = -90`.  A release of `F` (speed up by 0.2) moves the `y` the next
iteration samples by `0.2 * sin(-90°) * 0.01 = -0.002`. -/
theorem speed_frozen_counterexample :
    airborneState.in_air_flag = true ∧
      (sampled ratLibm (pollEvents airborneState [fasterKey])).y_cannonball =
        (sampled ratLibm airborneState).y_cannonball - 0.002 ∧
      (sampled ratLibm (pollEvents airborneState [fasterKey])).y_cannonball ≠
        (sampled ratLibm airborneState).y_cannonball := by
  obtain ⟨h1, -, h3, h4, -⟩ := airborneState_values
  have hy : (sampled ratLibm (pollEvents airborneState [fasterKey])).y_cannonball =
      (sampled ratLibm airborneState).y_cannonball - 0.002 := by
    have h := (sampled_of_speed_change ratLibm airborneState 0.2).2
    have hp : pollEvents airborneState [fasterKey] =
        { airborneState with u := airborneState.u + 0.2 } := rfl
    rw [hp, h, h3, h4]
    have hs : ratLibm.sinDeg (-90) = -1 := sinDegQ_neg_ninety
    rw [hs]
    norm_num
    ring
  refine ⟨h1, hy, ?_⟩
  rw [hy]
  norm_num

/-- C21, as the code has it.  No copy of the launch speed is taken at fire
time: the position formula reads the live `u`.  A speed key leaves the sampled
`x` as it is and moves the sampled `y` by `d * sin(thita_ball) * t`, with `d`
the adjustment (`0.2` and `-0.2` for a release of `F` and `S`, `0.1` and `-0.1`
for a repeat), so the positions of the flight are unchanged only where
`sin(thita_ball) * t = 0`. -/
theorem speed_is_live (M : MathLib K) (s : State K) (now : K) :
    ((sampled M (keyboard s Key.F Action.RELEASE now)).x_cannonball =
          (sampled M s).x_cannonball ∧
        (sampled M (keyboard s Key.F Action.RELEASE now)).y_cannonball =
          (sampled M s).y_cannonball + 0.2 * M.sinDeg s.thita_ball * s.t) ∧
      ((sampled M (keyboard s Key.S Action.RELEASE now)).x_cannonball =
          (sampled M s).x_cannonball ∧
        (sampled M (keyboard s Key.S Action.RELEASE now)).y_cannonball =
          (sampled M s).y_cannonball + -0.2 * M.sinDeg s.thita_ball * s.t) ∧
      ((sampled M (keyboard s Key.F Action.REPEAT now)).x_cannonball =
          (sampled M s).x_cannonball ∧
        (sampled M (keyboard s Key.F Action.REPEAT now)).y_cannonball =
          (sampled M s).y_cannonball + 0.1 * M.sinDeg s.thita_ball * s.t) ∧
      ((sampled M (keyboard s Key.S Action.REPEAT now)).x_cannonball =
          (sampled M s).x_cannonball ∧
        (sampled M (keyboard s Key.S Action.REPEAT now)).y_cannonball =
          (sampled M s).y_cannonball + -0.1 * M.sinDeg s.thita_ball * s.t) ∧
      (keyboard s Key.SPACE Action.RELEASE now).u = s.u := by
  have hS2 : keyboard s Key.S Action.RELEASE now = { s with u := s.u + -0.2 } := by
    show { s with u := s.u - 0.2 } = { s with u := s.u + -0.2 }
    rw [sub_eq_add_neg]
  have hS1 : keyboard s Key.S Action.REPEAT now = { s with u := s.u + -0.1 } := by
    show { s with u := s.u - 0.1 } = { s with u := s.u + -0.1 }
    rw [sub_eq_add_neg]
  refine ⟨sampled_of_speed_change M s 0.2, ?_, sampled_of_speed_change M s 0.1, ?_, rfl⟩
  · rw [hS2]; exact sampled_of_speed_change M s (-0.2)
  · rw [hS1]; exact sampled_of_speed_change M s (-0.1)

section correction_lemmas

variable (M : MathLib K) (s : State K)

theorem keyboard_fl (ev : KeyEvent K) :
    (keyboard s ev.key ev.action ev.time).fl = (s.fl || isFireKey ev) := by
  obtain ⟨key, action, time⟩ := ev
  cases key <;> cases action <;> simp [isFireKey, keyboard]

theorem pollEvents_fl (events : List (KeyEvent K)) :
    (pollEvents s events).fl = (s.fl || events.any isFireKey) := by
  induction events generalizing s with
  | nil => simp [pollEvents]
  | cons ev rest ih =>
    have hstep : pollEvents s (ev :: rest) =
        pollEvents (keyboard s ev.key ev.action ev.time) rest := rfl
    rw [hstep, ih, keyboard_fl, List.any_cons, Bool.or_assoc]

theorem simulate_fl (rt : K) : (simulate M s rt).fl = false := by
  have h2 : ∀ p : State K, (drawTarget1 p).fl = p.fl := by
    intro p; unfold drawTarget1; split_ifs <;> rfl
  have h3 : ∀ p : State K, (drawTarget2 p).fl = p.fl := by
    intro p; unfold drawTarget2; split_ifs <;> rfl
  have h4 : ∀ (p : State K) (x y b c d : K), (CheckFloorCollisions p x y b c d).fl = p.fl := by
    intro p x y b c d; unfold CheckFloorCollisions; split_ifs <;> rfl
  have h5 : ∀ (p : State K) (b c d e : K), (obstacleBounce p b c d e).fl = p.fl := by
    intro p b c d e; unfold obstacleBounce checkCollisionObs; split_ifs <;> simp_all
  have h6 : ∀ p : State K, (advance p).fl = p.fl := by
    intro p; unfold advance; split_ifs <;> rfl
  have h7 : ∀ (p : State K) (n : K), (boundsReset p n).fl = p.fl := by
    intro p n; unfold boundsReset; split_ifs <;> rfl
  simp only [simulate, floorChecks, obstacleChecks, h7, h6, h5, h4, h3, h2]
  exact fireCorrection_fl M s

/-- A correction is pending after an iteration exactly when the iteration
polled a fire trigger. -/
theorem tick_fl (f : Frame K) : (tick M s f).fl = f.events.any isFireKey := by
  have hw : ∀ (p : State K) (c : K), (watchdog p c).fl = p.fl := by
    intro p c; unfold watchdog; split_ifs <;> rfl
  rw [tick, hw, pollEvents_fl, simulate_fl, Bool.false_or]

theorem fireCorrection_of_not_pending (h : s.fl = false) : fireCorrection M s = s := by
  rw [fireCorrection, if_neg]
  rw [h]
  simp

theorem fireCorrection_of_pending (h : s.fl = true) :
    (fireCorrection M s).vx = s.vx * (M.sqrt 2 * M.cosDeg s.thita_ball) := by
  rw [fireCorrection, if_pos h]

theorem sampled_vx : (sampled M s).vx = (fireCorrection M s).vx := by
  rw [sampled_eq]

theorem checked_vx_of_no_box
    (h : ¬ anyObstacleBox (sampled M s).x_cannonball (sampled M s).y_cannonball) :
    (checked M s).vx = (fireCorrection M s).vx := by
  obtain ⟨tv, hp⟩ := checked_eq_checks M s
  rw [hp]
  by_cases hband : anyFloorBand (sampled M s).x_cannonball (sampled M s).y_cannonball
  · rw [floorChecks_of_band _ (by exact hband), obstacleChecks_of_not_box _ (by exact h),
      sampled_eq]
  · rw [floorChecks_of_not_band _ (by exact hband), obstacleChecks_of_not_box _ (by exact h),
      sampled_eq]

theorem keyboard_vx (key : Key) (action : Action) (now : K) :
    (keyboard s key action now).vx = s.vx := by
  cases key <;> cases action <;> rfl

theorem pollEvents_vx (events : List (KeyEvent K)) : (pollEvents s events).vx = s.vx := by
  induction events generalizing s with
  | nil => rfl
  | cons ev rest ih =>
    have hstep : pollEvents s (ev :: rest) =
        pollEvents (keyboard s ev.key ev.action ev.time) rest := rfl
    rw [hstep, ih, keyboard_vx]

theorem advance_vx (p : State K) : (advance p).vx = p.vx := by
  unfold advance; split_ifs <;> rfl

/-- The `vx` an iteration ends with when no obstacle check fires, the ball is
inside the world bounds and the watchdog is not due: the one it sampled
with. -/
theorem tick_vx_of_no_box (f : Frame K)
    (h : ¬ anyObstacleBox (sampled M s).x_cannonball (sampled M s).y_cannonball)
    (ho : ¬ outOfBounds M s) (hd : ¬ watchdogDue M s f) :
    (tick M s f).vx = (fireCorrection M s).vx := by
  rw [tick_of_not_due M s f hd]
  show (pollEvents (simulate M s f.resetTime) f.events).vx = _
  rw [pollEvents_vx, boundsReset_of_inBounds M s _ ho, advance_vx, checked_vx_of_no_box M s h]

end correction_lemmas

/-- C23.  The score counter is never incremented: no iteration and no key
event assigns `score`, so in every state reached from the initial state by
any frames, also frames whose iterations hit a target, `score = 0`. -/
theorem score_never_incremented (M : MathLib K) (start : K) (s : State K) (f : Frame K)
    (frames : List (Frame K)) :
    (run M (init M start) frames).score = 0 ∧ (tick M s f).score = s.score ∧
      (run M s frames).score = s.score := by
  refine ⟨?_, ?_, ?_⟩
  · exact congrArg (fun c => c.2.2.2.2) (run_constants M (init M start) frames)
  · exact congrArg (fun c => c.2.2.2.2) (tick_constants M s f)
  · exact congrArg (fun c => c.2.2.2.2) (run_constants M s frames)

/-- Witness of C23: the ball of `inTarget1State` is inside the first target;
the iteration clears the target flag and leaves `score = 0`. -/
theorem score_never_incremented_witness :
    (tick ratLibm inTarget1State (quietFrame 0)).score = 0 ∧
      (run ratLibm (init ratLibm 0) [keyFrame [fireKey], quietFrame 0]).score = 0 :=
  ⟨(score_never_incremented ratLibm 0 inTarget1State (quietFrame 0) []).2.1,
    (score_never_incremented ratLibm 0 inTarget1State (quietFrame 0)
      [keyFrame [fireKey], quietFrame 0]).1⟩

section geometry_lemmas

theorem obstacleBox_exclusive {x y a b c d a2 b2 c2 d2 : K}
    (h : b + 0.15 ≤ a2 - 0.15 ∨ b2 + 0.15 ≤ a - 0.15) :
    ¬(obstacleBox x y a b c d ∧ obstacleBox x y a2 b2 c2 d2) := by
  rintro ⟨⟨h1, h2, -, -⟩, ⟨h3, h4, -, -⟩⟩
  rcases h with h | h
  · exact absurd (lt_of_lt_of_le h2 (le_trans h h3)) (lt_irrefl x)
  · exact absurd (lt_of_lt_of_le h4 (le_trans h h1)) (lt_irrefl x)

theorem floorBand_exclusive {x y a b c a2 b2 c2 : K}
    (h : c + 0.15 ≤ c2 ∨ c2 + 0.15 ≤ c ∨ b ≤ a2 ∨ b2 ≤ a) :
    ¬(floorBand x y a b c ∧ floorBand x y a2 b2 c2) := by
  rintro ⟨⟨h1, h2, h3, h4⟩, ⟨h5, h6, h7, h8⟩⟩
  rcases h with h | h | h | h
  · exact absurd (lt_of_lt_of_le h2 (le_trans h h5)) (lt_irrefl y)
  · exact absurd (lt_of_lt_of_le h6 (le_trans h h1)) (lt_irrefl y)
  · exact absurd (lt_trans (lt_of_lt_of_le h3 h) h8) (lt_irrefl x)
  · exact absurd (lt_trans (lt_of_lt_of_le h7 h) h4) (lt_irrefl x)

theorem floorBand_obstacleBox_exclusive {x y a b c a2 b2 c2 d2 : K} (h : d2 ≤ c) :
    ¬(floorBand x y a b c ∧ obstacleBox x y a2 b2 c2 d2) := by
  rintro ⟨⟨h1, -, -, -⟩, ⟨-, -, h3, -⟩⟩
  exact absurd (lt_of_lt_of_le h3 (le_trans h h1)) (lt_irrefl y)

/-- The obstacle checks change `vx` by at most one reflection. -/
theorem obstacleChecks_vx (s : State K) :
    (obstacleChecks s).vx = s.vx ∨ (obstacleChecks s).vx = -1 * s.e * s.vx := by
  by_cases h : anyObstacleBox s.x_cannonball s.y_cannonball
  · rw [obstacleChecks_of_box s h]
    exact Or.inr rfl
  · rw [obstacleChecks_of_not_box s h]
    exact Or.inl rfl

end geometry_lemmas

/-- C24.  With the configured geometry, at every point `(x, y)` no two of the
four obstacle checks are satisfied together, no two of the five floor-band
checks are satisfied together, and no obstacle-top band is satisfied together
with the check of its own obstacle; hence the obstacle checks of an iteration
leave `vx` as it was or reflect it exactly once. -/
theorem checks_mutually_exclusive (s : State K) (x y : K) :
    (¬(obstacleBox x y (-1.2) (-0.8) (-3.0) (-2.0) ∧
          obstacleBox x y (-2.2) (-1.8) (-3.0) (-2.25)) ∧
        ¬(obstacleBox x y (-1.2) (-0.8) (-3.0) (-2.0) ∧
          obstacleBox x y 0.8 1.2 (-3.0) (-2.25)) ∧
        ¬(obstacleBox x y (-1.2) (-0.8) (-3.0) (-2.0) ∧
          obstacleBox x y (-0.2) 0.2 (-3.0) (-1.5)) ∧
        ¬(obstacleBox x y (-2.2) (-1.8) (-3.0) (-2.25) ∧
          obstacleBox x y 0.8 1.2 (-3.0) (-2.25)) ∧
        ¬(obstacleBox x y (-2.2) (-1.8) (-3.0) (-2.25) ∧
          obstacleBox x y (-0.2) 0.2 (-3.0) (-1.5)) ∧
        ¬(obstacleBox x y 0.8 1.2 (-3.0) (-2.25) ∧
          obstacleBox x y (-0.2) 0.2 (-3.0) (-1.5))) ∧
      (¬(floorBand x y (-6.0) 6.0 (-3.0) ∧ floorBand x y (-1.2) (-0.8) (-2.0)) ∧
        ¬(floorBand x y (-6.0) 6.0 (-3.0) ∧ floorBand x y (-2.2) (-1.8) (-2.25)) ∧
        ¬(floorBand x y (-6.0) 6.0 (-3.0) ∧ floorBand x y 0.8 1.2 (-2.25)) ∧
        ¬(floorBand x y (-6.0) 6.0 (-3.0) ∧ floorBand x y (-0.2) 0.2 (-1.5)) ∧
        ¬(floorBand x y (-1.2) (-0.8) (-2.0) ∧ floorBand x y (-2.2) (-1.8) (-2.25)) ∧
        ¬(floorBand x y (-1.2) (-0.8) (-2.0) ∧ floorBand x y 0.8 1.2 (-2.25)) ∧
        ¬(floorBand x y (-1.2) (-0.8) (-2.0) ∧ floorBand x y (-0.2) 0.2 (-1.5)) ∧
        ¬(floorBand x y (-2.2) (-1.8) (-2.25) ∧ floorBand x y 0.8 1.2 (-2.25)) ∧
        ¬(floorBand x y (-2.2) (-1.8) (-2.25) ∧ floorBand x y (-0.2) 0.2 (-1.5)) ∧
        ¬(floorBand x y 0.8 1.2 (-2.25) ∧ floorBand x y (-0.2) 0.2 (-1.5))) ∧
      (¬(floorBand x y (-1.2) (-0.8) (-2.0) ∧ obstacleBox x y (-1.2) (-0.8) (-3.0) (-2.0)) ∧
        ¬(floorBand x y (-2.2) (-1.8) (-2.25) ∧
          obstacleBox x y (-2.2) (-1.8) (-3.0) (-2.25)) ∧
        ¬(floorBand x y 0.8 1.2 (-2.25) ∧ obstacleBox x y 0.8 1.2 (-3.0) (-2.25)) ∧
        ¬(floorBand x y (-0.2) 0.2 (-1.5) ∧ obstacleBox x y (-0.2) 0.2 (-3.0) (-1.5))) ∧
      ((obstacleChecks s).vx = s.vx ∨ (obstacleChecks s).vx = -1 * s.e * s.vx) := by
  refine ⟨⟨?_, ?_, ?_, ?_, ?_, ?_⟩, ⟨?_, ?_, ?_, ?_, ?_, ?_, ?_, ?_, ?_, ?_⟩,
    ⟨?_, ?_, ?_, ?_⟩, obstacleChecks_vx s⟩
  · exact obstacleBox_exclusive (by norm_num)
  · exact obstacleBox_exclusive (by norm_num)
  · exact obstacleBox_exclusive (by norm_num)
  · exact obstacleBox_exclusive (by norm_num)
  · exact obstacleBox_exclusive (by norm_num)
  · exact obstacleBox_exclusive (by norm_num)
  · exact floorBand_exclusive (by norm_num)
  · exact floorBand_exclusive (by norm_num)
  · exact floorBand_exclusive (by norm_num)
  · exact floorBand_exclusive (by norm_num)
  · exact floorBand_exclusive (by norm_num)
  · exact floorBand_exclusive (by norm_num)
  · exact floorBand_exclusive (by norm_num)
  · exact floorBand_exclusive (by norm_num)
  · exact floorBand_exclusive (by norm_num)
  · exact floorBand_exclusive (by norm_num)
  · exact floorBand_obstacleBox_exclusive (le_refl _)
  · exact floorBand_obstacleBox_exclusive (le_refl _)
  · exact floorBand_obstacleBox_exclusive (le_refl _)
  · exact floorBand_obstacleBox_exclusive (le_refl _)

/-- C25.  Horizontal launch velocity.  From a state whose `vx` is the startup
value `4 * cos 45°` (the initial state, or a state reached from it just after
a reset, which sets `vx = ux`), with a math library for which
`sqrt 2 * cos 45° = 1`, for every aim angle and every launch speed the first
iteration after a fire trigger samples with `vx = 4 * cos(thita)`, whatever
the launch speed `u`, while the sampled height uses `u * sin(thita)`; that
iteration ends with this `vx` when no obstacle check fires, the ball is inside
the world bounds and the watchdog is not due. -/
theorem horizontal_launch_velocity (M : MathLib K) (s : State K) (now start u2 : K)
    (f : Frame K) (frames : List (Frame K))
    (hvx : s.vx = 4 * M.cosDeg 45) (hM : M.sqrt 2 * M.cosDeg 45 = 1) :
    (sampled M (keyboard s Key.SPACE Action.RELEASE now)).vx = 4 * M.cosDeg s.thita ∧
      (sampled M (keyboard { s with u := u2 } Key.SPACE Action.RELEASE now)).vx =
        4 * M.cosDeg s.thita ∧
      (sampled M (keyboard s Key.SPACE Action.RELEASE now)).y_cannonball =
        s.y_till_collision + s.u * M.sinDeg s.thita * s.t - 0.5 * s.g * s.t ^ 2 ∧
      (¬ anyObstacleBox
            (sampled M (keyboard s Key.SPACE Action.RELEASE now)).x_cannonball
            (sampled M (keyboard s Key.SPACE Action.RELEASE now)).y_cannonball →
        ¬ outOfBounds M (keyboard s Key.SPACE Action.RELEASE now) →
        ¬ watchdogDue M (keyboard s Key.SPACE Action.RELEASE now) f →
          (tick M (keyboard s Key.SPACE Action.RELEASE now) f).vx = 4 * M.cosDeg s.thita) ∧
      (init M start).vx = 4 * M.cosDeg 45 ∧
      (run M (init M start) frames).ux = 4 * M.cosDeg 45 := by
  have hfac : ∀ p : State K, p.vx = 4 * M.cosDeg 45 →
      (fireCorrection M (keyboard p Key.SPACE Action.RELEASE now)).vx =
        4 * M.cosDeg p.thita := by
    intro p hp
    have hfl : (keyboard p Key.SPACE Action.RELEASE now).fl = true := rfl
    rw [fireCorrection_of_pending M _ hfl]
    show p.vx * (M.sqrt 2 * M.cosDeg p.thita) = 4 * M.cosDeg p.thita
    rw [hp]
    calc 4 * M.cosDeg 45 * (M.sqrt 2 * M.cosDeg p.thita)
        = 4 * (M.sqrt 2 * M.cosDeg 45) * M.cosDeg p.thita := by ring
      _ = 4 * M.cosDeg p.thita := by rw [hM, mul_one]
  refine ⟨?_, ?_, ?_, ?_, ?_, ?_⟩
  · rw [sampled_vx, hfac s hvx]
  · rw [sampled_vx]
    exact hfac { s with u := u2 } hvx
  · rw [sampled_eq]
    show s.y_till_collision + s.u * M.sinDeg s.thita * s.t - 0.5 * s.g * s.t * s.t = _
    ring
  · intro hb ho hd
    rw [tick_vx_of_no_box M _ f hb ho hd, hfac s hvx]
  · show (4.0 : K) * M.cosDeg 45 = 4 * M.cosDeg 45
    norm_num
  · have h : (run M (init M start) frames).ux = 4.0 * M.cosDeg 45 :=
      congrArg Prod.fst (run_constants M (init M start) frames)
    rw [h]
    norm_num

/-- Witness of C25, over the reals with the exact cosine and square root: a
shot fired from the initial state (aim 45 degrees) is sampled with
`vx = 4 * cos 45°`, also when the launch speed has been set to 7. -/
theorem horizontal_launch_velocity_witness :
    (sampled (⟨fun d => Real.cos (d * Real.pi / 180),
        fun d => Real.sin (d * Real.pi / 180), Real.sqrt⟩ : MathLib ℝ)
      (keyboard (init (⟨fun d => Real.cos (d * Real.pi / 180),
        fun d => Real.sin (d * Real.pi / 180), Real.sqrt⟩ : MathLib ℝ) 0)
        Key.SPACE Action.RELEASE 0)).vx = 4 * Real.cos (45 * Real.pi / 180) ∧
      (sampled (⟨fun d => Real.cos (d * Real.pi / 180),
        fun d => Real.sin (d * Real.pi / 180), Real.sqrt⟩ : MathLib ℝ)
      (keyboard { init (⟨fun d => Real.cos (d * Real.pi / 180),
        fun d => Real.sin (d * Real.pi / 180), Real.sqrt⟩ : MathLib ℝ) 0 with u := 7 }
        Key.SPACE Action.RELEASE 0)).vx = 4 * Real.cos (45 * Real.pi / 180) := by
  have hcos : Real.cos ((45 : ℝ) * Real.pi / 180) = Real.sqrt 2 / 2 := by
    have h : (45 : ℝ) * Real.pi / 180 = Real.pi / 4 := by ring
    rw [h, Real.cos_pi_div_four]
  have hsq : Real.sqrt 2 * Real.sqrt 2 = 2 := Real.mul_self_sqrt (by norm_num)
  have hM : Real.sqrt 2 * Real.cos ((45 : ℝ) * Real.pi / 180) = 1 := by
    rw [hcos]
    linarith
  have h := horizontal_launch_velocity (⟨fun d => Real.cos (d * Real.pi / 180),
      fun d => Real.sin (d * Real.pi / 180), Real.sqrt⟩ : MathLib ℝ)
    (init (⟨fun d => Real.cos (d * Real.pi / 180),
      fun d => Real.sin (d * Real.pi / 180), Real.sqrt⟩ : MathLib ℝ) 0) 0 0 7
    ⟨0, [], 0⟩ []
    (by show (4.0 : ℝ) * Real.cos ((45 : ℝ) * Real.pi / 180) = 4 * Real.cos (45 * Real.pi / 180)
        norm_num)
    hM
  exact ⟨h.1, h.2.1⟩

section reset_lemmas

variable (M : MathLib K) (s : State K)

/-- The position an iteration samples when no correction is pending. -/
theorem sampled_of_not_pending (h : s.fl = false) :
    (sampled M s).x_cannonball = s.x_till_collision + s.vx * (s.t - s.t_till_now) ∧
      (sampled M s).y_cannonball =
        s.y_till_collision + s.u * M.sinDeg s.thita_ball * s.t - 0.5 * s.g * s.t * s.t := by
  rw [sampled_eq, fireCorrection_of_not_pending M s h]
  exact ⟨rfl, rfl⟩

/-- The position sampled from a state that a reset has just left, with the
anchor time `τ` it kept. -/
theorem sampled_after_reset (r : State K) (hfl : r.fl = false) (ht : r.t = 0)
    (hx : r.x_till_collision = -3.0) (hy : r.y_till_collision = -2.75) :
    (sampled M r).x_cannonball = -3 - r.vx * r.t_till_now ∧
      (sampled M r).y_cannonball = -2.75 := by
  obtain ⟨h1, h2⟩ := sampled_of_not_pending M r hfl
  rw [h1, h2, ht, hx, hy]
  constructor
  · norm_num
    ring
  · norm_num

theorem tick_ux (f : Frame K) : (tick M s f).ux = s.ux :=
  congrArg Prod.fst (tick_constants M s f)

/-- The variables a resetting iteration without key events ends with. -/
theorem tick_reset_fields (f : Frame K) (hev : f.events = [])
    (h : outOfBounds M s ∨ watchdogDue M s f) :
    (tick M s f).fl = false ∧ (tick M s f).t = 0 ∧ (tick M s f).vx = s.ux ∧
      (tick M s f).x_till_collision = -3.0 ∧ (tick M s f).y_till_collision = -2.75 := by
  have hfl : (tick M s f).fl = false := by
    rw [tick_fl, hev]; rfl
  have hux : (pollEvents (simulate M s f.resetTime) f.events).ux = s.ux := by
    have h1 : launchConstants (pollEvents (simulate M s f.resetTime) f.events) =
        launchConstants s := by
      rw [pollEvents_constants, simulate_constants]
    exact congrArg Prod.fst h1
  by_cases hd : watchdogDue M s f
  · refine ⟨hfl, ?_, ?_, ?_, ?_⟩
    · rw [tick_of_due M s f hd]
    · rw [tick_of_due M s f hd]; exact hux
    · rw [tick_of_due M s f hd]
    · rw [tick_of_due M s f hd]
  · have ho : outOfBounds M s := by
      rcases h with h | h
      · exact h
      · exact absurd h hd
    have hsim : simulate M s f.resetTime =
        { advance (checked M s) with
          in_air_flag := false
          collision_flag := false
          t := 0
          vx := (advance (checked M s)).ux
          x_till_collision := -3.0
          y_till_collision := -2.75
          fire := false
          u := 4.0
          last_update_time := f.resetTime } := by
      rw [simulate_eq_checked, boundsReset_of_outside]
      rw [advance_x_cannonball, checked_x_cannonball]
      exact ho
    have hux2 : (advance (checked M s)).ux = s.ux := by
      have h1 : launchConstants (advance (checked M s)) = launchConstants s := by
        simp [checked, sampled]
      exact congrArg Prod.fst h1
    refine ⟨hfl, ?_, ?_, ?_, ?_⟩
    · rw [tick_of_not_due M s f hd, hev, pollEvents_nil, hsim]
    · rw [tick_of_not_due M s f hd, hev, pollEvents_nil, hsim]; exact hux2
    · rw [tick_of_not_due M s f hd, hev, pollEvents_nil, hsim]
    · rw [tick_of_not_due M s f hd, hev, pollEvents_nil, hsim]

end reset_lemmas

/-- C27.  Neither the world-bounds reset nor the watchdog reset assigns
`t_till_now`, `obs_collision`, `thita_ball`, `thita` or `Target_visible`.
Hence, after an iteration without key events that performs either reset, with
`τ` the `t_till_now` it ends with, the next iteration samples
`x = -3 - ux * τ` and `y = -2.75`; with `ux` nonzero this is the muzzle
`(-3, -2.75)` only when `τ = 0`. -/
theorem resets_keep_anchor_time (M : MathLib K) (s p : State K) (now current : K)
    (f : Frame K) :
    ((boundsReset p now).t_till_now = p.t_till_now ∧
        (boundsReset p now).obs_collision = p.obs_collision ∧
        (boundsReset p now).thita_ball = p.thita_ball ∧
        (boundsReset p now).thita = p.thita ∧
        (boundsReset p now).Target_visible = p.Target_visible) ∧
      ((watchdog p current).t_till_now = p.t_till_now ∧
        (watchdog p current).obs_collision = p.obs_collision ∧
        (watchdog p current).thita_ball = p.thita_ball ∧
        (watchdog p current).thita = p.thita ∧
        (watchdog p current).Target_visible = p.Target_visible) ∧
      (f.events = [] → outOfBounds M s ∨ watchdogDue M s f →
        (sampled M (tick M s f)).x_cannonball = -3 - s.ux * (tick M s f).t_till_now ∧
          (sampled M (tick M s f)).y_cannonball = -2.75 ∧
          (s.ux ≠ 0 →
            ((sampled M (tick M s f)).x_cannonball = -3 ↔ (tick M s f).t_till_now = 0))) := by
  refine ⟨?_, ?_, ?_⟩
  · unfold boundsReset
    split_ifs <;> exact ⟨rfl, rfl, rfl, rfl, rfl⟩
  · unfold watchdog
    split_ifs <;> exact ⟨rfl, rfl, rfl, rfl, rfl⟩
  · intro hev h
    obtain ⟨hfl, ht, hvx, hx, hy⟩ := tick_reset_fields M s f hev h
    obtain ⟨h1, h2⟩ := sampled_after_reset M (tick M s f) hfl ht hx hy
    rw [hvx] at h1
    refine ⟨h1, h2, ?_⟩
    intro hux
    rw [h1]
    constructor
    · intro h3
      have h4 : s.ux * (tick M s f).t_till_now = 0 := by linarith
      rcases mul_eq_zero.mp h4 with h5 | h5
      · exact absurd h5 hux
      · exact h5
    · intro h3
      rw [h3]
      ring

/-- Witness of C27: the ball of `strayAfterWallState` leaves the world with
`t_till_now = 0.3`; after the reset the next iteration samples
`x = -3 - ux * 0.3`, which is not the muzzle's `-3`. -/
theorem resets_keep_anchor_time_witness :
    outOfBounds ratLibm strayAfterWallState ∧
      (tick ratLibm strayAfterWallState (quietFrame 1)).t_till_now = 0.3 ∧
      (sampled ratLibm (tick ratLibm strayAfterWallState (quietFrame 1))).x_cannonball =
        -3 - 48 / 17 * 0.3 ∧
      (sampled ratLibm (tick ratLibm strayAfterWallState (quietFrame 1))).y_cannonball =
        -2.75 ∧
      (sampled ratLibm (tick ratLibm strayAfterWallState (quietFrame 1))).x_cannonball ≠ -3 := by
  have hxy : (sampled ratLibm strayAfterWallState).x_cannonball = 4.6 ∧
      (sampled ratLibm strayAfterWallState).y_cannonball = -2.5 := by
    norm_num [sampled, samplePosition, fireCorrection, strayAfterWallState, init, ratLibm]
  have hout : outOfBounds ratLibm strayAfterWallState := by
    unfold outOfBounds
    rw [hxy.1]
    norm_num
  have htau : (tick ratLibm strayAfterWallState (quietFrame 1)).t_till_now = 0.3 := by
    norm_num [tick, simulate, strayAfterWallState, init, ratLibm, quietFrame, watchdog,
      pollEvents, boundsReset, advance, obstacleChecks, obstacleBounce, checkCollisionObs,
      obstacleBox, floorChecks, CheckFloorCollisions, floorBand, drawTarget1, drawTarget2,
      checkCollisionTarget, diagnostics, samplePosition, fireCorrection]
  have hux : strayAfterWallState.ux = 48 / 17 := by
    norm_num [strayAfterWallState, init, ratLibm]
  have h := (resets_keep_anchor_time ratLibm strayAfterWallState strayAfterWallState 0 0
    (quietFrame 1)).2.2 rfl (Or.inl hout)
  rw [htau, hux] at h
  refine ⟨hout, htau, h.1, h.2.1, ?_⟩
  rw [h.1]
  norm_num

section retrigger_lemmas

variable (M : MathLib K) (s : State K)

theorem anyFloorBand_of_configured {x y a b c : K} (hc : configuredBand a b c)
    (h : floorBand x y a b c) : anyFloorBand x y := by
  unfold anyFloorBand
  rcases hc with ⟨h1, h2, h3⟩ | ⟨h1, h2, h3⟩ | ⟨h1, h2, h3⟩ | ⟨h1, h2, h3⟩ | ⟨h1, h2, h3⟩ <;>
    subst h1 h2 h3
  · exact Or.inl h
  · exact Or.inr (Or.inl h)
  · exact Or.inr (Or.inr (Or.inl h))
  · exact Or.inr (Or.inr (Or.inr (Or.inl h)))
  · exact Or.inr (Or.inr (Or.inr (Or.inr h)))

/-- Above `y = -3` an obstacle check that does not fire at `(x, y)` does not
fire at `(x, y + 0.1)` either. -/
theorem anyObstacleBox_of_raised {x y : K} (hy : -3 < y)
    (h : anyObstacleBox x (y + 0.1)) : anyObstacleBox x y := by
  unfold anyObstacleBox obstacleBox at h ⊢
  norm_num at h ⊢
  rcases h with ⟨h1, h2, h3, h4⟩ | ⟨h1, h2, h3, h4⟩ | ⟨h1, h2, h3, h4⟩ | ⟨h1, h2, h3, h4⟩
  · exact Or.inl ⟨h1, h2, by linarith, hy⟩
  · exact Or.inr (Or.inl ⟨h1, h2, by linarith, hy⟩)
  · exact Or.inr (Or.inr (Or.inl ⟨h1, h2, by linarith, hy⟩))
  · exact Or.inr (Or.inr (Or.inr ⟨h1, h2, by linarith, hy⟩))

/-- The state an iteration without key events ends in when a floor-band check
fires, no obstacle check fires, the ball is inside the world bounds and the
watchdog is not due. -/
theorem tick_floor_bounce (f : Frame K)
    (hfloor : anyFloorBand (sampled M s).x_cannonball (sampled M s).y_cannonball)
    (hobs : ¬ anyObstacleBox (sampled M s).x_cannonball (sampled M s).y_cannonball)
    (hx : (sampled M s).x_cannonball ∈ Set.Icc (-4.5 : K) 4.5)
    (hev : f.events = []) (hwd : f.current - s.last_update_time < 10) :
    ∃ tv : Bool,
      tick M s f =
        { sampled M s with
          current_time := f.current
          vy := s.uy - s.g * s.t
          v := M.sqrt ((fireCorrection M s).vx ^ 2 + (s.uy - s.g * s.t) ^ 2)
          Target_visible := tv
          collision_flag := false
          in_air_flag := true
          fire := false
          x_till_collision := (sampled M s).x_cannonball
          y_till_collision := (sampled M s).y_cannonball + 0.1
          obs_collision := false
          t_till_now := 0
          u := s.u * s.e
          t := 0
          y_cannonball := (sampled M s).y_cannonball + 0.1 } := by
  obtain ⟨tv, hsim⟩ := simulate_floor_bounce M s f.resetTime hfloor hobs hx
  refine ⟨tv, ?_⟩
  have hlast : (simulate M s f.resetTime).last_update_time = s.last_update_time := by
    rw [hsim, sampled_eq]
  rw [tick, hev, pollEvents_nil, watchdog_of_not_due _ _ (by rw [hlast]; exact hwd), hsim]

/-- What the iteration after such a floor bounce samples, and the values it
reads. -/
theorem after_floor_bounce (f : Frame K)
    (hfloor : anyFloorBand (sampled M s).x_cannonball (sampled M s).y_cannonball)
    (hobs : ¬ anyObstacleBox (sampled M s).x_cannonball (sampled M s).y_cannonball)
    (hx : (sampled M s).x_cannonball ∈ Set.Icc (-4.5 : K) 4.5)
    (hev : f.events = []) (hwd : f.current - s.last_update_time < 10) :
    (sampled M (tick M s f)).x_cannonball = (sampled M s).x_cannonball ∧
      (sampled M (tick M s f)).y_cannonball = (sampled M s).y_cannonball + 0.1 ∧
      (tick M s f).u = s.u * s.e ∧ (tick M s f).e = s.e ∧
      (tick M s f).last_update_time = s.last_update_time := by
  obtain ⟨tv, ht⟩ := tick_floor_bounce M s f hfloor hobs hx hev hwd
  have hfl : (tick M s f).fl = false := by
    rw [tick_fl, hev]; rfl
  obtain ⟨h1, h2⟩ := sampled_of_not_pending M (tick M s f) hfl
  rw [h1, h2, ht]
  refine ⟨?_, ?_, rfl, ?_, ?_⟩
  · show (sampled M s).x_cannonball + (sampled M s).vx * (0 - 0) = _
    ring
  · show (sampled M s).y_cannonball + 0.1 +
      s.u * s.e * M.sinDeg (sampled M s).thita_ball * 0 - 0.5 * (sampled M s).g * 0 * 0 = _
    ring
  · rw [sampled_eq]
  · rw [sampled_eq]

end retrigger_lemmas

/-- C26.  Floor-hit re-trigger.  Let one of the five configured floor bands,
of floor height `yFloor`, fire at the sampled position `(x, y)`, with no
obstacle check firing, the ball inside the world bounds, no key event and the
watchdog not due.  The next iteration samples `(x, y + 0.1)`.  If
`y < yFloor + 0.05` that position is in the same band, and when again no
obstacle check fires, no key event arrives and the watchdog is not due, the
launch speed after the two iterations is `e ^ 2` times the original.  If
`y ≥ yFloor + 0.05` the position `(x, y + 0.1)` is outside that band.  Above
`y = -3` no obstacle check can fire at `(x, y + 0.1)` when none fired at
`(x, y)`. -/
theorem floor_hit_retrigger (M : MathLib K) (s : State K) (f1 f2 : Frame K)
    (xMin xMax yFloor : K) (hcfg : configuredBand xMin xMax yFloor)
    (hband : floorBand (sampled M s).x_cannonball (sampled M s).y_cannonball xMin xMax yFloor)
    (hobs : ¬ anyObstacleBox (sampled M s).x_cannonball (sampled M s).y_cannonball)
    (hx : (sampled M s).x_cannonball ∈ Set.Icc (-4.5 : K) 4.5)
    (hev : f1.events = []) (hwd : f1.current - s.last_update_time < 10) :
    (sampled M (tick M s f1)).x_cannonball = (sampled M s).x_cannonball ∧
      (sampled M (tick M s f1)).y_cannonball = (sampled M s).y_cannonball + 0.1 ∧
      (tick M s f1).u = s.e * s.u ∧
      ((sampled M s).y_cannonball < yFloor + 0.05 →
        floorBand (sampled M (tick M s f1)).x_cannonball
            (sampled M (tick M s f1)).y_cannonball xMin xMax yFloor ∧
          (¬ anyObstacleBox (sampled M (tick M s f1)).x_cannonball
                (sampled M (tick M s f1)).y_cannonball →
            f2.events = [] → f2.current - s.last_update_time < 10 →
              (tick M (tick M s f1) f2).u = s.e ^ 2 * s.u)) ∧
      (yFloor + 0.05 ≤ (sampled M s).y_cannonball →
        ¬ floorBand (sampled M (tick M s f1)).x_cannonball
          (sampled M (tick M s f1)).y_cannonball xMin xMax yFloor) ∧
      (-3 < (sampled M s).y_cannonball →
        ¬ anyObstacleBox (sampled M (tick M s f1)).x_cannonball
          (sampled M (tick M s f1)).y_cannonball) := by
  have hfloor := anyFloorBand_of_configured hcfg hband
  obtain ⟨h1, h2, h3, h4, h5⟩ := after_floor_bounce M s f1 hfloor hobs hx hev hwd
  rw [h1, h2]
  refine ⟨rfl, rfl, by rw [h3, mul_comm], ?_, ?_, ?_⟩
  · intro hlow
    have hband2 : floorBand (sampled M s).x_cannonball ((sampled M s).y_cannonball + 0.1)
        xMin xMax yFloor := by
      obtain ⟨b1, b2, b3, b4⟩ := hband
      refine ⟨?_, ?_, b3, b4⟩
      · have : (0 : K) ≤ 0.1 := by norm_num
        exact le_trans b1 (le_add_of_nonneg_right this)
      · have h6 : (0.05 : K) + 0.1 = 0.15 := by norm_num
        calc (sampled M s).y_cannonball + 0.1 < yFloor + 0.05 + 0.1 :=
              add_lt_add_right hlow _
          _ = yFloor + 0.15 := by rw [add_assoc, h6]
    refine ⟨hband2, ?_⟩
    intro hobs2 hev2 hwd2
    have hfloor2 : anyFloorBand (sampled M (tick M s f1)).x_cannonball
        (sampled M (tick M s f1)).y_cannonball := by
      rw [h1, h2]
      exact anyFloorBand_of_configured hcfg hband2
    have hobs2' : ¬ anyObstacleBox (sampled M (tick M s f1)).x_cannonball
        (sampled M (tick M s f1)).y_cannonball := by
      rw [h1, h2]
      exact hobs2
    have hx2 : (sampled M (tick M s f1)).x_cannonball ∈ Set.Icc (-4.5 : K) 4.5 := by
      rw [h1]
      exact hx
    have hsecond := (after_floor_bounce M (tick M s f1) f2 hfloor2 hobs2' hx2 hev2
      (by rw [h5]; exact hwd2)).2.2.1
    rw [hsecond, h3, h4]
    ring
  · intro hhigh hb
    obtain ⟨-, b2, -, -⟩ := hb
    have h6 : (0.05 : K) + 0.1 = 0.15 := by norm_num
    have h7 : yFloor + 0.15 ≤ (sampled M s).y_cannonball + 0.1 := by
      rw [← h6, ← add_assoc]
      exact add_le_add_right hhigh _
    exact absurd (lt_of_lt_of_le b2 h7) (lt_irrefl _)
  · intro hy hb
    exact hobs (anyObstacleBox_of_raised hy hb)

/-- Witness of C26: the ball of `lowLandingState` lands at `(-2.5, -2.98)` on
the ground band; the next iteration samples `(-2.5, -2.88)`, still on the
band, and after the two iterations the launch speed is `0.36 * 4 = 1.44`. -/
theorem floor_hit_retrigger_witness :
    (sampled ratLibm lowLandingState).x_cannonball = -2.5 ∧
      (sampled ratLibm lowLandingState).y_cannonball = -2.98 ∧
      (sampled ratLibm (tick ratLibm lowLandingState (quietFrame 1))).y_cannonball = -2.88 ∧
      floorBand (sampled ratLibm (tick ratLibm lowLandingState (quietFrame 1))).x_cannonball
        (sampled ratLibm (tick ratLibm lowLandingState (quietFrame 1))).y_cannonball
        (-6.0) 6.0 (-3.0) ∧
      (tick ratLibm (tick ratLibm lowLandingState (quietFrame 1)) (quietFrame 1)).u = 1.44 := by
  have hxy : (sampled ratLibm lowLandingState).x_cannonball = -2.5 ∧
      (sampled ratLibm lowLandingState).y_cannonball = -2.98 := by
    norm_num [sampled, samplePosition, fireCorrection, lowLandingState, init, ratLibm]
  have hband : floorBand (sampled ratLibm lowLandingState).x_cannonball
      (sampled ratLibm lowLandingState).y_cannonball (-6.0) 6.0 (-3.0) := by
    rw [hxy.1, hxy.2]; norm_num [floorBand]
  have hobs : ¬ anyObstacleBox (sampled ratLibm lowLandingState).x_cannonball
      (sampled ratLibm lowLandingState).y_cannonball := by
    rw [hxy.1, hxy.2]; norm_num [anyObstacleBox, obstacleBox]
  have hx : (sampled ratLibm lowLandingState).x_cannonball ∈ Set.Icc (-4.5 : ℚ) 4.5 := by
    rw [hxy.1]; norm_num [Set.mem_Icc]
  have h := floor_hit_retrigger ratLibm lowLandingState (quietFrame 1) (quietFrame 1)
    (-6.0) 6.0 (-3.0) (Or.inl ⟨rfl, rfl, rfl⟩) hband hobs hx rfl
    (by norm_num [quietFrame, lowLandingState, init])
  obtain ⟨h1, h2, -, h4, -, h6⟩ := h
  obtain ⟨hb2, hu⟩ := h4 (by rw [hxy.2]; norm_num)
  have hu2 := hu (h6 (by rw [hxy.2]; norm_num)) rfl
    (by norm_num [quietFrame, lowLandingState, init])
  refine ⟨hxy.1, hxy.2, ?_, hb2, ?_⟩
  · rw [h2, hxy.2]; norm_num
  · rw [hu2]; norm_num [lowLandingState, init]

section still_lemmas

variable (M : MathLib K) (s : State K)

/-- The state the collision checks leave when no check fires and the sampled
position is in neither target rectangle. -/
theorem checked_of_nothing_hit (hno : ¬ hitDetected M s) (h1 : target1Hit M s = false)
    (h2 : target2Hit M s = false) :
    checked M s =
      { sampled M s with
        vy := s.uy - s.g * s.t
        v := M.sqrt ((fireCorrection M s).vx ^ 2 + (s.uy - s.g * s.t) ^ 2) } := by
  obtain ⟨tv, hp⟩ := checks_input_eq M s
  have htv : tv = s.Target_visible := by
    have h := drawTargets_Target_visible M s
    rw [hp, h1, h2] at h
    simpa using h
  unfold hitDetected at hno
  push_neg at hno
  rw [checked, hp, floorChecks_of_not_band _ (by exact hno.1),
    obstacleChecks_of_not_box _ (by exact hno.2), htv, sampled_eq]

/-- An iteration in which nothing happens: no correction is pending, no check
fires, the sampled position is in no target, neither branch of lines 1581-1630
is taken, the ball is not outside the world bounds, no key event is polled and
the watchdog is not due.  Only the position sample, the diagnostic velocity
and the clock reading are written. -/
theorem tick_of_still (f : Frame K) (hfl : s.fl = false) (hno : ¬ hitDetected M s)
    (h1 : target1Hit M s = false) (h2 : target2Hit M s = false)
    (hadv : ¬((s.fire = true ∨ (s.in_air_flag = true ∧ s.collision_flag = false)) ∧
      ((sampled M s).x_cannonball > -4.5 ∧ (sampled M s).x_cannonball < 4.5)))
    (hcol : ¬(s.collision_flag = true ∧ s.in_air_flag = false))
    (ho : ¬ outOfBounds M s) (hev : f.events = [])
    (hwd : f.current - s.last_update_time < 10) :
    tick M s f =
      { s with
        x_cannonball := (sampled M s).x_cannonball
        y_cannonball := (sampled M s).y_cannonball
        vy := s.uy - s.g * s.t
        v := M.sqrt (s.vx ^ 2 + (s.uy - s.g * s.t) ^ 2)
        current_time := f.current } := by
  have hfc : fireCorrection M s = s := fireCorrection_of_not_pending M s hfl
  have hs : sampled M s =
      { s with
        x_cannonball := (sampled M s).x_cannonball
        y_cannonball := (sampled M s).y_cannonball } := by
    unfold sampled
    rw [hfc]
    rfl
  have hchk : checked M s =
      { s with
        x_cannonball := (sampled M s).x_cannonball
        y_cannonball := (sampled M s).y_cannonball
        vy := s.uy - s.g * s.t
        v := M.sqrt (s.vx ^ 2 + (s.uy - s.g * s.t) ^ 2) } := by
    rw [checked_of_nothing_hit M s hno h1 h2, hfc]
    conv_lhs => rw [hs]
  have hadv2 : advance (checked M s) = checked M s := by
    rw [hchk, advance, if_neg (by exact hadv), if_neg (by exact hcol)]
  have hsim : simulate M s f.resetTime = checked M s := by
    rw [boundsReset_of_inBounds M s _ ho, hadv2]
  have hlast : (simulate M s f.resetTime).last_update_time = s.last_update_time := by
    rw [hsim, hchk]
  rw [tick, hev, pollEvents_nil, watchdog_of_not_due _ _ (by rw [hlast]; exact hwd), hsim,
    hchk]

theorem engineState_fields (r : State K) (h : engineState r = engineState s) :
    r.fl = s.fl ∧ r.fire = s.fire ∧ r.in_air_flag = s.in_air_flag ∧
      r.collision_flag = s.collision_flag ∧ r.last_update_time = s.last_update_time ∧
      sampled M r = { sampled M s with vy := r.vy, v := r.v, current_time := r.current_time }
      := by
  have hr : r = { engineState r with
      x_cannonball := r.x_cannonball, y_cannonball := r.y_cannonball, vy := r.vy, v := r.v,
      current_time := r.current_time } := rfl
  have e1 : (engineState r).fl = (engineState s).fl := congrArg State.fl h
  have e2 : (engineState r).fire = (engineState s).fire := congrArg State.fire h
  have e3 : (engineState r).in_air_flag = (engineState s).in_air_flag :=
    congrArg State.in_air_flag h
  have e4 : (engineState r).collision_flag = (engineState s).collision_flag :=
    congrArg State.collision_flag h
  have e5 : (engineState r).last_update_time = (engineState s).last_update_time :=
    congrArg State.last_update_time h
  refine ⟨e1, e2, e3, e4, e5, ?_⟩
  have hfc : fireCorrection M r =
      { fireCorrection M s with
        x_cannonball := r.x_cannonball, y_cannonball := r.y_cannonball, vy := r.vy, v := r.v,
        current_time := r.current_time } := by
    rw [hr, h]
    unfold fireCorrection engineState
    split_ifs <;> rfl
  unfold sampled
  rw [hfc]
  rfl

end still_lemmas

section freeze_lemmas

variable (M : MathLib K) (s : State K)

theorem stillState_congr (r : State K) (h : engineState r = engineState s)
    (hs : stillState M s) : stillState M r := by
  obtain ⟨e1, e2, e3, e4, -, e6⟩ := engineState_fields M s r h
  have hx : (sampled M r).x_cannonball = (sampled M s).x_cannonball := by rw [e6]
  have hy : (sampled M r).y_cannonball = (sampled M s).y_cannonball := by rw [e6]
  obtain ⟨s1, s2, s3, s4, s5, s6, s7⟩ := hs
  refine ⟨by rw [e1, s1], ?_, ?_, ?_, ?_, ?_, ?_⟩
  · unfold hitDetected at s2 ⊢
    rw [hx, hy]
    exact s2
  · unfold target1Hit at s3 ⊢
    rw [hx, hy]
    exact s3
  · unfold target2Hit at s4 ⊢
    rw [hx, hy]
    exact s4
  · rw [e2, e3, e4, hx]
    exact s5
  · rw [e3, e4]
    exact s6
  · unfold outOfBounds at s7 ⊢
    rw [hx]
    exact s7

theorem tick_of_stillState (f : Frame K) (hs : stillState M s) (hev : f.events = [])
    (hwd : f.current - s.last_update_time < 10) :
    tick M s f =
      { s with
        x_cannonball := (sampled M s).x_cannonball
        y_cannonball := (sampled M s).y_cannonball
        vy := s.uy - s.g * s.t
        v := M.sqrt (s.vx ^ 2 + (s.uy - s.g * s.t) ^ 2)
        current_time := f.current } := by
  obtain ⟨s1, s2, s3, s4, s5, s6, s7⟩ := hs
  exact tick_of_still M s f s1 s2 s3 s4 s5 s6 s7 hev hwd

theorem tick_engineState_of_still (f : Frame K) (hs : stillState M s) (hev : f.events = [])
    (hwd : f.current - s.last_update_time < 10) :
    engineState (tick M s f) = engineState s := by
  rw [tick_of_stillState M s f hs hev hwd]
  rfl

/-- Over frames without key events and with the watchdog never due, a still
state stays as it is, up to the variables every iteration writes afresh. -/
theorem run_engineState_of_still (frames : List (Frame K)) (hs : stillState M s)
    (hq : ∀ g ∈ frames, g.events = [] ∧ g.current - s.last_update_time < 10) :
    ∀ r : State K, engineState r = engineState s →
      engineState (run M r frames) = engineState s := by
  induction frames with
  | nil => intro r hr; exact hr
  | cons f rest ih =>
    intro r hr
    have hstill := stillState_congr M s r hr hs
    have hlast : r.last_update_time = s.last_update_time :=
      (engineState_fields M s r hr).2.2.2.2.1
    obtain ⟨hev, hwd⟩ := hq f (List.mem_cons_self _ _)
    rw [run_cons]
    apply ih (fun g hg => hq g (List.mem_cons_of_mem _ hg))
    rw [tick_engineState_of_still M r f hstill hev (by rw [hlast]; exact hwd), hr]

/-- A second quiet iteration of a still state changes nothing but the clock
reading. -/
theorem tick_twice_of_still (f g : Frame K) (hs : stillState M s) (hev : f.events = [])
    (hwd : f.current - s.last_update_time < 10) (hev2 : g.events = [])
    (hwd2 : g.current - s.last_update_time < 10) :
    tick M (tick M s f) g = { tick M s f with current_time := g.current } := by
  have heng := tick_engineState_of_still M s f hs hev hwd
  have hr := stillState_congr M s (tick M s f) heng hs
  obtain ⟨-, -, -, -, e5, e6⟩ := engineState_fields M s (tick M s f) heng
  have hx : (sampled M (tick M s f)).x_cannonball = (sampled M s).x_cannonball := by rw [e6]
  have hy : (sampled M (tick M s f)).y_cannonball = (sampled M s).y_cannonball := by rw [e6]
  rw [tick_of_stillState M (tick M s f) g hr hev2 (by rw [e5]; exact hwd2), hx, hy,
    tick_of_stillState M s f hs hev hwd]

theorem sampled_position_of_engineState (r : State K) (h : engineState r = engineState s) :
    (sampled M r).x_cannonball = (sampled M s).x_cannonball ∧
      (sampled M r).y_cannonball = (sampled M s).y_cannonball := by
  have e6 := (engineState_fields M s r h).2.2.2.2.2
  constructor <;> rw [e6]

theorem targets_missed_of_x {x y : K} (hx : x < 1.5 ∨ 2.5 < x) :
    checkCollisionTarget x y 1.5 2.5 (-3.0) (-2.0) = false ∧
      checkCollisionTarget x y 1.6 2.4 (-2.0) (-1.0) = false := by
  unfold checkCollisionTarget
  constructor
  · rw [if_neg]
    rintro ⟨h1, h2, -, -⟩
    rcases hx with hx | hx
    · exact absurd (lt_of_lt_of_le hx h1) (lt_irrefl _)
    · exact absurd (lt_of_lt_of_le hx h2) (lt_irrefl _)
  · rw [if_neg]
    rintro ⟨h1, h2, -, -⟩
    rcases hx with hx | hx
    · have : (1.5 : K) ≤ 1.6 := by norm_num
      exact absurd (lt_of_lt_of_le hx (le_trans this h1)) (lt_irrefl _)
    · have : (2.4 : K) ≤ 2.5 := by norm_num
      exact absurd (lt_of_lt_of_le hx (le_trans h2 this)) (lt_irrefl _)

end freeze_lemmas

/-- C28.  Boundary freeze.  Let `s` be a firing or airborne state, not
colliding, with no fire correction pending, whose sampled `x` is exactly 4.5
or exactly -4.5 and whose sampled position fires no floor-band or obstacle
check.  An iteration without key events and with the watchdog not due writes
only the position sample, the diagnostic velocity and the clock reading and
leaves every other variable as it was: the clock advance, which needs
`-4.5 < x < 4.5`, and the world-bounds reset, which needs `x < -4.5` or
`x > 4.5`, both fail.  A second such iteration changes nothing but the clock
reading.  Over any further frames without key events and
with the watchdog not due this stays so, and every iteration samples the same
position. -/
theorem boundary_freeze (M : MathLib K) (s : State K) (f g : Frame K)
    (frames : List (Frame K))
    (hfly : s.fire = true ∨ s.in_air_flag = true) (hcol : s.collision_flag = false)
    (hfl : s.fl = false)
    (hx : (sampled M s).x_cannonball = 4.5 ∨ (sampled M s).x_cannonball = -4.5)
    (hno : ¬ hitDetected M s) (hev : f.events = [])
    (hwd : f.current - s.last_update_time < 10) :
    tick M s f =
        { s with
          x_cannonball := (sampled M s).x_cannonball
          y_cannonball := (sampled M s).y_cannonball
          vy := s.uy - s.g * s.t
          v := M.sqrt (s.vx ^ 2 + (s.uy - s.g * s.t) ^ 2)
          current_time := f.current } ∧
      ((s.fire = true ∨ (s.in_air_flag = true ∧ s.collision_flag = false)) ∧
        ¬((sampled M s).x_cannonball > -4.5 ∧ (sampled M s).x_cannonball < 4.5) ∧
        ¬((sampled M s).x_cannonball < -4.5 ∨ (sampled M s).x_cannonball > 4.5)) ∧
      engineState (tick M s f) = engineState s ∧
      (tick M s f).t = s.t ∧
      ((sampled M (tick M s f)).x_cannonball = (sampled M s).x_cannonball ∧
        (sampled M (tick M s f)).y_cannonball = (sampled M s).y_cannonball) ∧
      (g.events = [] ∧ g.current - s.last_update_time < 10 →
        tick M (tick M s f) g = { tick M s f with current_time := g.current }) ∧
      ((∀ g ∈ frames, g.events = [] ∧ g.current - s.last_update_time < 10) →
        engineState (run M s frames) = engineState s ∧
          (sampled M (run M s frames)).x_cannonball = (sampled M s).x_cannonball ∧
          (sampled M (run M s frames)).y_cannonball = (sampled M s).y_cannonball) := by
  have hxb : (sampled M s).x_cannonball < 1.5 ∨ 2.5 < (sampled M s).x_cannonball := by
    rcases hx with h | h
    · right; rw [h]; norm_num
    · left; rw [h]; norm_num
  have hstill : stillState M s := by
    refine ⟨hfl, hno, (targets_missed_of_x hxb).1, (targets_missed_of_x hxb).2, ?_, ?_, ?_⟩
    · rintro ⟨-, h1, h2⟩
      rcases hx with h | h
      · rw [h] at h2; exact absurd h2 (lt_irrefl _)
      · rw [h] at h1; exact absurd h1 (lt_irrefl _)
    · rw [hcol]; simp
    · unfold outOfBounds
      rcases hx with h | h
      · rw [h]; norm_num
      · rw [h]; norm_num
  have htick := tick_of_stillState M s f hstill hev hwd
  have heng := tick_engineState_of_still M s f hstill hev hwd
  refine ⟨htick, ⟨?_, ?_, ?_⟩, heng, ?_, sampled_position_of_engineState M s _ heng, ?_, ?_⟩
  · rcases hfly with h | h
    · exact Or.inl h
    · exact Or.inr ⟨h, hcol⟩
  · rintro ⟨h1, h2⟩
    rcases hx with h | h
    · rw [h] at h2; exact absurd h2 (lt_irrefl _)
    · rw [h] at h1; exact absurd h1 (lt_irrefl _)
  · rcases hx with h | h
    · rw [h]; norm_num
    · rw [h]; norm_num
  · rw [htick]
  · rintro ⟨hev2, hwd2⟩
    exact tick_twice_of_still M s f g hstill hev hwd hev2 hwd2
  · intro hq
    have hrun := run_engineState_of_still M s frames hstill hq s rfl
    exact ⟨hrun, sampled_position_of_engineState M s _ hrun⟩

/-- Witness of C28: the ball of `boundaryState` is sampled at `(4.5, -2.5)`;
after one quiet iteration and after two more the clock is still `0.5` and the
sampled position is still `(4.5, -2.5)`. -/
theorem boundary_freeze_witness :
    (sampled ratLibm boundaryState).x_cannonball = 4.5 ∧
      (sampled ratLibm boundaryState).y_cannonball = -2.5 ∧
      (tick ratLibm boundaryState (quietFrame 1)).t = 0.5 ∧
      (sampled ratLibm (tick ratLibm boundaryState (quietFrame 1))).x_cannonball = 4.5 ∧
      (sampled ratLibm
        (run ratLibm boundaryState [quietFrame 2, quietFrame 3])).x_cannonball = 4.5 := by
  have hxy : (sampled ratLibm boundaryState).x_cannonball = 4.5 ∧
      (sampled ratLibm boundaryState).y_cannonball = -2.5 := by
    norm_num [sampled, samplePosition, fireCorrection, boundaryState, init, ratLibm]
  have hno : ¬ hitDetected ratLibm boundaryState := by
    unfold hitDetected
    rw [hxy.1, hxy.2]
    norm_num [anyFloorBand, floorBand, anyObstacleBox, obstacleBox]
  have h := boundary_freeze ratLibm boundaryState (quietFrame 1) (quietFrame 2)
    [quietFrame 2, quietFrame 3]
    (Or.inr rfl) rfl rfl (Or.inl hxy.1) hno rfl (by norm_num [quietFrame, boundaryState, init])
  obtain ⟨-, -, -, h3, h4, -, h5⟩ := h
  have h6 := h5 (by
    intro g hg
    simp only [List.mem_cons, List.mem_singleton, List.not_mem_nil, or_false] at hg
    rcases hg with rfl | rfl <;> exact ⟨rfl, by norm_num [quietFrame, boundaryState, init]⟩)
  refine ⟨hxy.1, hxy.2, ?_, ?_, ?_⟩
  · rw [h3]; norm_num [boundaryState]
  · rw [h4.1, hxy.1]
  · rw [h6.2.1, hxy.1]

/-- C29.  Idle stability.  In the canonical idle state (`fire`, `in_air_flag`
and `collision_flag` clear, `t = 0`, `t_till_now = 0`, anchor `(-3, -2.75)`, no
fire correction pending), whatever the aim angle and the launch speed, the
sampled position is the muzzle `(-3, -2.75)`, none of the five floor-band
checks and four obstacle checks fires there, and an iteration without key
events and with the watchdog not due writes only the position sample, the
diagnostic velocity and the clock reading, leaving every other variable as it
was; a second such iteration changes nothing but the clock reading, and any
further run of such iterations keeps the state and samples the muzzle. -/
theorem idle_stability (M : MathLib K) (s : State K) (f g : Frame K)
    (frames : List (Frame K))
    (hfire : s.fire = false) (hair : s.in_air_flag = false) (hcol : s.collision_flag = false)
    (ht : s.t = 0) (htau : s.t_till_now = 0) (hxt : s.x_till_collision = -3.0)
    (hyt : s.y_till_collision = -2.75) (hfl : s.fl = false) (hev : f.events = [])
    (hwd : f.current - s.last_update_time < 10) :
    ((sampled M s).x_cannonball = -3 ∧ (sampled M s).y_cannonball = -2.75) ∧
      (¬ anyFloorBand (-3 : K) (-2.75) ∧ ¬ anyObstacleBox (-3 : K) (-2.75)) ∧
      ¬ hitDetected M s ∧
      tick M s f =
        { s with
          x_cannonball := -3
          y_cannonball := -2.75
          vy := s.uy - s.g * s.t
          v := M.sqrt (s.vx ^ 2 + (s.uy - s.g * s.t) ^ 2)
          current_time := f.current } ∧
      engineState (tick M s f) = engineState s ∧
      (g.events = [] ∧ g.current - s.last_update_time < 10 →
        tick M (tick M s f) g = { tick M s f with current_time := g.current }) ∧
      ((∀ g ∈ frames, g.events = [] ∧ g.current - s.last_update_time < 10) →
        engineState (run M s frames) = engineState s ∧
          (sampled M (run M s frames)).x_cannonball = -3 ∧
          (sampled M (run M s frames)).y_cannonball = -2.75) := by
  have hxy : (sampled M s).x_cannonball = -3 ∧ (sampled M s).y_cannonball = -2.75 := by
    obtain ⟨h1, h2⟩ := sampled_of_not_pending M s hfl
    rw [h1, h2, ht, htau, hxt, hyt]
    constructor <;> norm_num
  have hgeo : ¬ anyFloorBand (-3 : K) (-2.75) ∧ ¬ anyObstacleBox (-3 : K) (-2.75) := by
    constructor
    · norm_num [anyFloorBand, floorBand]
    · norm_num [anyObstacleBox, obstacleBox]
  have hno : ¬ hitDetected M s := by
    unfold hitDetected
    rw [hxy.1, hxy.2]
    push_neg
    exact hgeo
  have hxb : (sampled M s).x_cannonball < 1.5 ∨ 2.5 < (sampled M s).x_cannonball := by
    left; rw [hxy.1]; norm_num
  have hstill : stillState M s := by
    refine ⟨hfl, hno, (targets_missed_of_x hxb).1, (targets_missed_of_x hxb).2, ?_, ?_, ?_⟩
    · rw [hfire, hair]; simp
    · rw [hcol]; simp
    · unfold outOfBounds
      rw [hxy.1]; norm_num
  have htick := tick_of_stillState M s f hstill hev hwd
  have heng := tick_engineState_of_still M s f hstill hev hwd
  refine ⟨hxy, hgeo, hno, ?_, heng, ?_, ?_⟩
  · rw [htick, hxy.1, hxy.2]
  · rintro ⟨hev2, hwd2⟩
    exact tick_twice_of_still M s f g hstill hev hwd hev2 hwd2
  · intro hq
    have hrun := run_engineState_of_still M s frames hstill hq s rfl
    obtain ⟨h1, h2⟩ := sampled_position_of_engineState M s _ hrun
    exact ⟨hrun, by rw [h1, hxy.1], by rw [h2, hxy.2]⟩

/-- Witness of C29: the initial state is the canonical idle state; one quiet
iteration samples the muzzle and keeps `t = 0`, `u = 4`, the aim and the
flags. -/
theorem idle_stability_witness :
    (sampled ratLibm (init ratLibm 0)).x_cannonball = -3 ∧
      (sampled ratLibm (init ratLibm 0)).y_cannonball = -2.75 ∧
      (tick ratLibm (init ratLibm 0) (quietFrame 1)).x_cannonball = -3 ∧
      engineState (tick ratLibm (init ratLibm 0) (quietFrame 1)) =
        engineState (init ratLibm 0) := by
  have h := idle_stability ratLibm (init ratLibm 0) (quietFrame 1) (quietFrame 2) [] rfl rfl
    rfl rfl rfl rfl rfl rfl rfl (by norm_num [quietFrame, init])
  obtain ⟨h1, -, -, h4, h5, -, -⟩ := h
  refine ⟨h1.1, h1.2, ?_, h5⟩
  rw [h4]

section refiredState_lemmas

theorem floor_neg_three_eighths : ⌊(-135 : ℚ) / 360⌋ = -1 := by
  rw [Int.floor_eq_iff]; norm_num

theorem floor_neg_one_eighth : ⌊((-135 : ℚ) + 90) / 360⌋ = -1 := by
  rw [Int.floor_eq_iff]; norm_num

@[simp]
theorem sinDegQ_neg_one_three_five : sinDegQ (-135) = -(12 / 17) := by
  simp only [sinDegQ, floor_neg_three_eighths]; norm_num [bhaskara]

@[simp]
theorem cosDegQ_neg_one_three_five : cosDegQ (-135) = -(12 / 17) := by
  simp only [cosDegQ, sinDegQ, floor_neg_one_eighth]; norm_num [bhaskara]

/-- The values of `refiredState` that the next iteration reads. -/
theorem refiredState_values :
    refiredState.fl = true ∧ refiredState.vx = -(13848 / 4913) ∧ refiredState.t = 0.04 ∧
      refiredState.t_till_now = 0 ∧ refiredState.u = 4 ∧ refiredState.g = 4 ∧
      refiredState.e = 0.6 ∧ refiredState.thita_ball = -135 ∧
      refiredState.x_till_collision = -3 ∧ refiredState.y_till_collision = -2.75 ∧
      refiredState.last_update_time = 0 := by
  norm_num [refiredState, run, tick, simulate, init, ratLibm, aimBackAndFire,
    keyFrame, quietFrame, fireKey, aimDownKey, List.replicate, watchdog, pollEvents,
    keyboard, boundsReset, advance, obstacleChecks, obstacleBounce, checkCollisionObs,
    obstacleBox, floorChecks, CheckFloorCollisions, floorBand, drawTarget1, drawTarget2,
    checkCollisionTarget, diagnostics, samplePosition, fireCorrection]

end refiredState_lemmas

section refiredState_bounce

theorem refiredState_sampled :
    (fireCorrection ratLibm refiredState).vx = 3995148 / 1419857 ∧
      (sampled ratLibm refiredState).x_cannonball = -3 + 3995148 / 1419857 * 0.04 ∧
      (sampled ratLibm refiredState).y_cannonball = -2.75 - 1.92 / 17 - 0.0032 := by
  obtain ⟨h1, h2, h3, h4, h5, h6, -, h8, h9, h10, -⟩ := refiredState_values
  have hv : (fireCorrection ratLibm refiredState).vx = 3995148 / 1419857 := by
    rw [fireCorrection_of_pending ratLibm refiredState h1, h2, h8]
    norm_num [ratLibm]
  rw [sampled_eq]
  refine ⟨hv, ?_, ?_⟩
  · show refiredState.x_till_collision +
      (fireCorrection ratLibm refiredState).vx * (refiredState.t - refiredState.t_till_now) = _
    rw [hv, h9, h3, h4]
    norm_num
  · show refiredState.y_till_collision +
      refiredState.u * ratLibm.sinDeg refiredState.thita_ball * refiredState.t -
        0.5 * refiredState.g * refiredState.t * refiredState.t = _
    rw [h3, h5, h6, h8, h10]
    norm_num [ratLibm]

end refiredState_bounce

section polled_bounce_lemmas

variable (M : MathLib K) (s : State K)

theorem keyboard_bounce_fields (key : Key) (action : Action) (now : K) :
    (keyboard s key action now).y_cannonball = s.y_cannonball ∧
      (keyboard s key action now).y_till_collision = s.y_till_collision := by
  cases key <;> cases action <;> exact ⟨rfl, rfl⟩

theorem pollEvents_bounce_fields (events : List (KeyEvent K)) :
    (pollEvents s events).y_cannonball = s.y_cannonball ∧
      (pollEvents s events).y_till_collision = s.y_till_collision := by
  induction events generalizing s with
  | nil => exact ⟨rfl, rfl⟩
  | cons ev rest ih =>
    have hstep : pollEvents s (ev :: rest) =
        pollEvents (keyboard s ev.key ev.action ev.time) rest := rfl
    rw [hstep, (ih _).1, (ih _).2]
    exact keyboard_bounce_fields s ev.key ev.action ev.time

/-- With the clock at zero the sampled height is the anchor height. -/
theorem sampled_y_of_clock_zero (h : s.t = 0) :
    (sampled M s).y_cannonball = s.y_till_collision := by
  rw [sampled_eq]
  show s.y_till_collision + s.u * M.sinDeg s.thita_ball * s.t - 0.5 * s.g * s.t * s.t = _
  rw [h]
  ring

/-- The state an iteration ends in, whatever key events it polls, when a
floor-band check fires, no obstacle check fires, the ball is inside the world
bounds and the watchdog is not due. -/
theorem tick_floor_bounce_polled (f : Frame K)
    (hfloor : anyFloorBand (sampled M s).x_cannonball (sampled M s).y_cannonball)
    (hobs : ¬ anyObstacleBox (sampled M s).x_cannonball (sampled M s).y_cannonball)
    (hx : (sampled M s).x_cannonball ∈ Set.Icc (-4.5 : K) 4.5)
    (hd : ¬ watchdogDue M s f) :
    (tick M s f).in_air_flag = true ∧ (tick M s f).collision_flag = false ∧
      (tick M s f).t = 0 ∧ (tick M s f).vx = (fireCorrection M s).vx ∧
      (tick M s f).y_cannonball = (sampled M s).y_cannonball + 0.1 ∧
      (tick M s f).y_till_collision = (sampled M s).y_cannonball + 0.1 ∧
      ((∀ ev ∈ f.events, isSpeedKey ev = false) → (tick M s f).u = s.e * s.u) := by
  obtain ⟨tv, hsim⟩ := simulate_floor_bounce M s f.resetTime hfloor hobs hx
  rw [tick_of_not_due M s f hd]
  refine ⟨?_, ?_, ?_, ?_, ?_, ?_, ?_⟩
  · show (pollEvents (simulate M s f.resetTime) f.events).in_air_flag = true
    rw [pollEvents_in_air_flag, hsim]
  · show (pollEvents (simulate M s f.resetTime) f.events).collision_flag = false
    rw [pollEvents_collision_flag, hsim]
  · show (pollEvents (simulate M s f.resetTime) f.events).t = 0
    rw [pollEvents_t, hsim]
  · show (pollEvents (simulate M s f.resetTime) f.events).vx = _
    rw [pollEvents_vx, hsim, sampled_eq]
  · show (pollEvents (simulate M s f.resetTime) f.events).y_cannonball = _
    rw [(pollEvents_bounce_fields _ _).1, hsim]
  · show (pollEvents (simulate M s f.resetTime) f.events).y_till_collision = _
    rw [(pollEvents_bounce_fields _ _).2, hsim]
  · intro hsp
    show (pollEvents (simulate M s f.resetTime) f.events).u = _
    rw [pollEvents_u _ _ hsp, hsim]
    exact mul_comm _ _

end polled_bounce_lemmas

/-- C4, counterexample.  The state `refiredState` is reached from the initial
state: the shot is fired at -135 degrees and the fire trigger is polled again
while the ball is in flight, so a correction of `vx` is pending.  The next
iteration samples a position on the ground band where no obstacle check fires,
with `x` within `[-4.5, 4.5]` and the watchdog not due; it resolves the floor
bounce (`t = 0`, `u = 0.6 * 4`), and `vx` changes from `-13848/4913` to
`3995148/1419857`. -/
theorem floor_bounce_velocity_counterexample :
    refiredState.fl = true ∧
      anyFloorBand (sampled ratLibm refiredState).x_cannonball
        (sampled ratLibm refiredState).y_cannonball ∧
      ¬ anyObstacleBox (sampled ratLibm refiredState).x_cannonball
        (sampled ratLibm refiredState).y_cannonball ∧
      (sampled ratLibm refiredState).x_cannonball ∈ Set.Icc (-4.5 : ℚ) 4.5 ∧
      (quietFrame 0).current - refiredState.last_update_time < 10 ∧
      (tick ratLibm refiredState (quietFrame 0)).in_air_flag = true ∧
      (tick ratLibm refiredState (quietFrame 0)).collision_flag = false ∧
      (tick ratLibm refiredState (quietFrame 0)).t = 0 ∧
      (tick ratLibm refiredState (quietFrame 0)).u = 2.4 ∧
      refiredState.vx = -(13848 / 4913) ∧
      (tick ratLibm refiredState (quietFrame 0)).vx = 3995148 / 1419857 ∧
      (tick ratLibm refiredState (quietFrame 0)).vx ≠ refiredState.vx := by
  obtain ⟨h1, h2, -, -, h5, -, h7, -, -, -, h11⟩ := refiredState_values
  obtain ⟨hv, hsx, hsy⟩ := refiredState_sampled
  have hfloor : anyFloorBand (sampled ratLibm refiredState).x_cannonball
      (sampled ratLibm refiredState).y_cannonball := by
    rw [hsx, hsy]; norm_num [anyFloorBand, floorBand]
  have hobs : ¬ anyObstacleBox (sampled ratLibm refiredState).x_cannonball
      (sampled ratLibm refiredState).y_cannonball := by
    rw [hsx, hsy]; norm_num [anyObstacleBox, obstacleBox]
  have hx : (sampled ratLibm refiredState).x_cannonball ∈ Set.Icc (-4.5 : ℚ) 4.5 := by
    rw [hsx]; norm_num [Set.mem_Icc]
  have hwd : (quietFrame 0).current - refiredState.last_update_time < 10 := by
    rw [h11]; norm_num [quietFrame]
  have hd : ¬ watchdogDue ratLibm refiredState (quietFrame 0) := by
    unfold watchdogDue
    obtain ⟨tv, hsim⟩ := simulate_floor_bounce ratLibm refiredState (quietFrame 0).resetTime
      hfloor hobs hx
    have hl : (pollEvents (simulate ratLibm refiredState (quietFrame 0).resetTime)
        (quietFrame 0).events).last_update_time = refiredState.last_update_time := by
      show (simulate ratLibm refiredState (quietFrame 0).resetTime).last_update_time = _
      rw [hsim, sampled_eq]
    rw [hl]
    exact not_le.mpr hwd
  obtain ⟨t1, t2, t3, t4, -, -, t7⟩ :=
    tick_floor_bounce_polled ratLibm refiredState (quietFrame 0) hfloor hobs hx hd
  have hu : (tick ratLibm refiredState (quietFrame 0)).u = 2.4 := by
    rw [t7 (by simp [quietFrame]), h5, h7]; norm_num
  refine ⟨h1, hfloor, hobs, hx, hwd, t1, t2, t3, hu, h2, by rw [t4, hv], ?_⟩
  rw [t4, hv, h2]
  norm_num

/-- C4, as the code has it.  Floor-bounce resolution.  In an iteration in
which a floor-band check fires at the sampled position, no obstacle check
fires and the sampled `x` is within `[-4.5, 4.5]`, the simulation part of the
iteration leaves `in_air_flag` set, `collision_flag` clear,
`u = e * (previous u)`, `t = 0`, and both the ball's `y` and the anchor's `y`
equal to the hit `y + 0.1`; it leaves `vx` equal to the velocity the position
was sampled with, which is the previous `vx` when no fire correction is
pending and the previous `vx` times `sqrt(2) * cos(thita_ball)` when one is.
When the watchdog is not due the same holds of the state the iteration ends
in, whatever key events it polls (`u = e * (previous u)` when no speed key is
among them), and the position sampled by the next iteration has `y` equal to
that anchor height. -/
theorem floor_bounce (M : MathLib K) (s : State K) (f : Frame K)
    (hfloor : anyFloorBand (sampled M s).x_cannonball (sampled M s).y_cannonball)
    (hobs : ¬ anyObstacleBox (sampled M s).x_cannonball (sampled M s).y_cannonball)
    (hx : (sampled M s).x_cannonball ∈ Set.Icc (-4.5 : K) 4.5) :
    ((simulate M s f.resetTime).in_air_flag = true ∧
        (simulate M s f.resetTime).collision_flag = false ∧
        (simulate M s f.resetTime).u = s.e * s.u ∧
        (simulate M s f.resetTime).t = 0 ∧
        (simulate M s f.resetTime).vx = (fireCorrection M s).vx ∧
        (s.fl = false → (simulate M s f.resetTime).vx = s.vx) ∧
        (s.fl = true →
          (simulate M s f.resetTime).vx = s.vx * (M.sqrt 2 * M.cosDeg s.thita_ball)) ∧
        (simulate M s f.resetTime).y_cannonball = (sampled M s).y_cannonball + 0.1 ∧
        (simulate M s f.resetTime).y_till_collision = (sampled M s).y_cannonball + 0.1) ∧
      (f.events = [] → f.current - s.last_update_time < 10 →
        (tick M s f).in_air_flag = true ∧
          (tick M s f).collision_flag = false ∧
          (tick M s f).u = s.e * s.u ∧
          (tick M s f).t = 0 ∧
          (tick M s f).vx = (fireCorrection M s).vx ∧
          (s.fl = false → (tick M s f).vx = s.vx) ∧
          (s.fl = true → (tick M s f).vx = s.vx * (M.sqrt 2 * M.cosDeg s.thita_ball)) ∧
          (tick M s f).y_cannonball = (sampled M s).y_cannonball + 0.1 ∧
          (tick M s f).y_till_collision = (sampled M s).y_cannonball + 0.1 ∧
          (sampled M (tick M s f)).y_cannonball = (sampled M s).y_cannonball + 0.1) ∧
      (¬ watchdogDue M s f →
        (tick M s f).in_air_flag = true ∧
          (tick M s f).collision_flag = false ∧
          ((∀ ev ∈ f.events, isSpeedKey ev = false) → (tick M s f).u = s.e * s.u) ∧
          (tick M s f).t = 0 ∧
          (tick M s f).vx = (fireCorrection M s).vx ∧
          (s.fl = false → (tick M s f).vx = s.vx) ∧
          (s.fl = true → (tick M s f).vx = s.vx * (M.sqrt 2 * M.cosDeg s.thita_ball)) ∧
          (tick M s f).y_cannonball = (sampled M s).y_cannonball + 0.1 ∧
          (tick M s f).y_till_collision = (sampled M s).y_cannonball + 0.1 ∧
          (sampled M (tick M s f)).y_cannonball = (sampled M s).y_cannonball + 0.1) := by
  obtain ⟨tv, hsim⟩ := simulate_floor_bounce M s f.resetTime hfloor hobs hx
  have hvx0 : s.fl = false → (fireCorrection M s).vx = s.vx := by
    intro h; rw [fireCorrection_of_not_pending M s h]
  have hvx1 : s.fl = true →
      (fireCorrection M s).vx = s.vx * (M.sqrt 2 * M.cosDeg s.thita_ball) :=
    fireCorrection_of_pending M s
  have hlast : (simulate M s f.resetTime).last_update_time = s.last_update_time := by
    rw [hsim, sampled_eq]
  have hpolled : ¬ watchdogDue M s f →
      (tick M s f).in_air_flag = true ∧
        (tick M s f).collision_flag = false ∧
        ((∀ ev ∈ f.events, isSpeedKey ev = false) → (tick M s f).u = s.e * s.u) ∧
        (tick M s f).t = 0 ∧
        (tick M s f).vx = (fireCorrection M s).vx ∧
        (s.fl = false → (tick M s f).vx = s.vx) ∧
        (s.fl = true → (tick M s f).vx = s.vx * (M.sqrt 2 * M.cosDeg s.thita_ball)) ∧
        (tick M s f).y_cannonball = (sampled M s).y_cannonball + 0.1 ∧
        (tick M s f).y_till_collision = (sampled M s).y_cannonball + 0.1 ∧
        (sampled M (tick M s f)).y_cannonball = (sampled M s).y_cannonball + 0.1 := by
    intro hd
    obtain ⟨t1, t2, t3, t4, t5, t6, t7⟩ := tick_floor_bounce_polled M s f hfloor hobs hx hd
    refine ⟨t1, t2, t7, t3, t4, ?_, ?_, t5, t6, ?_⟩
    · intro h; rw [t4, hvx0 h]
    · intro h; rw [t4, hvx1 h]
    · rw [sampled_y_of_clock_zero M _ t3, t6]
  refine ⟨?_, ?_, hpolled⟩
  · have hv : (simulate M s f.resetTime).vx = (fireCorrection M s).vx := by
      rw [hsim, sampled_eq]
    refine ⟨by rw [hsim], by rw [hsim], ?_, by rw [hsim], hv, ?_, ?_, by rw [hsim],
      by rw [hsim]⟩
    · rw [hsim]; exact mul_comm _ _
    · intro h; rw [hv, hvx0 h]
    · intro h; rw [hv, hvx1 h]
  · intro hev hwd
    have hd : ¬ watchdogDue M s f := by
      unfold watchdogDue
      rw [hev, pollEvents_nil, hlast]
      exact not_le.mpr hwd
    obtain ⟨p1, p2, p3, p4, p5, p6, p7, p8, p9, p10⟩ := hpolled hd
    exact ⟨p1, p2, p3 (by rw [hev]; intro ev hm; exact absurd hm (List.not_mem_nil ev)),
      p4, p5, p6, p7, p8, p9, p10⟩

/-- Witness of C4: the ball of `landingState` lands at `(-2.5, -2.9)` with
`u = 4` and `e = 0.6`; after the iteration `u = 2.4`, `t = 0` and the next
sampled `y` is `-2.8`. -/
theorem floor_bounce_witness :
    anyFloorBand (sampled ratLibm landingState).x_cannonball
        (sampled ratLibm landingState).y_cannonball ∧
      (tick ratLibm landingState (quietFrame 1)).in_air_flag = true ∧
      (tick ratLibm landingState (quietFrame 1)).collision_flag = false ∧
      (tick ratLibm landingState (quietFrame 1)).u = 2.4 ∧
      (tick ratLibm landingState (quietFrame 1)).t = 0 ∧
      (tick ratLibm landingState (quietFrame 1)).vx = 1 ∧
      (tick ratLibm landingState (quietFrame 1)).y_till_collision = -2.8 ∧
      (sampled ratLibm (tick ratLibm landingState (quietFrame 1))).y_cannonball = -2.8 := by
  have hxy : (sampled ratLibm landingState).x_cannonball = -2.5 ∧
      (sampled ratLibm landingState).y_cannonball = -2.9 := by
    norm_num [sampled, samplePosition, fireCorrection, landingState, init, ratLibm]
  have hfloor : anyFloorBand (sampled ratLibm landingState).x_cannonball
      (sampled ratLibm landingState).y_cannonball := by
    rw [hxy.1, hxy.2]; norm_num [anyFloorBand, floorBand]
  have hobs : ¬ anyObstacleBox (sampled ratLibm landingState).x_cannonball
      (sampled ratLibm landingState).y_cannonball := by
    rw [hxy.1, hxy.2]; norm_num [anyObstacleBox, obstacleBox]
  have hx : (sampled ratLibm landingState).x_cannonball ∈ Set.Icc (-4.5 : ℚ) 4.5 := by
    rw [hxy.1]; norm_num [Set.mem_Icc]
  have h := (floor_bounce ratLibm landingState (quietFrame 1) hfloor hobs hx).2.1 rfl
    (by norm_num [quietFrame, landingState, init])
  rw [hxy.2] at h
  obtain ⟨w1, w2, w3, w4, -, w6, -, -, w9, w10⟩ := h
  have he : landingState.e * landingState.u = 2.4 := by norm_num [landingState, init]
  refine ⟨hfloor, w1, w2, by rw [w3, he], w4, ?_, ?_, ?_⟩
  · rw [w6 rfl]; norm_num [landingState]
  · rw [w9]; norm_num
  · rw [w10]; norm_num

end AngryBirds
